import Mathlib

/-!
# oniontrace driver: a shallow embedding of `src/oniontrace-driver.c`

The driver is a single-threaded state machine.  Every C function of the driver is a
function on an explicit `World`: the driver structure, the heap of timers, the heap of
control clients, the event manager's registration table and a chronological log of every
call the driver makes on a collaborator.  Results that only the environment decides (whether
a constructor returns NULL, whether `check()` found the timer expired, the clock) are
arguments of the functions.
-/

namespace OnionTrace

/-! ## Data model -/

/-- The `enum _OnionTraceDriverState` of the source. -/
inductive OnionTraceDriverState where
  | ONIONTRACE_DRIVER_IDLE
  | ONIONTRACE_DRIVER_CONNECTING
  | ONIONTRACE_DRIVER_AUTHENTICATING
  | ONIONTRACE_DRIVER_BOOTSTRAPPING
  | ONIONTRACE_DRIVER_RECORDING
  | ONIONTRACE_DRIVER_PLAYING
  deriving DecidableEq, Repr

open OnionTraceDriverState

/-- The two workload modes of the configuration (`oniontraceconfig_getMode`). -/
inductive OnionTraceMode where
  | ONIONTRACE_MODE_RECORD
  | ONIONTRACE_MODE_PLAY
  deriving DecidableEq, Repr

open OnionTraceMode

/-- Modelled from the spec: the read-only configuration view of section 6 (mode, trace file
name, control port, run-time seconds); its declaration is in `oniontrace.h`. -/
structure OnionTraceConfig where
  mode : OnionTraceMode
  traceFileName : String
  torControlPort : Nat
  runTimeSeconds : Int
  deriving DecidableEq, Repr

/-- The C `struct timespec`. -/
structure Timespec where
  tv_sec : Nat
  tv_nsec : Nat
  deriving DecidableEq, Repr

/-- The C `struct itimerspec`. -/
structure Itimerspec where
  it_interval : Timespec
  it_value : Timespec
  deriving DecidableEq, Repr

/-- The three functions of the driver that are handed to `oniontracetimer_new`. -/
inductive TimerFunc where
  | heartbeat
  | shutdown
  | playCallback
  deriving DecidableEq, Repr

/-- The two functions of the driver that are handed to `oniontraceeventmanager_register`. -/
inductive ReadableFunc where
  | genericTimerReadable
  | playTimerReadable
  deriving DecidableEq, Repr

/-- The three completion callbacks of the driver that are handed to the control client. -/
inductive TorCtlFunc where
  | onConnected
  | onAuthenticated
  | onBootstrapped
  deriving DecidableEq, Repr

/-- Modelled from the spec: a timer of section 4.2.  `armTime` holds the arguments of the
last arm call (`none`: "armed to nothing"); the timer's descriptor is identified with its
handle. -/
structure OnionTraceTimer where
  handle : Nat
  func : TimerFunc
  armTime : Option Itimerspec
  deriving DecidableEq, Repr

/-- Modelled from the spec: a control client of section 4.3.  `pending` is the completion
callback of the command in flight, which the client fires once. -/
structure OnionTraceTorCtl where
  handle : Nat
  controlPort : Nat
  clientPort : Nat
  pending : Option TorCtlFunc
  deriving DecidableEq, Repr

/-- Modelled from the spec: a Recorder of section 4.4, reduced to what the driver sees of
it: its identity and the text of `to_string()`. -/
structure OnionTraceRecorder where
  handle : Nat
  status : String
  deriving DecidableEq, Repr

/-- Modelled from the spec: a Player of section 4.5, reduced to what the driver sees of it:
its identity, the queue of launch instructions (each given by the delay the Player reports
for it), the number of launches issued and the text of `to_string()`. -/
structure OnionTracePlayer where
  handle : Nat
  queue : List Timespec
  issued : Nat
  status : String
  deriving DecidableEq, Repr

/-- What a Recorder or Player constructor builds when it succeeds: the status text and, for
a Player, the parsed trace. -/
structure Subsystem where
  status : String
  trace : List Timespec
  deriving DecidableEq, Repr

/-- One entry of the event manager's table: descriptor, read handler and its context. -/
structure Registration where
  fd : Nat
  func : ReadableFunc
  timer : Nat
  deriving DecidableEq, Repr

/-- Modelled from the spec: the event manager of section 4.1, as the driver uses it: the
table of registered descriptors and the number of `stopMainLoop` requests. -/
structure OnionTraceEventManager where
  registered : List Registration
  stopCount : Nat
  deriving DecidableEq, Repr

/-- The `struct _OnionTraceDriver` of the source.  A pointer to a heap object is the
number (handle) of the object, and a pointer field is an `Option Nat`, NULL being `none`;
an exclusively owned Recorder or Player is held in the field itself.  `manager` is the single event manager of
the `World`; `id` is never NULL once `oniontracedriver_new` has returned. -/
structure OnionTraceDriver where
  config : OnionTraceConfig
  state : OnionTraceDriverState
  id : String
  heartbeatTimer : Option Nat
  shutdownTimer : Option Nat
  nowCached : Timespec
  torctl : Option Nat
  recorder : Option OnionTraceRecorder
  player : Option OnionTracePlayer
  deriving DecidableEq, Repr

/-- Every call the driver makes on a collaborator, in the order it makes them. -/
inductive Event where
  | message (s : String)
  | warning (s : String)
  | critical (s : String)
  | torctlNew (controlPort : Nat) (cb : TorCtlFunc) (result : Option Nat)
  | torctlFree (h : Nat)
  | commandAuthenticate (h : Option Nat) (cb : TorCtlFunc)
  | commandGetBootstrapStatus (h : Option Nat) (cb : TorCtlFunc)
  | recorderNew (torctl : Option Nat) (filename : String) (result : Option Nat)
  | recorderFree (h : Nat)
  | playerNew (torctl : Option Nat) (filename : String) (result : Option Nat)
  | playerFree (h : Nat)
  | getNextCircuitLaunchTime (player : Option Nat) (result : Option Timespec)
  | launchNextCircuit (player : Option Nat)
  | timerNew (t : Nat) (func : TimerFunc)
  | timerArm (t : Nat) (spec : Itimerspec)
  | timerCheck (t : Nat) (calledNotify : Bool)
  | timerFree (t : Nat)
  | register (fd : Nat) (func : ReadableFunc) (t : Nat)
  | stopMainLoop
  | freeId (id : String)
  | freeDriver
  deriving DecidableEq, Repr

/-- The driver together with everything it can reach. -/
structure World where
  driver : OnionTraceDriver
  manager : OnionTraceEventManager
  timers : List OnionTraceTimer
  torctls : List OnionTraceTorCtl
  nextHandle : Nat
  log : List Event
  deriving DecidableEq, Repr

/-- Append one event to the log. -/
def World.emit (w : World) (e : Event) : World :=
  { w with log := w.log ++ [e] }

/-- The `message` logging call of the source. -/
def message (w : World) (s : String) : World := w.emit (.message s)

/-- The `warning` logging call of the source. -/
def warning (w : World) (s : String) : World := w.emit (.warning s)

/-- The `critical` logging call of the source. -/
def critical (w : World) (s : String) : World := w.emit (.critical s)

/-! ## Collaborators (their sources are outside `src/`) -/

/-- Modelled from the spec: `new(cb, context)` of section 4.2 allocates a timer armed to
nothing; the context is always the driver. -/
def oniontracetimer_new (w : World) (func : TimerFunc) : Nat × World :=
  (w.nextHandle,
    { w with
      nextHandle := w.nextHandle + 1
      timers := w.timers ++ [{ handle := w.nextHandle, func := func, armTime := none }]
      log := w.log ++ [.timerNew w.nextHandle func] })

/-- Modelled from the spec: `arm_granular(itimerspec)` of section 4.2. -/
def oniontracetimer_armGranular (w : World) (t : Nat) (spec : Itimerspec) : World :=
  { w with
    timers := w.timers.map fun tm => if tm.handle = t then { tm with armTime := some spec } else tm
    log := w.log ++ [.timerArm t spec] }

/-- Modelled from the spec: `arm(seconds, interval_seconds)` of section 4.2, a whole-second
deadline; a non-zero interval makes the timer periodic. -/
def oniontracetimer_arm (w : World) (t : Nat) (seconds interval : Nat) : World :=
  oniontracetimer_armGranular w t
    { it_interval := { tv_sec := interval, tv_nsec := 0 }
      it_value := { tv_sec := seconds, tv_nsec := 0 } }

/-- Modelled from the spec: `fd()` of section 4.2; a timer's descriptor is its handle. -/
def oniontracetimer_getFD (t : Nat) : Nat := t

/-- Modelled from the spec: `free()` of section 4.2 disarms and releases the timer and
causes its descriptor to be dropped from the reactor. -/
def oniontracetimer_free (w : World) (t : Nat) : World :=
  { w with
    timers := w.timers.filter fun tm => tm.handle ≠ t
    manager := { w.manager with registered := w.manager.registered.filter fun r => r.timer ≠ t }
    log := w.log ++ [.timerFree t] }

/-- Modelled from the spec: `register(fd, readiness, cb, context)` of section 4.1, always
called by the driver with read readiness and the timer as context.  Once `stop()` has been
invoked, "subsequent registrations are rejected": the call is still made, and logged, but
the table stays as it is. -/
def oniontraceeventmanager_register (w : World) (fd : Nat) (func : ReadableFunc)
    (t : Nat) : World :=
  if w.manager.stopCount = 0 then
    { w with
      manager := { w.manager with
        registered := w.manager.registered ++ [{ fd := fd, func := func, timer := t }] }
      log := w.log ++ [.register fd func t] }
  else
    { w with log := w.log ++ [.register fd func t] }

/-- Modelled from the spec: `stop()` of section 4.1; the request is counted. -/
def oniontraceeventmanager_stopMainLoop (w : World) : World :=
  { w with
    manager := { w.manager with stopCount := w.manager.stopCount + 1 }
    log := w.log ++ [.stopMainLoop] }

/-- Modelled from the spec: the constructor of the control client (section 4.3) initiates
the connection and will complete with `cb`.  `result` is what the environment decides:
`none` when the constructor returns NULL, the client's local port otherwise. -/
def oniontracetorctl_new (w : World) (controlPort : Nat) (cb : TorCtlFunc)
    (result : Option Nat) : Option Nat × World :=
  match result with
  | none => (none, w.emit (.torctlNew controlPort cb none))
  | some port =>
    (some w.nextHandle,
      { w with
        nextHandle := w.nextHandle + 1
        torctls := w.torctls ++
          [{ handle := w.nextHandle, controlPort := controlPort, clientPort := port,
             pending := some cb }]
        log := w.log ++ [.torctlNew controlPort cb (some w.nextHandle)] })

/-- Modelled from the spec: releasing the control client; a released client completes no
command. -/
def oniontracetorctl_free (w : World) (h : Nat) : World :=
  { w with
    torctls := w.torctls.filter fun c => c.handle ≠ h
    log := w.log ++ [.torctlFree h] }

/-- Modelled from the spec: `get_local_port()` of section 4.3 (0 when there is no client). -/
def oniontracetorctl_getControlClientPort (w : World) (h : Option Nat) : Nat :=
  match h with
  | none => 0
  | some h =>
    match w.torctls.find? fun c => c.handle = h with
    | none => 0
    | some c => c.clientPort

/-- The command in flight on control client `h` becomes the one completing with `cb`. -/
def World.setPending (w : World) (h : Option Nat) (cb : Option TorCtlFunc) : World :=
  match h with
  | none => w
  | some h =>
    { w with
      torctls := w.torctls.map fun c => if c.handle = h then { c with pending := cb } else c }

/-- Modelled from the spec: `authenticate(on_authenticated, ctx)` of section 4.3. -/
def oniontracetorctl_commandAuthenticate (w : World) (h : Option Nat)
    (cb : TorCtlFunc) : World :=
  (w.setPending h (some cb)).emit (.commandAuthenticate h cb)

/-- Modelled from the spec: `get_bootstrap_status(on_bootstrapped, ctx)` of section 4.3,
which fires the callback once. -/
def oniontracetorctl_commandGetBootstrapStatus (w : World) (h : Option Nat)
    (cb : TorCtlFunc) : World :=
  (w.setPending h (some cb)).emit (.commandGetBootstrapStatus h cb)

/-- Modelled from the spec: the Recorder constructor of section 4.4; `result` is `none` when
the Recorder cannot be instantiated. -/
def oniontracerecorder_new (w : World) (torctl : Option Nat) (filename : String)
    (result : Option Subsystem) : Option OnionTraceRecorder × World :=
  match result with
  | none => (none, w.emit (.recorderNew torctl filename none))
  | some s =>
    (some { handle := w.nextHandle, status := s.status },
      { w with
        nextHandle := w.nextHandle + 1
        log := w.log ++ [.recorderNew torctl filename (some w.nextHandle)] })

/-- Modelled from the spec: releasing the Recorder (section 4.4). -/
def oniontracerecorder_free (w : World) (r : OnionTraceRecorder) : World :=
  w.emit (.recorderFree r.handle)

/-- Modelled from the spec: `to_string()` of the Recorder. -/
def oniontracerecorder_toString (r : OnionTraceRecorder) : String := r.status

/-- Modelled from the spec: the Player constructor of section 4.5 reads the whole trace into
a time-ordered queue; `result` is `none` when the Player cannot be instantiated. -/
def oniontraceplayer_new (w : World) (torctl : Option Nat) (filename : String)
    (result : Option Subsystem) : Option OnionTracePlayer × World :=
  match result with
  | none => (none, w.emit (.playerNew torctl filename none))
  | some s =>
    (some { handle := w.nextHandle, queue := s.trace, issued := 0, status := s.status },
      { w with
        nextHandle := w.nextHandle + 1
        log := w.log ++ [.playerNew torctl filename (some w.nextHandle)] })

/-- Modelled from the spec: releasing the Player. -/
def oniontraceplayer_free (w : World) (p : OnionTracePlayer) : World :=
  w.emit (.playerFree p.handle)

/-- Modelled from the spec: `to_string()` of the Player. -/
def oniontraceplayer_toString (p : OnionTracePlayer) : String := p.status

/-- Modelled from the spec: `get_next_launch_time` of section 4.5 yields the delay until the
head of the queue and reports false when the queue is empty.  The spec gives no meaning to
the call on a NULL player; here it reports false, and the log shows the NULL argument. -/
def oniontraceplayer_getNextCircuitLaunchTime (w : World) :
    Option Timespec × World :=
  match w.driver.player with
  | none => (none, w.emit (.getNextCircuitLaunchTime none none))
  | some p => (p.queue.head?, w.emit (.getNextCircuitLaunchTime (some p.handle) p.queue.head?))

/-- Modelled from the spec: `launch_next_circuit()` of section 4.5 pops the head of the
queue and issues the launch.  On a NULL player nothing is popped, and the log shows the
NULL argument. -/
def oniontraceplayer_launchNextCircuit (w : World) : World :=
  match w.driver.player with
  | none => w.emit (.launchNextCircuit none)
  | some p =>
    { w with
      driver := { w.driver with
        player := some { p with queue := p.queue.tail, issued := p.issued + 1 } }
      log := w.log ++ [.launchNextCircuit (some p.handle)] }

/-! ## The driver (`src/oniontrace-driver.c`) -/

/-- The function `_oniontracedriver_stateToString` of the source; its `default` branch is
unreachable for a value of the enumeration. -/
def _oniontracedriver_stateToString : OnionTraceDriverState → String
  | ONIONTRACE_DRIVER_IDLE => "IDLE"
  | ONIONTRACE_DRIVER_CONNECTING => "CONNECTING"
  | ONIONTRACE_DRIVER_AUTHENTICATING => "AUTHENTICATING"
  | ONIONTRACE_DRIVER_BOOTSTRAPPING => "BOOTSTRAPPING"
  | ONIONTRACE_DRIVER_RECORDING => "RECORDING"
  | ONIONTRACE_DRIVER_PLAYING => "PLAYING"

/-- The function `_oniontracedriver_registerPlayTimer` of the source. -/
def _oniontracedriver_registerPlayTimer (w : World) : World :=
  let r := oniontraceplayer_getNextCircuitLaunchTime w
  match r.1 with
  | none => r.2
  | some d =>
    let armTime : Itimerspec :=
      { it_interval := { tv_sec := 0, tv_nsec := 0 }, it_value := d }
    let n := oniontracetimer_new r.2 .playCallback
    let w2 := oniontracetimer_armGranular n.2 n.1 armTime
    let timerFD := oniontracetimer_getFD n.1
    oniontraceeventmanager_register w2 timerFD .playTimerReadable n.1

/-- The function `_oniontracedriver_playCallback` of the source. -/
def _oniontracedriver_playCallback (w : World) : World :=
  _oniontracedriver_registerPlayTimer (oniontraceplayer_launchNextCircuit w)

/-- The function `_oniontracedriver_shutdown` of the source. -/
def _oniontracedriver_shutdown (w : World) : World :=
  oniontraceeventmanager_stopMainLoop w

/-- The status text that `_oniontracedriver_heartbeat` appends, if any. -/
def heartbeatStatus (d : OnionTraceDriver) : Option String :=
  match d.state, d.recorder, d.player with
  | ONIONTRACE_DRIVER_RECORDING, some r, _ => some (oniontracerecorder_toString r)
  | ONIONTRACE_DRIVER_PLAYING, _, some p => some (oniontraceplayer_toString p)
  | _, _, _ => none

/-- The line that `_oniontracedriver_heartbeat` logs. -/
def heartbeatLine (d : OnionTraceDriver) : String :=
  let msg := d.id ++ ": heartbeat: state=" ++ _oniontracedriver_stateToString d.state
  match heartbeatStatus d with
  | some status => msg ++ " " ++ status
  | none => msg

/-- The function `_oniontracedriver_heartbeat` of the source; `now` is the value that
`clock_gettime` stores. -/
def _oniontracedriver_heartbeat (w : World) (now : Timespec) : World :=
  let w1 := { w with driver := { w.driver with nowCached := now } }
  message w1 (heartbeatLine w1.driver)

/-- Modelled from the spec: `check()` of section 4.2, called when the descriptor is
readable: when the timer has expired it invokes the timer's callback on the driver and
returns true, otherwise it returns false. -/
def oniontracetimer_check (w : World) (t : OnionTraceTimer) (expired : Bool)
    (now : Timespec) : Bool × World :=
  if expired then
    let w1 := w.emit (.timerCheck t.handle true)
    (true,
      match t.func with
      | .heartbeat => _oniontracedriver_heartbeat w1 now
      | .shutdown => _oniontracedriver_shutdown w1
      | .playCallback => _oniontracedriver_playCallback w1)
  else
    (false, w.emit (.timerCheck t.handle false))

/-- The function `_oniontracedriver_playTimerReadable` of the source. -/
def _oniontracedriver_playTimerReadable (w : World) (t : OnionTraceTimer) (expired : Bool)
    (now : Timespec) : World :=
  let c := oniontracetimer_check w t expired now
  let w1 :=
    if !c.1 then warning c.2 "Authority unable to execute play timer callback function."
    else c.2
  oniontracetimer_free w1 t.handle

/-- The function `_oniontracedriver_genericTimerReadable` of the source. -/
def _oniontracedriver_genericTimerReadable (w : World) (t : OnionTraceTimer)
    (expired : Bool) (now : Timespec) : World :=
  let c := oniontracetimer_check w t expired now
  if !c.1 then
    warning c.2 ("Authority unable to execute timer callback function. " ++
      "The timer might trigger again since we did not delete it.")
  else c.2

/-- The function `_oniontracedriver_registerShutdown` of the source. -/
def _oniontracedriver_registerShutdown (w : World) (seconds : Nat) : World :=
  let n := oniontracetimer_new w .shutdown
  let w1 := { n.2 with driver := { n.2.driver with shutdownTimer := some n.1 } }
  let w2 := oniontracetimer_arm w1 n.1 seconds 0
  let timerFD := oniontracetimer_getFD n.1
  oniontraceeventmanager_register w2 timerFD .genericTimerReadable n.1

/-- The function `_oniontracedriver_registerHeartbeat` of the source. -/
def _oniontracedriver_registerHeartbeat (w : World) : World :=
  let w0 :=
    match w.driver.heartbeatTimer with
    | some t => oniontracetimer_free w t
    | none => w
  let n := oniontracetimer_new w0 .heartbeat
  let w1 := { n.2 with driver := { n.2.driver with heartbeatTimer := some n.1 } }
  let w2 := oniontracetimer_arm w1 n.1 1 1
  let timerFD := oniontracetimer_getFD n.1
  oniontraceeventmanager_register w2 timerFD .genericTimerReadable n.1

/-- The function `_oniontracedriver_onBootstrapped` of the source; `result` is what the
Recorder or Player constructor yields. -/
def _oniontracedriver_onBootstrapped (w : World) (result : Option Subsystem) : World :=
  let clientPort := oniontracetorctl_getControlClientPort w w.driver.torctl
  let w1 := message w
    (w.driver.id ++ ": successfully bootstrapped client port " ++ toString clientPort)
  let filename := w1.driver.config.traceFileName
  if w1.driver.config.mode = ONIONTRACE_MODE_RECORD then
    let w2 := { w1 with driver := { w1.driver with state := ONIONTRACE_DRIVER_RECORDING } }
    let r := oniontracerecorder_new w2 w2.driver.torctl filename result
    let w3 := { r.2 with driver := { r.2.driver with recorder := r.1 } }
    match r.1 with
    | none =>
      let w4 := critical w3
        (w3.driver.id ++ ": Error creating recorder instance, cannot proceed")
      let w5 := { w4 with driver := { w4.driver with state := ONIONTRACE_DRIVER_IDLE } }
      oniontraceeventmanager_stopMainLoop w5
    | some _ => w3
  else
    let w2 := { w1 with driver := { w1.driver with state := ONIONTRACE_DRIVER_PLAYING } }
    let r := oniontraceplayer_new w2 w2.driver.torctl filename result
    let w3 := { r.2 with driver := { r.2.driver with player := r.1 } }
    match r.1 with
    | none =>
      let w4 := critical w3
        (w3.driver.id ++ ": Error creating player instance, cannot proceed")
      let w5 := { w4 with driver := { w4.driver with state := ONIONTRACE_DRIVER_IDLE } }
      oniontraceeventmanager_stopMainLoop w5
    | some _ => _oniontracedriver_registerPlayTimer w3

/-- The function `_oniontracedriver_onAuthenticated` of the source. -/
def _oniontracedriver_onAuthenticated (w : World) : World :=
  let clientPort := oniontracetorctl_getControlClientPort w w.driver.torctl
  let w1 := message w
    (w.driver.id ++ ": successfully authenticated client port " ++ toString clientPort)
  let w2 := message w1
    (w1.driver.id ++ ": bootstrapping on client port " ++ toString clientPort)
  let w3 := oniontracetorctl_commandGetBootstrapStatus w2 w2.driver.torctl .onBootstrapped
  { w3 with driver := { w3.driver with state := ONIONTRACE_DRIVER_BOOTSTRAPPING } }

/-- The function `_oniontracedriver_onConnected` of the source. -/
def _oniontracedriver_onConnected (w : World) : World :=
  let clientPort := oniontracetorctl_getControlClientPort w w.driver.torctl
  let w1 := message w
    (w.driver.id ++ ": connection attempt finished on client port " ++ toString clientPort ++
      " to Tor control server port " ++ toString w.driver.config.torControlPort)
  let w2 := message w1
    (w1.driver.id ++ ": attempting to authenticate on client port " ++ toString clientPort)
  let w3 := oniontracetorctl_commandAuthenticate w2 w2.driver.torctl .onAuthenticated
  { w3 with driver := { w3.driver with state := ONIONTRACE_DRIVER_AUTHENTICATING } }

/-- The function `oniontracedriver_start` of the source; `result` is what
`oniontracetorctl_new` yields (`none`: NULL, otherwise the client's local port). -/
def oniontracedriver_start (w : World) (result : Option Nat) : Bool × World :=
  if w.driver.state ≠ ONIONTRACE_DRIVER_IDLE then
    (false, message w (w.driver.id ++ ": can\x27t start driver because it is not idle"))
  else
    let w1 := message w (w.driver.id ++ ": creating control client to connect to Tor")
    let controlPort := w1.driver.config.torControlPort
    let n := oniontracetorctl_new w1 controlPort .onConnected result
    let w2 := { n.2 with driver := { n.2.driver with torctl := n.1 } }
    match n.1 with
    | none => (false, message w2 (w2.driver.id ++ ": error creating tor controller instance"))
    | some _ =>
      let w3 := message w2
        (w2.driver.id ++ ": created tor controller instance, connecting to port " ++
          toString controlPort)
      let w4 := { w3 with driver := { w3.driver with state := ONIONTRACE_DRIVER_CONNECTING } }
      let w5 := _oniontracedriver_registerHeartbeat w4
      let runTimeSeconds := w5.driver.config.runTimeSeconds
      if runTimeSeconds > 0 then
        (true, _oniontracedriver_registerShutdown w5 runTimeSeconds.toNat)
      else
        (true, w5)

/-- The function `oniontracedriver_stop` of the source. -/
def oniontracedriver_stop (w : World) : Bool × World :=
  if w.driver.state = ONIONTRACE_DRIVER_IDLE then
    (false, message w (w.driver.id ++ ": can\x27t stop driver because it is already idle"))
  else
    let w1 :=
      match w.driver.recorder with
      | some r =>
        let f := oniontracerecorder_free w r
        { f with driver := { f.driver with recorder := none } }
      | none => w
    let w2 :=
      match w1.driver.player with
      | some p =>
        let f := oniontraceplayer_free w1 p
        { f with driver := { f.driver with player := none } }
      | none => w1
    let w3 :=
      match w2.driver.heartbeatTimer with
      | some t =>
        let f := oniontracetimer_free w2 t
        { f with driver := { f.driver with heartbeatTimer := none } }
      | none => w2
    let w4 :=
      match w3.driver.shutdownTimer with
      | some t =>
        let f := oniontracetimer_free w3 t
        { f with driver := { f.driver with shutdownTimer := none } }
      | none => w3
    let w5 :=
      match w4.driver.torctl with
      | some h =>
        let f := oniontracetorctl_free w4 h
        { f with driver := { f.driver with torctl := none } }
      | none => w4
    (true, { w5 with driver := { w5.driver with state := ONIONTRACE_DRIVER_IDLE } })

/-- The function `oniontracedriver_new` of the source: a zeroed driver with the borrowed
configuration, the id "Driver" and the state Idle, in a world where nothing else exists. -/
def oniontracedriver_new (config : OnionTraceConfig) : World :=
  { driver :=
      { config := config
        state := ONIONTRACE_DRIVER_IDLE
        id := "Driver"
        heartbeatTimer := none
        shutdownTimer := none
        nowCached := { tv_sec := 0, tv_nsec := 0 }
        torctl := none
        recorder := none
        player := none }
    manager := { registered := [], stopCount := 0 }
    timers := []
    torctls := []
    nextHandle := 1
    log := [] }

/-- The function `oniontracedriver_free` of the source.  The fields of the released driver
are left as they were; what the function does is in the heaps and in the log. -/
def oniontracedriver_free (w : World) : World :=
  let w1 :=
    match w.driver.recorder with
    | some r => oniontracerecorder_free w r
    | none => w
  let w2 :=
    match w1.driver.player with
    | some p => oniontraceplayer_free w1 p
    | none => w1
  let w3 :=
    match w2.driver.heartbeatTimer with
    | some t => oniontracetimer_free w2 t
    | none => w2
  let w4 :=
    match w3.driver.shutdownTimer with
    | some t => oniontracetimer_free w3 t
    | none => w3
  let w5 :=
    match w4.driver.torctl with
    | some h => oniontracetorctl_free w4 h
    | none => w4
  (w5.emit (.freeId w5.driver.id)).emit .freeDriver

/-! ## Executions -/

/-- One step of an execution: a call of the embedder (`start`, `stop`) or one dispatch of
the reactor (a completion of the control client `h`, a readable timer descriptor `t`),
with what the environment decides in it. -/
inductive Action where
  | start (result : Option Nat)
  | stop
  | connected (h : Nat)
  | authenticated (h : Nat)
  | bootstrapped (h : Nat) (result : Option Subsystem)
  | timerReadable (t : Nat) (expired : Bool) (now : Timespec)
  deriving DecidableEq, Repr

/-- The control client `h`, if it is live and its command in flight completes with `cb`. -/
def World.completes (w : World) (h : Nat) (cb : TorCtlFunc) : Bool :=
  match w.torctls.find? fun c => c.handle = h with
  | none => false
  | some c => c.pending = some cb

/-- The step function: `none` when the action cannot happen in `w` (the control client is
not live or has no such completion outstanding; the timer is not live or not registered). -/
def step (w : World) : Action → Option World
  | .start result => some (oniontracedriver_start w result).2
  | .stop => some (oniontracedriver_stop w).2
  | .connected h =>
    if w.completes h .onConnected then
      some (_oniontracedriver_onConnected (w.setPending (some h) none))
    else none
  | .authenticated h =>
    if w.completes h .onAuthenticated then
      some (_oniontracedriver_onAuthenticated (w.setPending (some h) none))
    else none
  | .bootstrapped h result =>
    if w.completes h .onBootstrapped then
      some (_oniontracedriver_onBootstrapped (w.setPending (some h) none) result)
    else none
  | .timerReadable t expired now =>
    match w.timers.find? fun tm => tm.handle = t with
    | none => none
    | some tm =>
      match w.manager.registered.find? fun r => r.timer = t with
      | none => none
      | some r =>
        match r.func with
        | .genericTimerReadable =>
          some (_oniontracedriver_genericTimerReadable w tm expired now)
        | .playTimerReadable =>
          some (_oniontracedriver_playTimerReadable w tm expired now)

/-- Run a sequence of actions; `none` as soon as one of them cannot happen. -/
def run (w : World) : List Action → Option World
  | [] => some w
  | a :: as => (step w a).bind fun w1 => run w1 as


/-! ## Definitions used in the statements -/

/-- The timers released so far: the arguments of the `oniontracetimer_free` calls of a log,
in order. -/
def frees (log : List Event) : List Nat :=
  log.filterMap fun e =>
    match e with
    | .timerFree t => some t
    | _ => none

/-- The timers allocated so far: the results and callbacks of the `oniontracetimer_new`
calls of a log, in order. -/
def created (log : List Event) : List (Nat × TimerFunc) :=
  log.filterMap fun e =>
    match e with
    | .timerNew t f => some (t, f)
    | _ => none

/-- The live timers of a heap, each with its callback. -/
def liveTimers (ts : List OnionTraceTimer) : List (Nat × TimerFunc) :=
  ts.map fun tm => (tm.handle, tm.func)

/-- The Play-timer that `_oniontracedriver_registerPlayTimer` allocates in `w`, if any. -/
def playTimerMade (w : World) : List (Nat × TimerFunc) :=
  match w.driver.player.bind fun p => p.queue.head? with
  | some _ => [(w.nextHandle, .playCallback)]
  | none => []

/-- The Play-timer that `_oniontracedriver_onBootstrapped` allocates in Play mode for a
trace, if any. -/
def bootstrapMade (w : World) (s : Subsystem) : List (Nat × TimerFunc) :=
  match s.trace.head? with
  | some _ => [(w.nextHandle + 1, .playCallback)]
  | none => []

/-- The entry of the event manager's table for a Play-timer. -/
def playRegistration (p : Nat × TimerFunc) : Registration :=
  { fd := p.1, func := .playTimerReadable, timer := p.1 }

/-- The entry of the event manager's table for the heartbeat or the shutdown timer. -/
def genericRegistration (t : Nat) : Registration :=
  { fd := t, func := .genericTimerReadable, timer := t }

/-- The registrations `rs` as the event manager of `w` takes them: all of them while the
reactor has not been asked to stop, none of them afterwards. -/
def accepted (w : World) (rs : List Registration) : List Registration :=
  if w.manager.stopCount = 0 then rs else []

/-- What a dispatch of a readable timer may change: it may allocate one Play-timer and may
release the timers `freed`; the state and the other owned components stay. -/
structure TimerDispatch (w w1 : World) (made : List (Nat × TimerFunc))
    (freed : List Nat) : Prop where
  made_shape : made = [] ∨ made = [(w.nextHandle, TimerFunc.playCallback)]
  timers_eq : liveTimers w1.timers =
    (liveTimers w.timers ++ made).filter fun p => p.1 ∉ freed
  registered_eq : w1.manager.registered =
    (w.manager.registered ++ accepted w (made.map playRegistration)).filter
      fun r => r.timer ∉ freed
  nextHandle_eq : w1.nextHandle = w.nextHandle + made.length
  frees_eq : frees w1.log = frees w.log ++ freed
  created_eq : created w1.log = created w.log ++ made
  torctls_eq : w1.torctls = w.torctls
  state_eq : w1.driver.state = w.driver.state
  config_eq : w1.driver.config = w.driver.config
  torctl_eq : w1.driver.torctl = w.driver.torctl
  heartbeat_eq : w1.driver.heartbeatTimer = w.driver.heartbeatTimer
  shutdown_eq : w1.driver.shutdownTimer = w.driver.shutdownTimer
  recorder_eq : w1.driver.recorder = w.driver.recorder
  player_eq : w1.driver.player.isSome = w.driver.player.isSome

/-- The state in which the driver waits for the completion `cb`. -/
def stateFor : TorCtlFunc → OnionTraceDriverState
  | .onConnected => ONIONTRACE_DRIVER_CONNECTING
  | .onAuthenticated => ONIONTRACE_DRIVER_AUTHENTICATING
  | .onBootstrapped => ONIONTRACE_DRIVER_BOOTSTRAPPING

/-- An `on_bootstrapped` in which the Recorder or Player constructor returns NULL. -/
def Action.failedConstruction : Action → Bool
  | .bootstrapped _ none => true
  | _ => false

/-- The consistency of the state with the owned components that every execution keeps. -/
structure Inv (w : World) : Prop where
  torctl_of_active : w.driver.state ≠ ONIONTRACE_DRIVER_IDLE → w.driver.torctl.isSome
  heartbeat_of_active :
    w.driver.state ≠ ONIONTRACE_DRIVER_IDLE → w.driver.heartbeatTimer.isSome
  recorder_iff : w.driver.recorder.isSome ↔ w.driver.state = ONIONTRACE_DRIVER_RECORDING
  player_iff : w.driver.player.isSome ↔ w.driver.state = ONIONTRACE_DRIVER_PLAYING
  pending : ∀ c ∈ w.torctls, ∀ cb, c.pending = some cb →
    w.driver.torctl = some c.handle ∧ w.driver.state = stateFor cb

/-- The bookkeeping of timers that every execution keeps: the heap, the log and the two
timer fields of the driver agree. -/
structure InvTimers (w : World) : Prop where
  fresh : ∀ p ∈ liveTimers w.timers, p.1 < w.nextHandle
  func_unique : ∀ p ∈ liveTimers w.timers, ∀ q ∈ liveTimers w.timers, p.1 = q.1 → p.2 = q.2
  hb_live : ∀ t, w.driver.heartbeatTimer = some t →
    (t, TimerFunc.heartbeat) ∈ liveTimers w.timers
  sd_live : ∀ t, w.driver.shutdownTimer = some t →
    (t, TimerFunc.shutdown) ∈ liveTimers w.timers
  hb_only : ∀ p ∈ liveTimers w.timers, p.2 = TimerFunc.heartbeat →
    w.driver.heartbeatTimer = some p.1
  freed_fresh : ∀ t ∈ frees w.log, t < w.nextHandle
  freed_dead : ∀ t ∈ frees w.log, ∀ p ∈ liveTimers w.timers, p.1 ≠ t
  freed_nodup : (frees w.log).Nodup
  accounted : ∀ p ∈ created w.log, p.1 ∈ frees w.log ∨ p ∈ liveTimers w.timers
  reg_live : ∀ r ∈ w.manager.registered, ∃ f, (r.timer, f) ∈ liveTimers w.timers ∧
    (r.func = ReadableFunc.playTimerReadable ↔ f = TimerFunc.playCallback)
  live_created : ∀ p ∈ liveTimers w.timers, p ∈ created w.log
  freed_created : ∀ t ∈ frees w.log, ∃ f, (t, f) ∈ created w.log

/-- What one step does to the timers: it releases the live timers `F` and then allocates
the timers `M`. -/
structure TimerTransition (w w1 : World) (F : List Nat)
    (M : List (Nat × TimerFunc)) : Prop where
  live_iff : ∀ p, p ∈ liveTimers w1.timers ↔ (p ∈ liveTimers w.timers ∧ p.1 ∉ F) ∨ p ∈ M
  frees_eq : frees w1.log = frees w.log ++ F
  created_iff : ∀ p, p ∈ created w1.log ↔ p ∈ created w.log ∨ p ∈ M
  next_le : w.nextHandle ≤ w1.nextHandle
  made_fresh : ∀ p ∈ M, w.nextHandle ≤ p.1 ∧ p.1 < w1.nextHandle
  made_unique : ∀ p ∈ M, ∀ q ∈ M, p.1 = q.1 → p.2 = q.2
  freed_live : ∀ t ∈ F, ∃ f, (t, f) ∈ liveTimers w.timers
  freed_nodup : F.Nodup
  hb_next : ∀ t, w1.driver.heartbeatTimer = some t →
    (t, TimerFunc.heartbeat) ∈ M ∨ (w.driver.heartbeatTimer = some t ∧ t ∉ F)
  sd_next : ∀ t, w1.driver.shutdownTimer = some t →
    (t, TimerFunc.shutdown) ∈ M ∨ (w.driver.shutdownTimer = some t ∧ t ∉ F)
  hb_made : ∀ p ∈ M, p.2 = TimerFunc.heartbeat → w1.driver.heartbeatTimer = some p.1
  hb_kept : ∀ t, w.driver.heartbeatTimer = some t → t ∉ F →
    w1.driver.heartbeatTimer = some t
  sd_made : ∀ p ∈ M, p.2 = TimerFunc.shutdown → w1.driver.shutdownTimer = some p.1
  sd_kept : ∀ t, w.driver.shutdownTimer = some t → t ∉ F →
    w1.driver.shutdownTimer = some t ∨ w.driver.state = ONIONTRACE_DRIVER_IDLE
  reg_next : ∀ r ∈ w1.manager.registered,
    (r ∈ w.manager.registered ∧ r.timer ∉ F) ∨
    ∃ f, (r.timer, f) ∈ M ∧
      (r.func = ReadableFunc.playTimerReadable ↔ f = TimerFunc.playCallback)

/-- The places where the driver releases timers: a successful Stop releases the heartbeat
and the shutdown timer of the driver, a successful Start releases the heartbeat timer that
the driver still holds, and the read handler of a Play-timer releases that timer. -/
def freesAllowed (w : World) (a : Action) (F : List Nat) : Prop :=
  F = [] ∨
  (a = Action.stop ∧ w.driver.state ≠ ONIONTRACE_DRIVER_IDLE ∧
    F = w.driver.heartbeatTimer.toList ++ w.driver.shutdownTimer.toList) ∨
  (∃ port, a = Action.start (some port) ∧ w.driver.state = ONIONTRACE_DRIVER_IDLE ∧
    F = w.driver.heartbeatTimer.toList) ∨
  (∃ t expired now, a = Action.timerReadable t expired now ∧ F = [t] ∧
    (t, TimerFunc.playCallback) ∈ liveTimers w.timers)

/-- What holds in addition as long as no Recorder or Player construction has failed: an Idle
driver holds nothing, and the only live shutdown timer is the one of the driver. -/
structure InvClean (w : World) : Prop where
  idle_torctl : w.driver.state = ONIONTRACE_DRIVER_IDLE → w.driver.torctl = none
  idle_hb : w.driver.state = ONIONTRACE_DRIVER_IDLE → w.driver.heartbeatTimer = none
  idle_sd : w.driver.state = ONIONTRACE_DRIVER_IDLE → w.driver.shutdownTimer = none
  sd_only : ∀ p ∈ liveTimers w.timers, p.2 = TimerFunc.shutdown →
    w.driver.shutdownTimer = some p.1

/-- Everything that is kept as long as no Recorder or Player construction fails. -/
structure InvAll (w : World) : Prop where
  inv : Inv w
  timers : InvTimers w
  clean : InvClean w

/-- The edges of the state graph of the spec (section 3). -/
def forwardEdge : OnionTraceDriverState → OnionTraceDriverState → Bool
  | ONIONTRACE_DRIVER_IDLE, ONIONTRACE_DRIVER_CONNECTING => true
  | ONIONTRACE_DRIVER_CONNECTING, ONIONTRACE_DRIVER_AUTHENTICATING => true
  | ONIONTRACE_DRIVER_AUTHENTICATING, ONIONTRACE_DRIVER_BOOTSTRAPPING => true
  | ONIONTRACE_DRIVER_BOOTSTRAPPING, ONIONTRACE_DRIVER_RECORDING => true
  | ONIONTRACE_DRIVER_BOOTSTRAPPING, ONIONTRACE_DRIVER_PLAYING => true
  | _, _ => false

/-- The frees of a tear-down, in the order of the spec: Recorder, Player, heartbeat timer,
shutdown timer, control client, each only when the field is not NULL. -/
def teardownOrder (d : OnionTraceDriver) : List Event :=
  (d.recorder.map fun r => Event.recorderFree r.handle).toList ++
  (d.player.map fun p => Event.playerFree p.handle).toList ++
  (d.heartbeatTimer.map Event.timerFree).toList ++
  (d.shutdownTimer.map Event.timerFree).toList ++
  (d.torctl.map Event.torctlFree).toList

/-- The Free of the spec (section 4.6): if the driver is not Idle, perform Stop semantics,
then release the id string and the driver itself. -/
def specFree (w : World) : World :=
  let w1 :=
    if w.driver.state ≠ ONIONTRACE_DRIVER_IDLE then (oniontracedriver_stop w).2 else w
  (w1.emit (.freeId w1.driver.id)).emit .freeDriver

/-- The calls with which Start registers a heartbeat timer `t`. -/
def heartbeatEvents (t : Nat) : List Event :=
  [.timerNew t .heartbeat,
   .timerArm t
     { it_interval := { tv_sec := 1, tv_nsec := 0 }, it_value := { tv_sec := 1, tv_nsec := 0 } },
   .register t .genericTimerReadable t]

/-- The calls with which Start registers a shutdown timer `t` for a run time. -/
def shutdownEvents (t : Nat) (seconds : Nat) : List Event :=
  [.timerNew t .shutdown,
   .timerArm t
     { it_interval := { tv_sec := 0, tv_nsec := 0 },
       it_value := { tv_sec := seconds, tv_nsec := 0 } },
   .register t .genericTimerReadable t]

/-- A Record-mode configuration without a run-time limit. -/
def sampleRecord : OnionTraceConfig :=
  { mode := ONIONTRACE_MODE_RECORD, traceFileName := "trace.csv", torControlPort := 9051,
    runTimeSeconds := 0 }

/-- A Play-mode configuration that runs for five seconds. -/
def samplePlay : OnionTraceConfig :=
  { mode := ONIONTRACE_MODE_PLAY, traceFileName := "trace.csv", torControlPort := 9051,
    runTimeSeconds := 5 }

/-- A trace with one launch, due in ten seconds. -/
def sampleTrace : Subsystem :=
  { status := "ok", trace := [{ tv_sec := 10, tv_nsec := 0 }] }

/-- The handshake up to the state Bootstrapping: the control client gets handle 1 and the
heartbeat timer handle 2 (and the shutdown timer, if any, handle 3). -/
def handshake : List Action :=
  [.start (some 4000), .connected 1, .authenticated 1]

/-- The world after the run `acts` of a new driver (the new driver itself if the run cannot
happen). -/
def after (cfg : OnionTraceConfig) (acts : List Action) : World :=
  (run (oniontracedriver_new cfg) acts).getD (oniontracedriver_new cfg)

/-- The handshake followed by a successful on_bootstrapped with the sample trace. -/
def bootstrap : List Action :=
  handshake ++ [.bootstrapped 1 (some sampleTrace)]

/-- The handshake followed by an on_bootstrapped whose construction fails. -/
def failedBootstrap : List Action :=
  handshake ++ [.bootstrapped 1 none]

/-- The driver after it has bootstrapped in Play mode with the sample trace: control client
1, heartbeat timer 2, shutdown timer 3, Player 4, Play-timer 5. -/
def samplePlaying : World := after samplePlay bootstrap

/-- The driver in Record mode after the handshake, in the state Bootstrapping. -/
def sampleBootstrapping : World := after sampleRecord handshake

/-- The driver in Record mode in the state Authenticating. -/
def sampleAuthenticating : World := after sampleRecord [.start (some 4000), .connected 1]

/-- The driver in Record mode right after Start. -/
def sampleConnecting : World := after sampleRecord [.start (some 4000)]

/-- The driver in Record mode after a failed Recorder construction. -/
def sampleFailed : World := after sampleRecord failedBootstrap

/-- The calls with which `_oniontracedriver_registerPlayTimer` arms a Play-timer `t`. -/
def playTimerEvents (t : Nat) (d : Timespec) : List Event :=
  [.timerNew t .playCallback,
   .timerArm t { it_interval := { tv_sec := 0, tv_nsec := 0 }, it_value := d },
   .register t .playTimerReadable t]

/-- The calls of `_oniontracedriver_registerPlayTimer` when the Player `p` reports `r`. -/
def registerPlayTimerEvents (p : Option Nat) (r : Option Timespec) (t : Nat) : List Event :=
  Event.getNextCircuitLaunchTime p r ::
    (match r with
     | some d => playTimerEvents t d
     | none => [])

/-- The shutdown timer that Start arms for the configured run time. -/
def shutdownTimerObj (t : Nat) (cfg : OnionTraceConfig) : OnionTraceTimer :=
  { handle := t, func := .shutdown,
    armTime := some { it_interval := { tv_sec := 0, tv_nsec := 0 },
                      it_value := { tv_sec := cfg.runTimeSeconds.toNat, tv_nsec := 0 } } }

/-- The first line of the heartbeat message: id and upper-case state name. -/
def heartbeatHead (d : OnionTraceDriver) : String :=
  d.id ++ ": heartbeat: state=" ++ _oniontracedriver_stateToString d.state

/-- The two warnings of the read handlers. -/
def genericWarning : String :=
  "Authority unable to execute timer callback function. " ++
    "The timer might trigger again since we did not delete it."

/-- An `on_bootstrapped` in which the Recorder or Player constructor succeeds. -/
def Action.successfulConstruction : Action → Bool
  | .bootstrapped _ (some _) => true
  | _ => false

/-- A call of Stop. -/
def Action.isStop : Action → Bool
  | .stop => true
  | _ => false

/-- Whether, in a log, the reactor had been asked to stop before the timer `t` was
allocated: the event manager rejects the registration of such a timer. -/
def stoppedBefore (t : Nat) : List Event → Bool
  | [] => false
  | e :: l =>
    match e with
    | .stopMainLoop => true
    | .timerNew t1 _ => if t1 = t then false else stoppedBefore t l
    | _ => stoppedBefore t l

/-- The log records the requests to stop the reactor: the event manager has counted none
exactly when the log has none. -/
def InvLog (w : World) : Prop :=
  w.manager.stopCount = 0 ↔ Event.stopMainLoop ∉ w.log

/-- What relates the shutdown timer to the configured run time in every execution of a
driver created for `cfg`. -/
structure InvShutdown (cfg : OnionTraceConfig) (w : World) : Prop where
  config_eq : w.driver.config = cfg
  sd_none : ¬ cfg.runTimeSeconds > 0 → w.driver.shutdownTimer = none
  sd_some : cfg.runTimeSeconds > 0 → w.driver.state ≠ ONIONTRACE_DRIVER_IDLE →
    w.driver.shutdownTimer.isSome = true
  sd_obj : ∀ t, w.driver.shutdownTimer = some t → shutdownTimerObj t cfg ∈ w.timers
  sd_reg : ∀ t, w.driver.shutdownTimer = some t →
    (genericRegistration t ∈ w.manager.registered ↔ stoppedBefore t w.log = false)
  none_created : ¬ cfg.runTimeSeconds > 0 →
    ∀ p ∈ created w.log, p.2 ≠ TimerFunc.shutdown

/-- What holds of the Play-timers as long as Stop has not been called: at most one is live,
and none unless the driver is Playing. -/
structure InvPlay (w : World) : Prop where
  unique : ∀ p ∈ liveTimers w.timers, ∀ q ∈ liveTimers w.timers,
    p.2 = TimerFunc.playCallback → q.2 = TimerFunc.playCallback → p.1 = q.1
  none_unless_playing : w.driver.state ≠ ONIONTRACE_DRIVER_PLAYING →
    ∀ p ∈ liveTimers w.timers, p.2 ≠ TimerFunc.playCallback

/-- No Play-timer is live. -/
def NoPlayTimer (w : World) : Prop :=
  ∀ p ∈ liveTimers w.timers, p.2 ≠ TimerFunc.playCallback

/-- At most one Play-timer is live. -/
def UniquePlay (w : World) : Prop :=
  ∀ p ∈ liveTimers w.timers, ∀ q ∈ liveTimers w.timers,
    p.2 = TimerFunc.playCallback → q.2 = TimerFunc.playCallback → p.1 = q.1

/-- The timers that a step releases: a successful Stop the heartbeat and the shutdown timer
that the driver holds, a successful Start the heartbeat timer that the driver still holds,
the read handler of a Play-timer that timer, and every other step none. -/
def expectedFrees (w : World) : Action → List Nat
  | .stop =>
    if w.driver.state = ONIONTRACE_DRIVER_IDLE then []
    else w.driver.heartbeatTimer.toList ++ w.driver.shutdownTimer.toList
  | .start (some _) =>
    if w.driver.state = ONIONTRACE_DRIVER_IDLE then w.driver.heartbeatTimer.toList else []
  | .timerReadable t _ _ =>
    if (t, TimerFunc.playCallback) ∈ liveTimers w.timers then [t] else []
  | _ => []

/-- A second session in Play mode after a Stop: the new control client gets handle 6. -/
def restart : List Action :=
  [.stop, .start (some 4001), .connected 6, .authenticated 6,
   .bootstrapped 6 (some sampleTrace)]

/-- The driver in Play mode right after Start: heartbeat timer 2, shutdown timer 3. -/
def samplePlayStarted : World := after samplePlay [.start (some 4000)]

/-- The driver in Play mode after the handshake, in the state Bootstrapping. -/
def samplePlayBootstrapping : World := after samplePlay handshake

/-- The playing driver after a Stop: the Play-timer 5 is still live and registered. -/
def sampleStopped : World := after samplePlay (bootstrap ++ [.stop])

/-- A spurious wake of the Play-timer 5. -/
def spuriousWake : Action := .timerReadable 5 false { tv_sec := 1, tv_nsec := 0 }

/-- The playing driver after a spurious wake of its Play-timer 5. -/
def sampleSpurious : World := after samplePlay (bootstrap ++ [spuriousWake])

/-- The Play-timer 5 fires after its ten seconds. -/
def playFire : Action := .timerReadable 5 true { tv_sec := 10, tv_nsec := 0 }

/-- The playing driver after its Play-timer 5 has fired: the trace is exhausted. -/
def samplePlayed : World := after samplePlay (bootstrap ++ [playFire])

/-- The driver in Play mode started again after a failed Player construction: control client
4, heartbeat timer 5, shutdown timer 6 (the shutdown timer 3 of the first session is still
live). -/
def sampleRestarted : World := after samplePlay (failedBootstrap ++ [.start (some 4001)])

/-- A trace with two launches, due in ten and in twenty seconds. -/
def sampleTrace2 : Subsystem :=
  { status := "ok", trace := [{ tv_sec := 10, tv_nsec := 0 }, { tv_sec := 20, tv_nsec := 0 }] }

/-- The shutdown timer 3 fires after the five seconds of the run time. -/
def shutdownFire : Action := .timerReadable 3 true { tv_sec := 5, tv_nsec := 0 }

/-- The driver playing the trace with two launches after its shutdown timer has fired: the
reactor has been asked to stop, the Play-timer 5 is still armed and registered. -/
def sampleShutdownFired : World :=
  after samplePlay (handshake ++ [.bootstrapped 1 (some sampleTrace2), shutdownFire])

/-! ## Effects of the functions on the world -/

@[simp]
theorem frees_nil : frees [] = [] := rfl
@[simp]
theorem frees_append (a b : List Event) : frees (a ++ b) = frees a ++ frees b := by
  simp [frees, List.filterMap_append]
@[simp]
theorem frees_cons (e : Event) (l : List Event) :
    frees (e :: l) = (match e with | .timerFree t => [t] | _ => []) ++ frees l := by
  cases e <;> simp [frees, List.filterMap_cons]
@[simp]
theorem created_nil : created [] = [] := rfl
@[simp]
theorem created_append (a b : List Event) :
    created (a ++ b) = created a ++ created b := by
  simp [created, List.filterMap_append]
@[simp]
theorem created_cons (e : Event) (l : List Event) :
    created (e :: l) = (match e with | .timerNew t f => [(t, f)] | _ => []) ++ created l := by
  cases e <;> simp [created, List.filterMap_cons]
@[simp]
theorem liveTimers_nil : liveTimers [] = [] := rfl
@[simp]
theorem liveTimers_append (a b : List OnionTraceTimer) :
    liveTimers (a ++ b) = liveTimers a ++ liveTimers b := by
  simp [liveTimers]
@[simp]
theorem liveTimers_cons (t : OnionTraceTimer) (l : List OnionTraceTimer) :
    liveTimers (t :: l) = (t.handle, t.func) :: liveTimers l := by
  simp [liveTimers]
@[simp]
theorem liveTimers_arm (ts : List OnionTraceTimer) (t : Nat) (spec : Itimerspec) :
    liveTimers (ts.map fun tm => if tm.handle = t then { tm with armTime := some spec } else tm)
      = liveTimers ts := by
  simp only [liveTimers, List.map_map]
  apply List.map_congr_left
  intro tm _
  by_cases h : tm.handle = t <;> simp [h]
@[simp]
theorem liveTimers_free (ts : List OnionTraceTimer) (t : Nat) :
    liveTimers (ts.filter fun tm => tm.handle ≠ t)
      = (liveTimers ts).filter fun p => p.1 ≠ t := by
  induction ts with
  | nil => rfl
  | cons a l ih =>
    by_cases h : a.handle = t <;> simp_all [List.filter_cons, liveTimers]

@[simp]
theorem liveTimers_free_bool (ts : List OnionTraceTimer) (t : Nat) :
    liveTimers (ts.filter fun tm => !decide (tm.handle = t))
      = (liveTimers ts).filter fun p => !decide (p.1 = t) := by
  induction ts with
  | nil => rfl
  | cons a l ih =>
    by_cases h : a.handle = t <;> simp_all [List.filter_cons, liveTimers]

theorem registerPlayTimer_effect (w : World) :
    (_oniontracedriver_registerPlayTimer w).driver = w.driver ∧
    (_oniontracedriver_registerPlayTimer w).torctls = w.torctls ∧
    (_oniontracedriver_registerPlayTimer w).manager.stopCount = w.manager.stopCount ∧
    (_oniontracedriver_registerPlayTimer w).manager.registered =
      w.manager.registered ++ accepted w ((playTimerMade w).map playRegistration) ∧
    liveTimers (_oniontracedriver_registerPlayTimer w).timers =
      liveTimers w.timers ++ playTimerMade w ∧
    (_oniontracedriver_registerPlayTimer w).nextHandle =
      w.nextHandle + (playTimerMade w).length ∧
    frees (_oniontracedriver_registerPlayTimer w).log = frees w.log ∧
    created (_oniontracedriver_registerPlayTimer w).log = created w.log ++ playTimerMade w := by
  unfold _oniontracedriver_registerPlayTimer oniontraceplayer_getNextCircuitLaunchTime
    playTimerMade
  cases hp : w.driver.player with
  | none => simp [World.emit, accepted]
  | some p =>
    by_cases hs : w.manager.stopCount = 0 <;> cases hq : p.queue.head? <;>
      simp [World.emit, hq, hs, accepted, oniontracetimer_new, oniontracetimer_armGranular,
        oniontraceeventmanager_register, playRegistration, oniontracetimer_getFD]

theorem stop_effect (w : World) (h : w.driver.state ≠ ONIONTRACE_DRIVER_IDLE) :
    (oniontracedriver_stop w).2.driver =
      { w.driver with
        recorder := none, player := none, heartbeatTimer := none, shutdownTimer := none,
        torctl := none, state := ONIONTRACE_DRIVER_IDLE } ∧
    (oniontracedriver_stop w).2.torctls =
      w.torctls.filter (fun c => some c.handle ≠ w.driver.torctl) ∧
    liveTimers (oniontracedriver_stop w).2.timers =
      ((liveTimers w.timers).filter (fun p => some p.1 ≠ w.driver.heartbeatTimer)).filter
        (fun p => some p.1 ≠ w.driver.shutdownTimer) ∧
    (oniontracedriver_stop w).2.nextHandle = w.nextHandle ∧
    frees (oniontracedriver_stop w).2.log =
      frees w.log ++ w.driver.heartbeatTimer.toList ++ w.driver.shutdownTimer.toList ∧
    created (oniontracedriver_stop w).2.log = created w.log ∧
    (oniontracedriver_stop w).2.manager.stopCount = w.manager.stopCount ∧
    (oniontracedriver_stop w).2.manager.registered =
      ((w.manager.registered.filter (fun r => some r.timer ≠ w.driver.heartbeatTimer)).filter
        (fun r => some r.timer ≠ w.driver.shutdownTimer)) := by
  obtain ⟨⟨cfg, st, id, hb, sd, now, tc, rc, pl⟩, m, ts, cs, n, lg⟩ := w
  simp only at h
  cases rc <;> cases pl <;> cases hb <;> cases sd <;> cases tc <;>
    (simp [oniontracedriver_stop, h, oniontracerecorder_free, oniontraceplayer_free,
      oniontracetimer_free, oniontracetorctl_free, World.emit]
     try simp [liveTimers, List.filter_map, Function.comp_def])

theorem start_effect (w : World) (port : Nat)
    (h : w.driver.state = ONIONTRACE_DRIVER_IDLE) :
    (oniontracedriver_start w (some port)).2.driver =
      { w.driver with
        torctl := some w.nextHandle
        state := ONIONTRACE_DRIVER_CONNECTING
        heartbeatTimer := some (w.nextHandle + 1)
        shutdownTimer :=
          if w.driver.config.runTimeSeconds > 0 then some (w.nextHandle + 2)
          else w.driver.shutdownTimer } ∧
    (oniontracedriver_start w (some port)).2.torctls = w.torctls ++
      [{ handle := w.nextHandle, controlPort := w.driver.config.torControlPort,
         clientPort := port, pending := some .onConnected }] ∧
    liveTimers (oniontracedriver_start w (some port)).2.timers =
      (liveTimers w.timers).filter (fun p => some p.1 ≠ w.driver.heartbeatTimer) ++
        (w.nextHandle + 1, TimerFunc.heartbeat) ::
        (if w.driver.config.runTimeSeconds > 0 then [(w.nextHandle + 2, TimerFunc.shutdown)]
          else []) ∧
    (oniontracedriver_start w (some port)).2.nextHandle =
      (if w.driver.config.runTimeSeconds > 0 then w.nextHandle + 3 else w.nextHandle + 2) ∧
    frees (oniontracedriver_start w (some port)).2.log =
      frees w.log ++ w.driver.heartbeatTimer.toList ∧
    created (oniontracedriver_start w (some port)).2.log =
      created w.log ++ (w.nextHandle + 1, TimerFunc.heartbeat) ::
        (if w.driver.config.runTimeSeconds > 0 then [(w.nextHandle + 2, TimerFunc.shutdown)]
          else []) ∧
    (oniontracedriver_start w (some port)).2.manager.stopCount = w.manager.stopCount ∧
    (oniontracedriver_start w (some port)).2.manager.registered =
      w.manager.registered.filter (fun r => some r.timer ≠ w.driver.heartbeatTimer) ++
        accepted w (genericRegistration (w.nextHandle + 1) ::
        (if w.driver.config.runTimeSeconds > 0 then [genericRegistration (w.nextHandle + 2)]
          else [])) := by
  obtain ⟨⟨cfg, st, id, hb, sd, now, tc, rc, pl⟩, m, ts, cs, n, lg⟩ := w
  simp only at h
  subst h
  by_cases hs : m.stopCount = 0 <;> by_cases hr : cfg.runTimeSeconds > 0 <;> cases hb <;>
    simp [-List.map_map, oniontracedriver_start, hr, hs, accepted, message, World.emit,
      oniontracetorctl_new,
      _oniontracedriver_registerHeartbeat, _oniontracedriver_registerShutdown,
      oniontracetimer_new, oniontracetimer_arm, oniontracetimer_armGranular,
      oniontracetimer_free, oniontracetimer_getFD, oniontraceeventmanager_register,
      genericRegistration]

theorem start_failed_effect (w : World)
    (h : w.driver.state = ONIONTRACE_DRIVER_IDLE) :
    (oniontracedriver_start w none).1 = false ∧
    (oniontracedriver_start w none).2 =
      { w with
        driver := { w.driver with torctl := none }
        log := w.log ++
          [.message (w.driver.id ++ ": creating control client to connect to Tor"),
           .torctlNew w.driver.config.torControlPort .onConnected none,
           .message (w.driver.id ++ ": error creating tor controller instance")] } := by
  simp [oniontracedriver_start, h, message, World.emit, oniontracetorctl_new]

theorem start_rejected_effect (w : World) (result : Option Nat)
    (h : w.driver.state ≠ ONIONTRACE_DRIVER_IDLE) :
    oniontracedriver_start w result =
      (false, { w with log := w.log ++
        [.message (w.driver.id ++ ": can\x27t start driver because it is not idle")] }) := by
  simp [oniontracedriver_start, h, message, World.emit]

theorem stop_rejected_effect (w : World) (h : w.driver.state = ONIONTRACE_DRIVER_IDLE) :
    oniontracedriver_stop w =
      (false, { w with log := w.log ++
        [.message (w.driver.id ++ ": can\x27t stop driver because it is already idle")] }) := by
  simp [oniontracedriver_stop, h, message, World.emit]

theorem onConnected_effect (w : World) :
    (_oniontracedriver_onConnected w).driver =
      { w.driver with state := ONIONTRACE_DRIVER_AUTHENTICATING } ∧
    (_oniontracedriver_onConnected w).torctls =
      (w.setPending w.driver.torctl (some .onAuthenticated)).torctls ∧
    (_oniontracedriver_onConnected w).timers = w.timers ∧
    (_oniontracedriver_onConnected w).manager = w.manager ∧
    (_oniontracedriver_onConnected w).nextHandle = w.nextHandle ∧
    frees (_oniontracedriver_onConnected w).log = frees w.log ∧
    created (_oniontracedriver_onConnected w).log = created w.log := by
  cases h : w.driver.torctl <;>
    simp [_oniontracedriver_onConnected, message, World.emit,
      oniontracetorctl_commandAuthenticate, World.setPending, h]

theorem onAuthenticated_effect (w : World) :
    (_oniontracedriver_onAuthenticated w).driver =
      { w.driver with state := ONIONTRACE_DRIVER_BOOTSTRAPPING } ∧
    (_oniontracedriver_onAuthenticated w).torctls =
      (w.setPending w.driver.torctl (some .onBootstrapped)).torctls ∧
    (_oniontracedriver_onAuthenticated w).timers = w.timers ∧
    (_oniontracedriver_onAuthenticated w).manager = w.manager ∧
    (_oniontracedriver_onAuthenticated w).nextHandle = w.nextHandle ∧
    frees (_oniontracedriver_onAuthenticated w).log = frees w.log ∧
    created (_oniontracedriver_onAuthenticated w).log = created w.log := by
  cases h : w.driver.torctl <;>
    simp [_oniontracedriver_onAuthenticated, message, World.emit,
      oniontracetorctl_commandGetBootstrapStatus, World.setPending, h]

theorem setPending_effect (w : World) (h : Option Nat) (cb : Option TorCtlFunc) :
    (w.setPending h cb).driver = w.driver ∧
    (w.setPending h cb).timers = w.timers ∧
    (w.setPending h cb).manager = w.manager ∧
    (w.setPending h cb).nextHandle = w.nextHandle ∧
    (w.setPending h cb).log = w.log := by
  cases h <;> simp [World.setPending]

theorem mem_setPending {w : World} {h : Option Nat} {cb : Option TorCtlFunc}
    {c : OnionTraceTorCtl} (hc : c ∈ (w.setPending h cb).torctls) :
    ∃ c0 ∈ w.torctls, c.handle = c0.handle ∧
      ((some c0.handle = h ∧ c.pending = cb) ∨ (some c0.handle ≠ h ∧ c.pending = c0.pending)) := by
  cases h with
  | none => exact ⟨c, by simpa [World.setPending] using hc, rfl, Or.inr ⟨by simp, rfl⟩⟩
  | some h =>
    simp only [World.setPending, List.mem_map] at hc
    obtain ⟨c0, hc0, rfl⟩ := hc
    refine ⟨c0, hc0, ?_⟩
    by_cases e : c0.handle = h <;> simp [e]

theorem onBootstrapped_record_effect (w : World) (s : Subsystem)
    (hm : w.driver.config.mode = ONIONTRACE_MODE_RECORD) :
    (_oniontracedriver_onBootstrapped w (some s)).driver =
      { w.driver with
        state := ONIONTRACE_DRIVER_RECORDING
        recorder := some { handle := w.nextHandle, status := s.status } } ∧
    (_oniontracedriver_onBootstrapped w (some s)).torctls = w.torctls ∧
    (_oniontracedriver_onBootstrapped w (some s)).timers = w.timers ∧
    (_oniontracedriver_onBootstrapped w (some s)).manager = w.manager ∧
    (_oniontracedriver_onBootstrapped w (some s)).nextHandle = w.nextHandle + 1 ∧
    frees (_oniontracedriver_onBootstrapped w (some s)).log = frees w.log ∧
    created (_oniontracedriver_onBootstrapped w (some s)).log = created w.log := by
  simp [_oniontracedriver_onBootstrapped, hm, message, World.emit, oniontracerecorder_new]

theorem onBootstrapped_play_effect (w : World) (s : Subsystem)
    (hm : w.driver.config.mode = ONIONTRACE_MODE_PLAY) :
    (_oniontracedriver_onBootstrapped w (some s)).driver =
      { w.driver with
        state := ONIONTRACE_DRIVER_PLAYING
        player := some { handle := w.nextHandle, queue := s.trace, issued := 0,
                         status := s.status } } ∧
    (_oniontracedriver_onBootstrapped w (some s)).torctls = w.torctls ∧
    liveTimers (_oniontracedriver_onBootstrapped w (some s)).timers =
      liveTimers w.timers ++ bootstrapMade w s ∧
    (_oniontracedriver_onBootstrapped w (some s)).manager.stopCount = w.manager.stopCount ∧
    (_oniontracedriver_onBootstrapped w (some s)).manager.registered =
      w.manager.registered ++ accepted w ((bootstrapMade w s).map playRegistration) ∧
    (_oniontracedriver_onBootstrapped w (some s)).nextHandle =
      w.nextHandle + 1 + (bootstrapMade w s).length ∧
    frees (_oniontracedriver_onBootstrapped w (some s)).log = frees w.log ∧
    created (_oniontracedriver_onBootstrapped w (some s)).log =
      created w.log ++ bootstrapMade w s := by
  by_cases hs : w.manager.stopCount = 0 <;> cases hq : s.trace.head? <;>
  simp [_oniontracedriver_onBootstrapped, hm, message, World.emit, oniontraceplayer_new,
    _oniontracedriver_registerPlayTimer, oniontraceplayer_getNextCircuitLaunchTime, hq, hs,
    accepted, bootstrapMade, oniontracetimer_new, oniontracetimer_armGranular,
    oniontraceeventmanager_register, playRegistration, oniontracetimer_getFD]

theorem onBootstrapped_failed_effect (w : World) :
    (_oniontracedriver_onBootstrapped w none).driver =
      (if w.driver.config.mode = ONIONTRACE_MODE_RECORD then
        { w.driver with state := ONIONTRACE_DRIVER_IDLE, recorder := none }
       else { w.driver with state := ONIONTRACE_DRIVER_IDLE, player := none }) ∧
    (_oniontracedriver_onBootstrapped w none).torctls = w.torctls ∧
    (_oniontracedriver_onBootstrapped w none).timers = w.timers ∧
    (_oniontracedriver_onBootstrapped w none).manager =
      { w.manager with stopCount := w.manager.stopCount + 1 } ∧
    (_oniontracedriver_onBootstrapped w none).nextHandle = w.nextHandle ∧
    frees (_oniontracedriver_onBootstrapped w none).log = frees w.log ∧
    created (_oniontracedriver_onBootstrapped w none).log = created w.log := by
  by_cases hm : w.driver.config.mode = ONIONTRACE_MODE_RECORD <;>
  simp [_oniontracedriver_onBootstrapped, hm, message, critical, World.emit,
    oniontracerecorder_new, oniontraceplayer_new, oniontraceeventmanager_stopMainLoop]

@[simp] theorem accepted_nil (w : World) : accepted w [] = [] := by
  simp [accepted]

theorem accepted_running {w : World} (h : w.manager.stopCount = 0)
    (rs : List Registration) : accepted w rs = rs := by
  simp [accepted, h]

theorem accepted_stopped {w : World} (h : w.manager.stopCount ≠ 0)
    (rs : List Registration) : accepted w rs = [] := by
  simp [accepted, h]

theorem mem_accepted {w : World} {rs : List Registration} {r : Registration}
    (h : r ∈ accepted w rs) : r ∈ rs := by
  unfold accepted at h
  split at h
  · exact h
  · simp at h

theorem playTimerMade_shape (w : World) :
    playTimerMade w = [] ∨ playTimerMade w = [(w.nextHandle, TimerFunc.playCallback)] := by
  unfold playTimerMade
  split <;> simp

theorem check_summary (w : World) (tm : OnionTraceTimer) (expired : Bool) (now : Timespec) :
    ∃ made, TimerDispatch w (oniontracetimer_check w tm expired now).2 made [] := by
  cases expired with
  | false =>
    exact ⟨[], by constructor <;> simp [oniontracetimer_check, World.emit]⟩
  | true =>
    cases hf : tm.func with
    | heartbeat =>
      exact ⟨[], by
        constructor <;>
          simp [oniontracetimer_check, World.emit, hf, _oniontracedriver_heartbeat, message]⟩
    | shutdown =>
      exact ⟨[], by
        constructor <;>
          simp [oniontracetimer_check, World.emit, hf, _oniontracedriver_shutdown,
            oniontraceeventmanager_stopMainLoop]⟩
    | playCallback =>
      have hw : (oniontracetimer_check w tm true now).2 =
          _oniontracedriver_registerPlayTimer
            (oniontraceplayer_launchNextCircuit (w.emit (.timerCheck tm.handle true))) := by
        simp [oniontracetimer_check, hf, _oniontracedriver_playCallback]
      obtain ⟨e1, e2, _, e3, e4, e5, e6, e7⟩ := registerPlayTimer_effect
        (oniontraceplayer_launchNextCircuit (w.emit (.timerCheck tm.handle true)))
      have hl : ∀ e, (oniontraceplayer_launchNextCircuit (w.emit e)).nextHandle = w.nextHandle ∧
          (oniontraceplayer_launchNextCircuit (w.emit e)).timers = w.timers ∧
          (oniontraceplayer_launchNextCircuit (w.emit e)).manager = w.manager ∧
          (oniontraceplayer_launchNextCircuit (w.emit e)).torctls = w.torctls ∧
          frees (oniontraceplayer_launchNextCircuit (w.emit e)).log = frees (w.log ++ [e]) ∧
          created (oniontraceplayer_launchNextCircuit (w.emit e)).log =
            created (w.log ++ [e]) ∧
          (oniontraceplayer_launchNextCircuit (w.emit e)).driver.state = w.driver.state ∧
          (oniontraceplayer_launchNextCircuit (w.emit e)).driver.config = w.driver.config ∧
          (oniontraceplayer_launchNextCircuit (w.emit e)).driver.torctl = w.driver.torctl ∧
          (oniontraceplayer_launchNextCircuit (w.emit e)).driver.heartbeatTimer =
            w.driver.heartbeatTimer ∧
          (oniontraceplayer_launchNextCircuit (w.emit e)).driver.shutdownTimer =
            w.driver.shutdownTimer ∧
          (oniontraceplayer_launchNextCircuit (w.emit e)).driver.recorder =
            w.driver.recorder ∧
          (oniontraceplayer_launchNextCircuit (w.emit e)).driver.player.isSome =
            w.driver.player.isSome := by
        intro e
        cases hp : w.driver.player <;>
          simp [oniontraceplayer_launchNextCircuit, World.emit, hp]
      obtain ⟨l1, l2, l2m, l3, l4, l5, l6, l7, l8, l9, l10, l11, l12⟩ :=
        hl (.timerCheck tm.handle true)
      refine ⟨playTimerMade
        (oniontraceplayer_launchNextCircuit (w.emit (.timerCheck tm.handle true))), ?_⟩
      rw [hw]
      constructor
      · have := playTimerMade_shape
          (oniontraceplayer_launchNextCircuit (w.emit (.timerCheck tm.handle true)))
        rwa [l1] at this
      · rw [e4, l2]; simp
      · rw [e3]; simp [accepted, l2m]
      · rw [e5, l1]
      · rw [e6, l4]; simp
      · rw [e7, l5]; simp
      · rw [e2, l3]
      · rw [e1, l6]
      · rw [e1, l7]
      · rw [e1, l8]
      · rw [e1, l9]
      · rw [e1, l10]
      · rw [e1, l11]
      · rw [e1, l12]

theorem timerDispatch_emit {w w1 : World} {made : List (Nat × TimerFunc)}
    {freed : List Nat} (h : TimerDispatch w w1 made freed) (e : Event)
    (he1 : frees [e] = []) (he2 : created [e] = []) : TimerDispatch w (w1.emit e) made freed := by
  obtain ⟨a1, a2, a2m, a3, a4, a5, a6, a7, a8, a9, a10, a11, a12, a13⟩ := h
  constructor <;> simp_all [World.emit]

theorem genericTimerReadable_summary (w : World) (tm : OnionTraceTimer) (expired : Bool)
    (now : Timespec) :
    ∃ made, TimerDispatch w (_oniontracedriver_genericTimerReadable w tm expired now) made [] := by
  obtain ⟨made, h⟩ := check_summary w tm expired now
  refine ⟨made, ?_⟩
  unfold _oniontracedriver_genericTimerReadable
  simp only
  split
  · exact timerDispatch_emit h _ rfl rfl
  · exact h

theorem playTimerReadable_summary (w : World) (tm : OnionTraceTimer) (expired : Bool)
    (now : Timespec) :
    ∃ made, TimerDispatch w (_oniontracedriver_playTimerReadable w tm expired now) made
      [tm.handle] := by
  obtain ⟨made, h⟩ := check_summary w tm expired now
  refine ⟨made, ?_⟩
  have key : ∀ w1, TimerDispatch w w1 made [] →
      TimerDispatch w (oniontracetimer_free w1 tm.handle) made [tm.handle] := by
    intro w1 h1
    obtain ⟨a1, a2, a2m, a3, a4, a5, a6, a7, a8, a9, a10, a11, a12, a13⟩ := h1
    constructor <;> simp_all [oniontracetimer_free]
  unfold _oniontracedriver_playTimerReadable
  simp only
  split
  · exact key _ (timerDispatch_emit h _ rfl rfl)
  · exact key _ h

/-! ## Invariants of executions -/

theorem completes_spec {w : World} {h : Nat} {cb : TorCtlFunc}
    (hc : w.completes h cb = true) : ∃ c ∈ w.torctls, c.handle = h ∧ c.pending = some cb := by
  unfold World.completes at hc
  split at hc
  · simp at hc
  · rename_i c hf
    refine ⟨c, List.mem_of_find?_eq_some hf, ?_, ?_⟩
    · have := List.find?_some hf
      simpa using this
    · simpa using hc

theorem stateFor_ne_idle (cb : TorCtlFunc) : stateFor cb ≠ ONIONTRACE_DRIVER_IDLE := by
  cases cb <;> simp [stateFor]

theorem inv_new (cfg : OnionTraceConfig) : Inv (oniontracedriver_new cfg) := by
  constructor <;> simp [oniontracedriver_new]

theorem inv_start {w : World} (result : Option Nat) (hi : Inv w) :
    Inv (oniontracedriver_start w result).2 := by
  obtain ⟨h1, h2, h3, h4, h5⟩ := hi
  by_cases hst : w.driver.state = ONIONTRACE_DRIVER_IDLE
  · have hp : ∀ c ∈ w.torctls, c.pending = none := by
      intro c hc
      cases hcp : c.pending with
      | none => rfl
      | some cb => exact absurd ((h5 c hc cb hcp).2.symm.trans hst) (stateFor_ne_idle cb)
    cases result with
    | none =>
      rw [(start_failed_effect w hst).2]
      constructor
      · simp [hst]
      · simp [hst]
      · simpa using h3
      · simpa using h4
      · intro c hc cb hcb
        simp only at hc
        rw [hp c hc] at hcb
        cases hcb
    | some port =>
      obtain ⟨e1, e2, -⟩ := start_effect w port hst
      constructor
      · simp [e1]
      · simp [e1]
      · rw [e1]; simpa [hst] using h3
      · rw [e1]; simpa [hst] using h4
      · intro c hc cb hcb
        rw [e2] at hc
        rcases List.mem_append.mp hc with hc | hc
        · rw [hp c hc] at hcb
          cases hcb
        · simp only [List.mem_singleton] at hc
          subst hc
          simp only [Option.some.injEq] at hcb
          subst hcb
          simp [e1, stateFor]
  · rw [start_rejected_effect w result hst]
    exact ⟨h1, h2, h3, h4, h5⟩

theorem inv_stop {w : World} (hi : Inv w) : Inv (oniontracedriver_stop w).2 := by
  obtain ⟨h1, h2, h3, h4, h5⟩ := hi
  by_cases hst : w.driver.state = ONIONTRACE_DRIVER_IDLE
  · rw [stop_rejected_effect w hst]
    exact ⟨h1, h2, h3, h4, h5⟩
  · obtain ⟨e1, e2, -⟩ := stop_effect w hst
    constructor
    · simp [e1]
    · simp [e1]
    · simp [e1]
    · simp [e1]
    · intro c hc cb hcb
      rw [e2] at hc
      simp only [List.mem_filter] at hc
      have := (h5 c hc.1 cb hcb).1
      simp [this] at hc

theorem inv_completion {w : World} {h : Nat} {cb : TorCtlFunc} (hi : Inv w)
    (hc : w.completes h cb = true) :
    w.driver.torctl = some h ∧ w.driver.state = stateFor cb ∧
    ∀ c ∈ (w.setPending (some h) none).torctls, c.pending = none := by
  obtain ⟨c, hc1, hc2, hc3⟩ := completes_spec hc
  obtain ⟨a, b⟩ := hi.pending c hc1 cb hc3
  rw [hc2] at a
  refine ⟨a, b, ?_⟩
  intro c1 hc1
  obtain ⟨c0, hc0, _, hcase⟩ := mem_setPending hc1
  rcases hcase with ⟨_, hp⟩ | ⟨hne, hp⟩
  · exact hp
  · cases hcp : c0.pending with
    | none => rw [hp, hcp]
    | some cb0 =>
      have := (hi.pending c0 hc0 cb0 hcp).1
      rw [a] at this
      exact absurd this.symm hne

theorem inv_command {w w1 : World} {h : Nat} {cb0 : TorCtlFunc} (cb : TorCtlFunc) (hi : Inv w)
    (hc : w.completes h cb0 = true)
    (hd : w1.driver = { w.driver with state := stateFor cb })
    (ht : w1.torctls =
      ((w.setPending (some h) none).setPending w.driver.torctl (some cb)).torctls) :
    Inv w1 := by
  obtain ⟨a, b, hp⟩ := inv_completion hi hc
  have hs0 : w.driver.state ≠ ONIONTRACE_DRIVER_IDLE := b ▸ stateFor_ne_idle cb0
  have hnr : w.driver.state ≠ ONIONTRACE_DRIVER_RECORDING := by
    rw [b]; cases cb0 <;> simp [stateFor]
  have hnp : w.driver.state ≠ ONIONTRACE_DRIVER_PLAYING := by
    rw [b]; cases cb0 <;> simp [stateFor]
  have hr : w.driver.recorder.isSome = false := by
    cases hx : w.driver.recorder.isSome
    · rfl
    · exact absurd (hi.recorder_iff.mp hx) hnr
  have hpl : w.driver.player.isSome = false := by
    cases hx : w.driver.player.isSome
    · rfl
    · exact absurd (hi.player_iff.mp hx) hnp
  constructor
  · intro _; rw [hd]; exact hi.torctl_of_active hs0
  · intro _; rw [hd]; exact hi.heartbeat_of_active hs0
  · rw [hd]; simp only [hr]; cases cb <;> simp [stateFor]
  · rw [hd]; simp only [hpl]; cases cb <;> simp [stateFor]
  · intro c hcm cb1 hcb1
    rw [ht] at hcm
    obtain ⟨c0, hc0, hh, hcase⟩ := mem_setPending hcm
    rcases hcase with ⟨h1, h2⟩ | ⟨_, h2⟩
    · rw [h2] at hcb1
      cases hcb1
      rw [hd, hh]
      exact ⟨h1.symm, rfl⟩
    · rw [h2, hp c0 hc0] at hcb1
      cases hcb1

theorem inv_connected {w : World} {h : Nat} (hi : Inv w)
    (hc : w.completes h .onConnected = true) :
    Inv (_oniontracedriver_onConnected (w.setPending (some h) none)) := by
  obtain ⟨e1, e2, -⟩ := onConnected_effect (w.setPending (some h) none)
  obtain ⟨s1, -⟩ := setPending_effect w (some h) none
  rw [s1] at e1 e2
  exact inv_command .onAuthenticated hi hc e1 e2

theorem inv_authenticated {w : World} {h : Nat} (hi : Inv w)
    (hc : w.completes h .onAuthenticated = true) :
    Inv (_oniontracedriver_onAuthenticated (w.setPending (some h) none)) := by
  obtain ⟨e1, e2, -⟩ := onAuthenticated_effect (w.setPending (some h) none)
  obtain ⟨s1, -⟩ := setPending_effect w (some h) none
  rw [s1] at e1 e2
  exact inv_command .onBootstrapped hi hc e1 e2

theorem inv_bootstrapped {w : World} {h : Nat} (result : Option Subsystem) (hi : Inv w)
    (hc : w.completes h .onBootstrapped = true) :
    Inv (_oniontracedriver_onBootstrapped (w.setPending (some h) none) result) := by
  obtain ⟨a, b, hp⟩ := inv_completion hi hc
  obtain ⟨s1, -⟩ := setPending_effect w (some h) none
  have hr : w.driver.recorder = none := by
    cases hx : w.driver.recorder with
    | none => rfl
    | some r =>
      have := hi.recorder_iff.mp (by simp [hx])
      rw [b] at this
      simp [stateFor] at this
  have hpl : w.driver.player = none := by
    cases hx : w.driver.player with
    | none => rfl
    | some r =>
      have := hi.player_iff.mp (by simp [hx])
      rw [b] at this
      simp [stateFor] at this
  have hb := hi.heartbeat_of_active (b ▸ stateFor_ne_idle _)
  have pend : ∀ w1 : World, w1.torctls = (w.setPending (some h) none).torctls →
      ∀ c ∈ w1.torctls, ∀ cb, c.pending = some cb →
        w1.driver.torctl = some c.handle ∧ w1.driver.state = stateFor cb := by
    intro w1 ht c hcm cb hcb
    rw [ht] at hcm
    rw [hp c hcm] at hcb
    cases hcb
  cases result with
  | none =>
    obtain ⟨e1, e2, -⟩ := onBootstrapped_failed_effect (w.setPending (some h) none)
    rw [s1] at e1
    refine ⟨?_, ?_, ?_, ?_, pend _ e2⟩ <;> rw [e1] <;> split <;> simp [hr, hpl]
  | some s =>
    cases hm : w.driver.config.mode with
    | ONIONTRACE_MODE_RECORD =>
      obtain ⟨e1, e2, -⟩ := onBootstrapped_record_effect (w.setPending (some h) none) s
        (by rw [s1]; exact hm)
      rw [s1] at e1
      refine ⟨?_, ?_, ?_, ?_, pend _ e2⟩ <;> rw [e1] <;> simp [hpl, a, hb]
    | ONIONTRACE_MODE_PLAY =>
      obtain ⟨e1, e2, -⟩ := onBootstrapped_play_effect (w.setPending (some h) none) s
        (by rw [s1]; exact hm)
      rw [s1] at e1
      refine ⟨?_, ?_, ?_, ?_, pend _ e2⟩ <;> rw [e1] <;> simp [hr, a, hb]

theorem inv_timerDispatch {w w1 : World} {made : List (Nat × TimerFunc)}
    {freed : List Nat} (hi : Inv w) (hd : TimerDispatch w w1 made freed) : Inv w1 := by
  obtain ⟨h1, h2, h3, h4, h5⟩ := hi
  constructor
  · rw [hd.state_eq, hd.torctl_eq]; exact h1
  · rw [hd.state_eq, hd.heartbeat_eq]; exact h2
  · rw [hd.state_eq, hd.recorder_eq]; exact h3
  · rw [hd.state_eq, hd.player_eq]; exact h4
  · rw [hd.state_eq, hd.torctl_eq, hd.torctls_eq]; exact h5

theorem timerReadable_summary {w w1 : World} {t : Nat} {expired : Bool} {now : Timespec}
    (hs : step w (.timerReadable t expired now) = some w1) :
    ∃ made freed, TimerDispatch w w1 made freed ∧
      (∃ r ∈ w.manager.registered, r.timer = t ∧
        ((freed = [] ∧ r.func = ReadableFunc.genericTimerReadable) ∨
         (freed = [t] ∧ r.func = ReadableFunc.playTimerReadable))) ∧
      ∃ f, (t, f) ∈ liveTimers w.timers := by
  simp only [step] at hs
  split at hs
  · cases hs
  · rename_i tm hf
    have h2 : tm.handle = t := by simpa using List.find?_some hf
    have hmem : (t, tm.func) ∈ liveTimers w.timers := by
      have h1 := List.mem_of_find?_eq_some hf
      simp only [liveTimers, List.mem_map]
      exact ⟨tm, h1, by rw [h2]⟩
    split at hs
    · cases hs
    · rename_i r hrf
      have hr1 := List.mem_of_find?_eq_some hrf
      have hr2 : r.timer = t := by simpa using List.find?_some hrf
      split at hs
      · rename_i hfunc
        simp only [Option.some.injEq] at hs
        subst hs
        obtain ⟨made, hd⟩ := genericTimerReadable_summary w tm expired now
        exact ⟨made, [], hd, ⟨r, hr1, hr2, Or.inl ⟨rfl, hfunc⟩⟩, _, hmem⟩
      · rename_i hfunc
        simp only [Option.some.injEq] at hs
        subst hs
        obtain ⟨made, hd⟩ := playTimerReadable_summary w tm expired now
        rw [h2] at hd
        exact ⟨made, [t], hd, ⟨r, hr1, hr2, Or.inr ⟨rfl, hfunc⟩⟩, _, hmem⟩

theorem inv_step {w w1 : World} {a : Action} (hi : Inv w) (hs : step w a = some w1) :
    Inv w1 := by
  cases a with
  | start result =>
    simp only [step, Option.some.injEq] at hs
    subst hs
    exact inv_start result hi
  | stop =>
    simp only [step, Option.some.injEq] at hs
    subst hs
    exact inv_stop hi
  | connected h =>
    simp only [step] at hs
    split at hs
    · rename_i hc
      simp only [Option.some.injEq] at hs
      subst hs
      exact inv_connected hi hc
    · cases hs
  | authenticated h =>
    simp only [step] at hs
    split at hs
    · rename_i hc
      simp only [Option.some.injEq] at hs
      subst hs
      exact inv_authenticated hi hc
    · cases hs
  | bootstrapped h result =>
    simp only [step] at hs
    split at hs
    · rename_i hc
      simp only [Option.some.injEq] at hs
      subst hs
      exact inv_bootstrapped result hi hc
    · cases hs
  | timerReadable t expired now =>
    obtain ⟨made, freed, hd, -, -⟩ := timerReadable_summary hs
    exact inv_timerDispatch hi hd

/-- An invariant of the steps that satisfy `A` holds after every run of such steps. -/
theorem run_invariant (P : World → Prop) (A : Action → Prop)
    (hstep : ∀ w a w1, P w → A a → step w a = some w1 → P w1) :
    ∀ (acts : List Action) (w w1 : World), P w → (∀ a ∈ acts, A a) →
      run w acts = some w1 → P w1 := by
  intro acts
  induction acts with
  | nil =>
    intro w w1 hp _ hr
    simp only [run, Option.some.injEq] at hr
    exact hr ▸ hp
  | cons a as ih =>
    intro w w1 hp ha hr
    simp only [run] at hr
    cases hs : step w a with
    | none => simp [hs] at hr
    | some w2 =>
      simp only [hs, Option.some_bind] at hr
      exact ih w2 w1 (hstep w a w2 hp (ha a (List.mem_cons_self _ _)) hs)
        (fun b hb => ha b (List.mem_cons_of_mem _ hb)) hr

theorem inv_run {cfg : OnionTraceConfig} {acts : List Action} {w : World}
    (hr : run (oniontracedriver_new cfg) acts = some w) : Inv w :=
  run_invariant Inv (fun _ => True) (fun _ _ _ hp _ hs => inv_step hp hs) acts _ _
    (inv_new cfg) (fun _ _ => trivial) hr

theorem invTimers_new (cfg : OnionTraceConfig) : InvTimers (oniontracedriver_new cfg) := by
  constructor <;> simp [oniontracedriver_new]

theorem invTimers_trans {w w1 : World} {F : List Nat} {M : List (Nat × TimerFunc)}
    (hi : InvTimers w) (ht : TimerTransition w w1 F M) : InvTimers w1 := by
  have live_lt : ∀ t ∈ F, t < w.nextHandle := by
    intro t htF
    obtain ⟨f, hf⟩ := ht.freed_live t htF
    exact hi.fresh _ hf
  constructor
  · intro p hp
    rcases (ht.live_iff p).mp hp with ⟨h1, _⟩ | h1
    · exact lt_of_lt_of_le (hi.fresh p h1) ht.next_le
    · exact (ht.made_fresh p h1).2
  · intro p hp q hq hpq
    rcases (ht.live_iff p).mp hp with ⟨h1, _⟩ | h1 <;>
      rcases (ht.live_iff q).mp hq with ⟨h2, _⟩ | h2
    · exact hi.func_unique p h1 q h2 hpq
    · have := hi.fresh p h1
      have := (ht.made_fresh q h2).1
      omega
    · have := hi.fresh q h2
      have := (ht.made_fresh p h1).1
      omega
    · exact ht.made_unique p h1 q h2 hpq
  · intro t h
    rcases ht.hb_next t h with h1 | ⟨h1, h2⟩
    · exact (ht.live_iff _).mpr (Or.inr h1)
    · exact (ht.live_iff _).mpr (Or.inl ⟨hi.hb_live t h1, h2⟩)
  · intro t h
    rcases ht.sd_next t h with h1 | ⟨h1, h2⟩
    · exact (ht.live_iff _).mpr (Or.inr h1)
    · exact (ht.live_iff _).mpr (Or.inl ⟨hi.sd_live t h1, h2⟩)
  · intro p hp hf
    rcases (ht.live_iff p).mp hp with ⟨h1, h2⟩ | h1
    · exact ht.hb_kept p.1 (hi.hb_only p h1 hf) h2
    · exact ht.hb_made p h1 hf
  · intro t h
    rw [ht.frees_eq] at h
    rcases List.mem_append.mp h with h | h
    · exact lt_of_lt_of_le (hi.freed_fresh t h) ht.next_le
    · exact lt_of_lt_of_le (live_lt t h) ht.next_le
  · intro t h p hp
    rw [ht.frees_eq] at h
    rcases (ht.live_iff p).mp hp with ⟨h1, h2⟩ | h1
    · rcases List.mem_append.mp h with h | h
      · exact hi.freed_dead t h p h1
      · intro e; exact h2 (e ▸ h)
    · have := (ht.made_fresh p h1).1
      rcases List.mem_append.mp h with h | h
      · have := hi.freed_fresh t h
        omega
      · have := live_lt t h
        omega
  · rw [ht.frees_eq]
    refine List.Nodup.append hi.freed_nodup ht.freed_nodup ?_
    intro t h1 h2
    obtain ⟨f, hf⟩ := ht.freed_live t h2
    exact hi.freed_dead t h1 _ hf rfl
  · intro p hp
    rw [ht.frees_eq]
    rcases (ht.created_iff p).mp hp with h | h
    · rcases hi.accounted p h with h1 | h1
      · exact Or.inl (List.mem_append.mpr (Or.inl h1))
      · by_cases hF : p.1 ∈ F
        · exact Or.inl (List.mem_append.mpr (Or.inr hF))
        · exact Or.inr ((ht.live_iff p).mpr (Or.inl ⟨h1, hF⟩))
    · exact Or.inr ((ht.live_iff p).mpr (Or.inr h))
  · intro r hr
    rcases ht.reg_next r hr with ⟨h1, h2⟩ | ⟨f, h1, h2⟩
    · obtain ⟨f, hf1, hf2⟩ := hi.reg_live r h1
      exact ⟨f, (ht.live_iff _).mpr (Or.inl ⟨hf1, h2⟩), hf2⟩
    · exact ⟨f, (ht.live_iff _).mpr (Or.inr h1), h2⟩
  · intro p hp
    rcases (ht.live_iff p).mp hp with ⟨h1, _⟩ | h1
    · exact (ht.created_iff p).mpr (Or.inl (hi.live_created p h1))
    · exact (ht.created_iff p).mpr (Or.inr h1)
  · intro t h
    rw [ht.frees_eq] at h
    rcases List.mem_append.mp h with h | h
    · obtain ⟨f, hf⟩ := hi.freed_created t h
      exact ⟨f, (ht.created_iff _).mpr (Or.inl hf)⟩
    · obtain ⟨f, hf⟩ := ht.freed_live t h
      exact ⟨f, (ht.created_iff _).mpr (Or.inl (hi.live_created _ hf))⟩

theorem timerTransition_grow {w w1 : World} {M : List (Nat × TimerFunc)}
    (h1 : liveTimers w1.timers = liveTimers w.timers ++ M)
    (h2 : frees w1.log = frees w.log)
    (h3 : created w1.log = created w.log ++ M)
    (h4 : w.nextHandle ≤ w1.nextHandle)
    (h5 : w1.driver.heartbeatTimer = w.driver.heartbeatTimer)
    (h6 : w1.driver.shutdownTimer = w.driver.shutdownTimer)
    (h7 : ∀ p ∈ M, w.nextHandle ≤ p.1 ∧ p.1 < w1.nextHandle ∧ p.2 = TimerFunc.playCallback)
    (h8 : w1.manager.registered =
      w.manager.registered ++ accepted w (M.map playRegistration)) :
    TimerTransition w w1 [] M := by
  constructor
  · intro p; rw [h1]; simp
  · rw [h2]; simp
  · intro p; rw [h3]; simp
  · exact h4
  · intro p hp; exact ⟨(h7 p hp).1, (h7 p hp).2.1⟩
  · intro p hp q hq _; rw [(h7 p hp).2.2, (h7 q hq).2.2]
  · intro t ht; cases ht
  · exact List.nodup_nil
  · intro t ht; rw [h5] at ht; exact Or.inr ⟨ht, List.not_mem_nil _⟩
  · intro t ht; rw [h6] at ht; exact Or.inr ⟨ht, List.not_mem_nil _⟩
  · intro p hp hf; rw [(h7 p hp).2.2] at hf; cases hf
  · intro t ht _; rw [h5]; exact ht
  · intro p hp hf; rw [(h7 p hp).2.2] at hf; cases hf
  · intro t ht _; rw [h6]; exact Or.inl ht
  · intro r hr
    rw [h8] at hr
    rcases List.mem_append.mp hr with hr | hr
    · exact Or.inl ⟨hr, List.not_mem_nil _⟩
    · obtain ⟨p, hp, rfl⟩ := List.mem_map.mp (mem_accepted hr)
      refine Or.inr ⟨p.2, hp, ?_⟩
      simp [playRegistration, (h7 p hp).2.2]

theorem timerTransition_same {w w1 : World}
    (h1 : w1.timers = w.timers)
    (h2 : frees w1.log = frees w.log)
    (h3 : created w1.log = created w.log)
    (h4 : w.nextHandle ≤ w1.nextHandle)
    (h5 : w1.driver.heartbeatTimer = w.driver.heartbeatTimer)
    (h6 : w1.driver.shutdownTimer = w.driver.shutdownTimer)
    (h7 : w1.manager.registered = w.manager.registered) :
    TimerTransition w w1 [] [] :=
  timerTransition_grow (by rw [h1]; simp) h2 (by rw [h3]; simp) h4 h5 h6
    (fun _ hp => by cases hp) (by rw [h7]; simp)

theorem timerTransition_dispatch {w w1 : World} {made : List (Nat × TimerFunc)}
    {freed : List Nat} {t : Nat} (hi : InvTimers w)
    (hd : TimerDispatch w w1 made freed)
    (hf : freed = [] ∨ (freed = [t] ∧ (t, TimerFunc.playCallback) ∈ liveTimers w.timers)) :
    TimerTransition w w1 freed made := by
  have hlive : ∀ x ∈ freed, (x, TimerFunc.playCallback) ∈ liveTimers w.timers := by
    intro x hx
    rcases hf with hf | ⟨hf, hl⟩
    · rw [hf] at hx; cases hx
    · rw [hf] at hx
      simp only [List.mem_singleton] at hx
      rw [hx]
      exact hl
  have hlt : ∀ x ∈ freed, x < w.nextHandle := fun x hx => hi.fresh _ (hlive x hx)
  have hm : ∀ p ∈ made, p = (w.nextHandle, TimerFunc.playCallback) := by
    intro p hp
    rcases hd.made_shape with h | h
    · rw [h] at hp; cases hp
    · rw [h] at hp; simpa using hp
  have hnothb : ∀ x, w.driver.heartbeatTimer = some x → x ∉ freed := by
    intro x hx hxF
    have := hi.func_unique _ (hi.hb_live x hx) _ (hlive x hxF) rfl
    cases this
  have hnotsd : ∀ x, w.driver.shutdownTimer = some x → x ∉ freed := by
    intro x hx hxF
    have := hi.func_unique _ (hi.sd_live x hx) _ (hlive x hxF) rfl
    cases this
  constructor
  · intro p
    rw [hd.timers_eq]
    simp only [List.mem_filter, List.mem_append, decide_eq_true_eq]
    constructor
    · rintro ⟨h1 | h1, h2⟩
      · exact Or.inl ⟨h1, h2⟩
      · exact Or.inr h1
    · rintro (⟨h1, h2⟩ | h1)
      · exact ⟨Or.inl h1, h2⟩
      · refine ⟨Or.inr h1, ?_⟩
        intro hx
        have := hlt _ hx
        rw [hm p h1] at this
        simp at this
  · exact hd.frees_eq
  · intro p; rw [hd.created_eq]; simp
  · rw [hd.nextHandle_eq]; omega
  · intro p hp
    rw [hd.nextHandle_eq, hm p hp]
    have : made.length = 1 := by
      rcases hd.made_shape with h | h
      · rw [h] at hp; cases hp
      · simp [h]
    simp only
    omega
  · intro p hp q hq _; rw [hm p hp, hm q hq]
  · intro x hx
    exact ⟨_, hlive x hx⟩
  · rcases hf with hf | ⟨hf, _⟩ <;> simp [hf]
  · intro x hx
    rw [hd.heartbeat_eq] at hx
    exact Or.inr ⟨hx, hnothb x hx⟩
  · intro x hx
    rw [hd.shutdown_eq] at hx
    exact Or.inr ⟨hx, hnotsd x hx⟩
  · intro p hp hpf; rw [hm p hp] at hpf; cases hpf
  · intro x hx _; rw [hd.heartbeat_eq]; exact hx
  · intro p hp hpf; rw [hm p hp] at hpf; cases hpf
  · intro x hx _; rw [hd.shutdown_eq]; exact Or.inl hx
  · intro r hr
    rw [hd.registered_eq] at hr
    simp only [List.mem_filter, List.mem_append, decide_eq_true_eq] at hr
    obtain ⟨h1 | h1, h2⟩ := hr
    · exact Or.inl ⟨h1, h2⟩
    · obtain ⟨p, hp, rfl⟩ := List.mem_map.1 (mem_accepted h1)
      refine Or.inr ⟨p.2, hp, ?_⟩
      simp [playRegistration, hm p hp]

theorem not_mem_toList_iff (o : Option Nat) (x : Nat) : x ∉ o.toList ↔ some x ≠ o := by
  cases o with
  | none => simp
  | some v =>
    simp only [Option.toList_some, List.mem_singleton, ne_eq, Option.some.injEq]

theorem timerTransition_start {w : World} (port : Nat) (hi : InvTimers w)
    (h : w.driver.state = ONIONTRACE_DRIVER_IDLE) :
    ∃ M, TimerTransition w (oniontracedriver_start w (some port)).2
      w.driver.heartbeatTimer.toList M := by
  obtain ⟨e1, -, e3, e4, e5, e6, -, e8⟩ := start_effect w port h
  have hfl : ∀ t ∈ w.driver.heartbeatTimer.toList, ∃ f, (t, f) ∈ liveTimers w.timers := by
    intro t ht
    simp only [Option.mem_toList, Option.mem_def] at ht
    exact ⟨_, hi.hb_live t ht⟩
  have hnd : w.driver.heartbeatTimer.toList.Nodup := by
    cases w.driver.heartbeatTimer <;> simp
  have hkept : ∀ t, w.driver.heartbeatTimer = some t → t ∉ w.driver.heartbeatTimer.toList →
      (oniontracedriver_start w (some port)).2.driver.heartbeatTimer = some t := by
    intro t ht hn
    simp [ht] at hn
  have hreg : ∀ r, r ∈ w.manager.registered.filter
        (fun r => some r.timer ≠ w.driver.heartbeatTimer) →
      r ∈ w.manager.registered ∧ r.timer ∉ w.driver.heartbeatTimer.toList := by
    intro r hr
    simp only [List.mem_filter, decide_eq_true_eq] at hr
    exact ⟨hr.1, (not_mem_toList_iff _ _).mpr hr.2⟩
  by_cases hr : w.driver.config.runTimeSeconds > 0
  · simp only [hr, if_true] at e1 e3 e4 e6 e8
    refine ⟨[(w.nextHandle + 1, TimerFunc.heartbeat), (w.nextHandle + 2, TimerFunc.shutdown)],
      ?_⟩
    constructor
    · intro p
      rw [e3]
      simp only [List.mem_append, List.mem_filter, decide_eq_true_eq, not_mem_toList_iff]
    · exact e5
    · intro p; rw [e6]; simp
    · rw [e4]; omega
    · intro p hp
      rw [e4]
      simp only [List.mem_cons, List.mem_singleton, List.not_mem_nil, or_false] at hp
      rcases hp with rfl | rfl <;> simp
    · intro p hp q hq hpq
      simp only [List.mem_cons, List.mem_singleton, List.not_mem_nil, or_false] at hp hq
      rcases hp with rfl | rfl <;> rcases hq with rfl | rfl <;> simp at hpq ⊢
    · exact hfl
    · exact hnd
    · intro t ht
      rw [e1] at ht
      simp only [Option.some.injEq] at ht
      subst ht
      simp
    · intro t ht
      rw [e1] at ht
      simp only [Option.some.injEq] at ht
      subst ht
      simp
    · intro p hp hf
      rw [e1]
      simp only [List.mem_cons, List.mem_singleton, List.not_mem_nil, or_false] at hp
      rcases hp with rfl | rfl
      · rfl
      · cases hf
    · exact hkept
    · intro p hp hf
      rw [e1]
      simp only [List.mem_cons, List.mem_singleton, List.not_mem_nil, or_false] at hp
      rcases hp with rfl | rfl
      · cases hf
      · rfl
    · intro t _ _
      exact Or.inr h
    · intro r hr
      rw [e8] at hr
      rcases List.mem_append.mp hr with hr | hr
      · exact Or.inl (hreg r hr)
      have hr := mem_accepted hr
      simp only [List.mem_cons, List.mem_singleton, List.not_mem_nil, or_false] at hr
      rcases hr with rfl | rfl
      · exact Or.inr ⟨TimerFunc.heartbeat, by simp [genericRegistration], by
          simp [genericRegistration]⟩
      · exact Or.inr ⟨TimerFunc.shutdown, by simp [genericRegistration], by
          simp [genericRegistration]⟩
  · simp only [hr, if_false] at e1 e3 e4 e6 e8
    refine ⟨[(w.nextHandle + 1, TimerFunc.heartbeat)], ?_⟩
    constructor
    · intro p
      rw [e3]
      simp only [List.mem_append, List.mem_filter, decide_eq_true_eq, not_mem_toList_iff]
    · exact e5
    · intro p; rw [e6]; simp
    · rw [e4]; omega
    · intro p hp
      rw [e4]
      simp only [List.mem_singleton] at hp
      subst hp
      simp
    · intro p hp q hq _
      simp only [List.mem_singleton] at hp hq
      rw [hp, hq]
    · exact hfl
    · exact hnd
    · intro t ht
      rw [e1] at ht
      simp only [Option.some.injEq] at ht
      subst ht
      simp
    · intro t ht
      rw [e1] at ht
      simp only at ht
      refine Or.inr ⟨ht, ?_⟩
      simp only [Option.mem_toList, Option.mem_def]
      intro hx
      have := hi.func_unique _ (hi.hb_live t hx) _ (hi.sd_live t ht) rfl
      cases this
    · intro p hp hf
      rw [e1]
      simp only [List.mem_singleton] at hp
      subst hp
      rfl
    · exact hkept
    · intro p hp hf
      simp only [List.mem_singleton] at hp
      subst hp
      cases hf
    · intro t _ _
      exact Or.inr h
    · intro r hr
      rw [e8] at hr
      rcases List.mem_append.mp hr with hr | hr
      · exact Or.inl (hreg r hr)
      have hr := mem_accepted hr
      simp only [List.mem_singleton] at hr
      subst hr
      · exact Or.inr ⟨TimerFunc.heartbeat, by simp [genericRegistration], by
          simp [genericRegistration]⟩

theorem timerTransition_stop {w : World} (hi : InvTimers w)
    (h : w.driver.state ≠ ONIONTRACE_DRIVER_IDLE) :
    TimerTransition w (oniontracedriver_stop w).2
      (w.driver.heartbeatTimer.toList ++ w.driver.shutdownTimer.toList) [] := by
  obtain ⟨e1, -, e3, e4, e5, e6, -, e8⟩ := stop_effect w h
  constructor
  · intro p
    rw [e3]
    simp only [List.mem_filter, decide_eq_true_eq, List.mem_append, not_or,
      not_mem_toList_iff, List.not_mem_nil, or_false, and_assoc]
  · rw [e5]; simp
  · intro p; rw [e6]; simp
  · rw [e4]
  · intro p hp; cases hp
  · intro p hp; cases hp
  · intro t ht
    simp only [List.mem_append, Option.mem_toList, Option.mem_def] at ht
    rcases ht with ht | ht
    · exact ⟨_, hi.hb_live t ht⟩
    · exact ⟨_, hi.sd_live t ht⟩
  · cases hb : w.driver.heartbeatTimer with
    | none => cases w.driver.shutdownTimer <;> simp
    | some a =>
      cases sd : w.driver.shutdownTimer with
      | none => simp
      | some b =>
        have hab : a ≠ b := by
          intro hab
          subst hab
          have := hi.func_unique _ (hi.hb_live a hb) _ (hi.sd_live a sd) rfl
          cases this
        simp [hab]
  · intro t ht; rw [e1] at ht; cases ht
  · intro t ht; rw [e1] at ht; cases ht
  · intro p hp; cases hp
  · intro t ht hn; simp [ht] at hn
  · intro p hp; cases hp
  · intro t ht hn; simp [ht] at hn
  · intro r hr
    rw [e8] at hr
    simp only [List.mem_filter, decide_eq_true_eq] at hr
    refine Or.inl ⟨hr.1.1, ?_⟩
    simp only [List.mem_append, not_or, not_mem_toList_iff]
    exact ⟨hr.1.2, hr.2⟩

theorem bootstrapMade_spec (w : World) (s : Subsystem) :
    ∀ p ∈ bootstrapMade w s, p = (w.nextHandle + 1, TimerFunc.playCallback) := by
  intro p hp
  unfold bootstrapMade at hp
  split at hp
  · simpa using hp
  · cases hp

theorem bootstrapMade_length (w : World) (s : Subsystem) :
    (bootstrapMade w s).length = 0 ∨
    (bootstrapMade w s = [(w.nextHandle + 1, TimerFunc.playCallback)]) := by
  unfold bootstrapMade
  split <;> simp

theorem step_timerTransition {w w1 : World} {a : Action} (hi : InvTimers w)
    (hs : step w a = some w1) : ∃ F M, TimerTransition w w1 F M ∧ freesAllowed w a F := by
  cases a with
  | start result =>
    simp only [step, Option.some.injEq] at hs
    subst hs
    by_cases hst : w.driver.state = ONIONTRACE_DRIVER_IDLE
    · cases result with
      | none =>
        rw [(start_failed_effect w hst).2]
        exact ⟨[], [], timerTransition_same rfl (by simp) (by simp) (le_refl _) rfl rfl rfl,
        Or.inl rfl⟩
      | some port =>
        obtain ⟨M, hM⟩ := timerTransition_start port hi hst
        exact ⟨_, M, hM, Or.inr (Or.inr (Or.inl ⟨port, rfl, hst, rfl⟩))⟩
    · rw [start_rejected_effect w result hst]
      exact ⟨[], [], timerTransition_same rfl (by simp) (by simp) (le_refl _) rfl rfl rfl,
        Or.inl rfl⟩
  | stop =>
    simp only [step, Option.some.injEq] at hs
    subst hs
    by_cases hst : w.driver.state = ONIONTRACE_DRIVER_IDLE
    · rw [stop_rejected_effect w hst]
      exact ⟨[], [], timerTransition_same rfl (by simp) (by simp) (le_refl _) rfl rfl rfl,
        Or.inl rfl⟩
    · exact ⟨_, [], timerTransition_stop hi hst, Or.inr (Or.inl ⟨rfl, hst, rfl⟩)⟩
  | connected h =>
    simp only [step] at hs
    split at hs
    · simp only [Option.some.injEq] at hs
      subst hs
      obtain ⟨e1, -, e3, e4, e5, e6, e7⟩ := onConnected_effect (w.setPending (some h) none)
      obtain ⟨s1, s2, s3, s4, s5⟩ := setPending_effect w (some h) none
      exact ⟨[], [], timerTransition_same (by rw [e3, s2]) (by rw [e6, s5]) (by rw [e7, s5])
        (by rw [e5, s4]) (by rw [e1, s1]) (by rw [e1, s1]) (by rw [e4, s3]), Or.inl rfl⟩
    · cases hs
  | authenticated h =>
    simp only [step] at hs
    split at hs
    · simp only [Option.some.injEq] at hs
      subst hs
      obtain ⟨e1, -, e3, e4, e5, e6, e7⟩ := onAuthenticated_effect (w.setPending (some h) none)
      obtain ⟨s1, s2, s3, s4, s5⟩ := setPending_effect w (some h) none
      exact ⟨[], [], timerTransition_same (by rw [e3, s2]) (by rw [e6, s5]) (by rw [e7, s5])
        (by rw [e5, s4]) (by rw [e1, s1]) (by rw [e1, s1]) (by rw [e4, s3]), Or.inl rfl⟩
    · cases hs
  | bootstrapped h result =>
    simp only [step] at hs
    split at hs
    · simp only [Option.some.injEq] at hs
      subst hs
      obtain ⟨s1, s2, s3, s4, s5⟩ := setPending_effect w (some h) none
      cases result with
      | none =>
        obtain ⟨e1, -, e3, e4, e5, e6, e7⟩ :=
          onBootstrapped_failed_effect (w.setPending (some h) none)
        refine ⟨[], [], timerTransition_same (by rw [e3, s2]) (by rw [e6, s5])
          (by rw [e7, s5]) (by rw [e5, s4]) ?_ ?_ (by rw [e4, s3]), Or.inl rfl⟩
        · rw [e1, s1]; split <;> rfl
        · rw [e1, s1]; split <;> rfl
      | some s =>
        cases hm : w.driver.config.mode with
        | ONIONTRACE_MODE_RECORD =>
          obtain ⟨e1, -, e3, e4, e5, e6, e7⟩ :=
            onBootstrapped_record_effect (w.setPending (some h) none) s (by rw [s1]; exact hm)
          exact ⟨[], [], timerTransition_same (by rw [e3, s2]) (by rw [e6, s5])
            (by rw [e7, s5]) (by rw [e5, s4]; omega) (by rw [e1, s1]) (by rw [e1, s1])
            (by rw [e4, s3]), Or.inl rfl⟩
        | ONIONTRACE_MODE_PLAY =>
          obtain ⟨e1, -, e3, -, e4, e5, e6, e7⟩ :=
            onBootstrapped_play_effect (w.setPending (some h) none) s (by rw [s1]; exact hm)
          have hb : bootstrapMade (w.setPending (some h) none) s = bootstrapMade w s := by
            simp [bootstrapMade, s4]
          rw [hb] at e3 e4 e5 e7
          refine ⟨[], bootstrapMade w s, timerTransition_grow (by rw [e3, s2]) (by rw [e6, s5])
            (by rw [e7, s5]) (by rw [e5, s4]; omega) (by rw [e1, s1]) (by rw [e1, s1]) ?_
            (by rw [e4]; simp [accepted, s3]), Or.inl rfl⟩
          intro p hp
          rw [e5, s4]
          rcases bootstrapMade_length w s with hl | hl
          · rw [List.length_eq_zero] at hl
            rw [hl] at hp
            cases hp
          · rw [hl] at hp ⊢
            simp only [List.mem_singleton] at hp
            subst hp
            simp
    · cases hs
  | timerReadable t expired now =>
    obtain ⟨made, freed, hd, ⟨r, hr1, hr2, hcase⟩, -⟩ := timerReadable_summary hs
    rcases hcase with ⟨hf, _⟩ | ⟨hf, hfunc⟩
    · exact ⟨freed, made, timerTransition_dispatch (t := t) hi hd (Or.inl hf), Or.inl hf⟩
    · obtain ⟨f, hf1, hf2⟩ := hi.reg_live r hr1
      rw [hr2] at hf1
      rw [hf2.mp hfunc] at hf1
      exact ⟨freed, made, timerTransition_dispatch (t := t) hi hd (Or.inr ⟨hf, hf1⟩),
        Or.inr (Or.inr (Or.inr ⟨t, expired, now, rfl, hf, hf1⟩))⟩

theorem invTimers_step {w w1 : World} {a : Action} (hi : InvTimers w)
    (hs : step w a = some w1) : InvTimers w1 := by
  obtain ⟨F, M, ht, -⟩ := step_timerTransition hi hs
  exact invTimers_trans hi ht

theorem invTimers_run {cfg : OnionTraceConfig} {acts : List Action} {w : World}
    (hr : run (oniontracedriver_new cfg) acts = some w) : InvTimers w :=
  run_invariant InvTimers (fun _ => True) (fun _ _ _ hp _ hs => invTimers_step hp hs) acts _ _
    (invTimers_new cfg) (fun _ _ => trivial) hr

/-- What one step does to the state and to the three pointer fields that Stop clears. -/
theorem step_state {w w1 : World} {a : Action} (hi : Inv w) (hs : step w a = some w1) :
    (w1.driver.state = w.driver.state ∧
      (w1.driver.torctl = w.driver.torctl ∨
        (w.driver.state = ONIONTRACE_DRIVER_IDLE ∧ w1.driver.torctl = none)) ∧
      w1.driver.heartbeatTimer = w.driver.heartbeatTimer ∧
      w1.driver.shutdownTimer = w.driver.shutdownTimer) ∨
    (forwardEdge w.driver.state w1.driver.state = true) ∨
    (w1.driver.state = ONIONTRACE_DRIVER_IDLE ∧
      ((a = Action.stop ∧ w1.driver.torctl = none ∧ w1.driver.heartbeatTimer = none ∧
          w1.driver.shutdownTimer = none) ∨
        a.failedConstruction = true)) := by
  cases a with
  | start result =>
    simp only [step, Option.some.injEq] at hs
    subst hs
    by_cases hst : w.driver.state = ONIONTRACE_DRIVER_IDLE
    · cases result with
      | none =>
        rw [(start_failed_effect w hst).2]
        exact Or.inl ⟨rfl, Or.inr ⟨hst, rfl⟩, rfl, rfl⟩
      | some port =>
        obtain ⟨e1, -⟩ := start_effect w port hst
        refine Or.inr (Or.inl ?_)
        rw [e1, hst]
        rfl
    · rw [start_rejected_effect w result hst]
      exact Or.inl ⟨rfl, Or.inl rfl, rfl, rfl⟩
  | stop =>
    simp only [step, Option.some.injEq] at hs
    subst hs
    by_cases hst : w.driver.state = ONIONTRACE_DRIVER_IDLE
    · rw [stop_rejected_effect w hst]
      exact Or.inl ⟨rfl, Or.inl rfl, rfl, rfl⟩
    · obtain ⟨e1, -⟩ := stop_effect w hst
      refine Or.inr (Or.inr ?_)
      rw [e1]
      exact ⟨rfl, Or.inl ⟨rfl, rfl, rfl, rfl⟩⟩
  | connected h =>
    simp only [step] at hs
    split at hs
    · rename_i hc
      simp only [Option.some.injEq] at hs
      subst hs
      obtain ⟨e1, -⟩ := onConnected_effect (w.setPending (some h) none)
      obtain ⟨s1, -⟩ := setPending_effect w (some h) none
      obtain ⟨-, b, -⟩ := inv_completion hi hc
      refine Or.inr (Or.inl ?_)
      rw [e1, s1, b]
      rfl
    · cases hs
  | authenticated h =>
    simp only [step] at hs
    split at hs
    · rename_i hc
      simp only [Option.some.injEq] at hs
      subst hs
      obtain ⟨e1, -⟩ := onAuthenticated_effect (w.setPending (some h) none)
      obtain ⟨s1, -⟩ := setPending_effect w (some h) none
      obtain ⟨-, b, -⟩ := inv_completion hi hc
      refine Or.inr (Or.inl ?_)
      rw [e1, s1, b]
      rfl
    · cases hs
  | bootstrapped h result =>
    simp only [step] at hs
    split at hs
    · rename_i hc
      simp only [Option.some.injEq] at hs
      subst hs
      obtain ⟨s1, -⟩ := setPending_effect w (some h) none
      obtain ⟨-, b, -⟩ := inv_completion hi hc
      cases result with
      | none =>
        obtain ⟨e1, -⟩ := onBootstrapped_failed_effect (w.setPending (some h) none)
        refine Or.inr (Or.inr ⟨?_, Or.inr rfl⟩)
        rw [e1]
        split <;> rfl
      | some s =>
        cases hm : w.driver.config.mode with
        | ONIONTRACE_MODE_RECORD =>
          obtain ⟨e1, -⟩ :=
            onBootstrapped_record_effect (w.setPending (some h) none) s (by rw [s1]; exact hm)
          refine Or.inr (Or.inl ?_)
          rw [e1, b]
          rfl
        | ONIONTRACE_MODE_PLAY =>
          obtain ⟨e1, -⟩ :=
            onBootstrapped_play_effect (w.setPending (some h) none) s (by rw [s1]; exact hm)
          refine Or.inr (Or.inl ?_)
          rw [e1, b]
          rfl
    · cases hs
  | timerReadable t expired now =>
    obtain ⟨made, freed, hd, -, -⟩ := timerReadable_summary hs
    exact Or.inl ⟨hd.state_eq, Or.inl hd.torctl_eq, hd.heartbeat_eq, hd.shutdown_eq⟩

theorem forwardEdge_ne_idle {s t : OnionTraceDriverState} (h : forwardEdge s t = true) :
    t ≠ ONIONTRACE_DRIVER_IDLE := by
  cases s <;> cases t <;> simp [forwardEdge] at h ⊢

theorem invClean_new (cfg : OnionTraceConfig) : InvClean (oniontracedriver_new cfg) := by
  constructor <;> simp [oniontracedriver_new]

theorem invClean_step {w w1 : World} {a : Action} (hi : Inv w) (ht : InvTimers w)
    (hc : InvClean w) (hf : a.failedConstruction = false) (hs : step w a = some w1) :
    InvClean w1 := by
  have key : w1.driver.state = ONIONTRACE_DRIVER_IDLE →
      w1.driver.torctl = none ∧ w1.driver.heartbeatTimer = none ∧
        w1.driver.shutdownTimer = none := by
    intro h1
    rcases step_state hi hs with ⟨a1, a2, a3, a4⟩ | h2 | ⟨_, ⟨_, h3⟩ | h3⟩
    · rw [h1] at a1
      refine ⟨?_, ?_, ?_⟩
      · rcases a2 with a2 | ⟨_, a2⟩
        · rw [a2]; exact hc.idle_torctl a1.symm
        · exact a2
      · rw [a3]; exact hc.idle_hb a1.symm
      · rw [a4]; exact hc.idle_sd a1.symm
    · exact absurd h1 (forwardEdge_ne_idle h2)
    · exact h3
    · rw [hf] at h3; cases h3
  obtain ⟨F, M, tt, -⟩ := step_timerTransition ht hs
  constructor
  · exact fun h => (key h).1
  · exact fun h => (key h).2.1
  · exact fun h => (key h).2.2
  · intro p hp hpf
    rcases (tt.live_iff p).mp hp with ⟨h1, h2⟩ | h1
    · have hsd := hc.sd_only p h1 hpf
      rcases tt.sd_kept p.1 hsd h2 with h3 | h3
      · exact h3
      · rw [hc.idle_sd h3] at hsd
        cases hsd
    · exact tt.sd_made p h1 hpf

theorem invAll_run {cfg : OnionTraceConfig} {acts : List Action} {w : World}
    (hf : ∀ a ∈ acts, a.failedConstruction = false)
    (hr : run (oniontracedriver_new cfg) acts = some w) : InvAll w :=
  run_invariant InvAll (fun a => a.failedConstruction = false)
    (fun _ _ _ hp ha hs =>
      ⟨inv_step hp.inv hs, invTimers_step hp.timers hs,
        invClean_step hp.inv hp.timers hp.clean ha hs⟩)
    acts _ _ ⟨inv_new cfg, invTimers_new cfg, invClean_new cfg⟩ hf hr

theorem mem_created_iff (log : List Event) (t : Nat) (f : TimerFunc) :
    (t, f) ∈ created log ↔ Event.timerNew t f ∈ log := by
  induction log with
  | nil => simp
  | cons e l ih =>
    rw [created_cons, List.mem_append, ih, List.mem_cons]
    cases e <;> simp

theorem count_frees (log : List Event) (t : Nat) :
    (frees log).count t = log.count (Event.timerFree t) := by
  induction log with
  | nil => simp
  | cons e l ih =>
    rw [frees_cons, List.count_append, ih, List.count_cons]
    cases e <;> simp [List.count_cons, Nat.add_comm]

/-! ## Tear-down -/

theorem stop_log (w : World) (h : w.driver.state ≠ ONIONTRACE_DRIVER_IDLE) :
    (oniontracedriver_stop w).1 = true ∧
    (oniontracedriver_stop w).2.log = w.log ++ teardownOrder w.driver := by
  obtain ⟨⟨cfg, st, id, hb, sd, now, tc, rc, pl⟩, m, ts, cs, n, lg⟩ := w
  simp only at h
  cases rc <;> cases pl <;> cases hb <;> cases sd <;> cases tc <;>
    simp [oniontracedriver_stop, h, teardownOrder, oniontracerecorder_free,
      oniontraceplayer_free, oniontracetimer_free, oniontracetorctl_free, World.emit]

theorem free_log (w : World) :
    (oniontracedriver_free w).log =
      w.log ++ teardownOrder w.driver ++ [.freeId w.driver.id, .freeDriver] ∧
    (oniontracedriver_free w).timers =
      (w.timers.filter (fun tm => some tm.handle ≠ w.driver.heartbeatTimer)).filter
        (fun tm => some tm.handle ≠ w.driver.shutdownTimer) ∧
    (oniontracedriver_free w).manager.registered =
      (w.manager.registered.filter (fun r => some r.timer ≠ w.driver.heartbeatTimer)).filter
        (fun r => some r.timer ≠ w.driver.shutdownTimer) ∧
    (oniontracedriver_free w).torctls =
      w.torctls.filter (fun c => some c.handle ≠ w.driver.torctl) := by
  obtain ⟨⟨cfg, st, id, hb, sd, now, tc, rc, pl⟩, m, ts, cs, n, lg⟩ := w
  cases rc <;> cases pl <;> cases hb <;> cases sd <;> cases tc <;>
    simp [oniontracedriver_free, teardownOrder, oniontracerecorder_free,
      oniontraceplayer_free, oniontracetimer_free, oniontracetorctl_free, World.emit]

theorem stop_heap (w : World) (h : w.driver.state ≠ ONIONTRACE_DRIVER_IDLE) :
    (oniontracedriver_stop w).2.timers =
      (w.timers.filter (fun tm => some tm.handle ≠ w.driver.heartbeatTimer)).filter
        (fun tm => some tm.handle ≠ w.driver.shutdownTimer) ∧
    (oniontracedriver_stop w).2.driver.id = w.driver.id := by
  obtain ⟨⟨cfg, st, id, hb, sd, now, tc, rc, pl⟩, m, ts, cs, n, lg⟩ := w
  simp only at h
  cases rc <;> cases pl <;> cases hb <;> cases sd <;> cases tc <;>
    simp [oniontracedriver_stop, h, oniontracerecorder_free,
      oniontraceplayer_free, oniontracetimer_free, oniontracetorctl_free, World.emit]

/-! ## The claims -/

/-- C1: on every driver whose state is not Idle, Stop returns success, makes exactly the
free calls of the non-NULL owned components in the order Recorder, Player, heartbeat timer,
shutdown timer, control client, and leaves the five fields NULL and the state Idle. -/
theorem stop_tears_down_in_order (w : World)
    (h : w.driver.state ≠ ONIONTRACE_DRIVER_IDLE) :
    (oniontracedriver_stop w).1 = true ∧
    (oniontracedriver_stop w).2.log = w.log ++ teardownOrder w.driver ∧
    (oniontracedriver_stop w).2.driver.recorder = none ∧
    (oniontracedriver_stop w).2.driver.player = none ∧
    (oniontracedriver_stop w).2.driver.heartbeatTimer = none ∧
    (oniontracedriver_stop w).2.driver.shutdownTimer = none ∧
    (oniontracedriver_stop w).2.driver.torctl = none ∧
    (oniontracedriver_stop w).2.driver.state = ONIONTRACE_DRIVER_IDLE := by
  obtain ⟨r, l⟩ := stop_log w h
  obtain ⟨e1, -⟩ := stop_effect w h
  refine ⟨r, l, ?_, ?_, ?_, ?_, ?_, ?_⟩ <;> rw [e1]

/-- Witness of C1: Stop on a playing driver (player 4, heartbeat timer 2, shutdown timer 3,
control client 1) frees them in this order. -/
theorem stop_tears_down_in_order_witness :
    samplePlaying.driver.state ≠
      ONIONTRACE_DRIVER_IDLE ∧
    teardownOrder samplePlaying.driver =
      [.playerFree 4, .timerFree 2, .timerFree 3, .torctlFree 1] ∧
    (oniontracedriver_stop
      samplePlaying).2.driver.state =
      ONIONTRACE_DRIVER_IDLE :=
  ⟨by decide, by decide,
    (stop_tears_down_in_order
      samplePlaying
      (by decide)).2.2.2.2.2.2.2⟩

/-- Counterexample to C2: after a failed Recorder construction the state is Idle while the
control client (handle 1) and the heartbeat timer (handle 2) are still held. -/
theorem idle_after_failed_construction_keeps_client :
    (run (oniontracedriver_new sampleRecord) failedBootstrap).map
      (fun w => (w.driver.state, w.driver.torctl, w.driver.heartbeatTimer)) =
    some (ONIONTRACE_DRIVER_IDLE, some 1, some 2) := by
  decide

/-- C2, amended: in every state reachable from a new driver, a driver that is not Idle holds
a control client and a heartbeat timer; and as long as no Recorder or Player construction has
failed, it holds each of them if and only if it is not Idle. -/
theorem active_driver_has_client_and_heartbeat (cfg : OnionTraceConfig)
    (acts : List Action) (w : World) (hr : run (oniontracedriver_new cfg) acts = some w) :
    (w.driver.state ≠ ONIONTRACE_DRIVER_IDLE →
      w.driver.torctl.isSome = true ∧ w.driver.heartbeatTimer.isSome = true) ∧
    ((∀ a ∈ acts, a.failedConstruction = false) →
      (w.driver.torctl.isSome = true ↔ w.driver.state ≠ ONIONTRACE_DRIVER_IDLE) ∧
      (w.driver.heartbeatTimer.isSome = true ↔ w.driver.state ≠ ONIONTRACE_DRIVER_IDLE)) := by
  have hi := inv_run hr
  refine ⟨fun h => ⟨hi.torctl_of_active h, hi.heartbeat_of_active h⟩, ?_⟩
  intro hf
  have hc := (invAll_run hf hr).clean
  constructor
  · constructor
    · intro h1 h2
      rw [hc.idle_torctl h2] at h1
      cases h1
    · exact hi.torctl_of_active
  · constructor
    · intro h1 h2
      rw [hc.idle_hb h2] at h1
      cases h1
    · exact hi.heartbeat_of_active

/-- Witness of C2: the handshake up to Bootstrapping, which has no failed construction. -/
theorem active_driver_has_client_and_heartbeat_witness :
    run (oniontracedriver_new sampleRecord) handshake =
      some sampleBootstrapping ∧
    sampleBootstrapping.driver.state = ONIONTRACE_DRIVER_BOOTSTRAPPING ∧
    (sampleBootstrapping.driver.torctl.isSome = true ↔
      sampleBootstrapping.driver.state ≠ ONIONTRACE_DRIVER_IDLE) :=
  ⟨by decide, by decide,
    ((active_driver_has_client_and_heartbeat sampleRecord handshake
      sampleBootstrapping (by decide)).2 (by decide)).1⟩

/-- Counterexample to C3: the on_bootstrapped callback with a failed construction moves the
state from Bootstrapping to Idle, which is no edge of the graph, and the step is not Stop. -/
theorem failed_construction_returns_to_idle :
    (run (oniontracedriver_new sampleRecord) handshake).map (fun w => w.driver.state) =
      some ONIONTRACE_DRIVER_BOOTSTRAPPING ∧
    ((run (oniontracedriver_new sampleRecord) handshake).bind
      (fun w => step w (.bootstrapped 1 none))).map (fun w => w.driver.state) =
      some ONIONTRACE_DRIVER_IDLE ∧
    forwardEdge ONIONTRACE_DRIVER_BOOTSTRAPPING ONIONTRACE_DRIVER_IDLE = false ∧
    Action.bootstrapped 1 none ≠ Action.stop := by
  decide

/-- C3, amended: every step from a reachable state either leaves the state unchanged or
follows one of the five edges of the graph or ends in Idle; and the steps that end in Idle
from another state are Stop and an on_bootstrapped whose construction fails. -/
theorem state_steps_follow_graph (cfg : OnionTraceConfig) (acts : List Action)
    (w w1 : World) (a : Action) (hr : run (oniontracedriver_new cfg) acts = some w)
    (hs : step w a = some w1) :
    w1.driver.state = w.driver.state ∨
    forwardEdge w.driver.state w1.driver.state = true ∨
    (w1.driver.state = ONIONTRACE_DRIVER_IDLE ∧
      (a = Action.stop ∨ a.failedConstruction = true)) := by
  rcases step_state (inv_run hr) hs with ⟨h, -⟩ | h | ⟨h1, ⟨h2, -⟩ | h2⟩
  · exact Or.inl h
  · exact Or.inr (Or.inl h)
  · exact Or.inr (Or.inr ⟨h1, Or.inl h2⟩)
  · exact Or.inr (Or.inr ⟨h1, Or.inr h2⟩)

/-- Witness of C3: the on_authenticated step of the handshake follows the edge from
Authenticating to Bootstrapping. -/
theorem state_steps_follow_graph_witness :
    run (oniontracedriver_new sampleRecord) [.start (some 4000), .connected 1] =
      some sampleAuthenticating ∧
    step sampleAuthenticating (.authenticated 1) =
      some sampleBootstrapping ∧
    (sampleBootstrapping.driver.state =
        sampleAuthenticating.driver.state ∨
      forwardEdge sampleAuthenticating.driver.state
        sampleBootstrapping.driver.state = true ∨
      (sampleBootstrapping.driver.state = ONIONTRACE_DRIVER_IDLE ∧
        (Action.authenticated 1 = Action.stop ∨
          (Action.authenticated 1).failedConstruction = true))) :=
  ⟨by decide, by decide,
    state_steps_follow_graph sampleRecord [.start (some 4000), .connected 1]
      sampleAuthenticating sampleBootstrapping
      (.authenticated 1) (by decide) (by decide)⟩

/-- C4: on every driver whose state is not Idle, Start returns failure and changes nothing
but the log, to which it adds one message: no control client or timer is created or
registered, and the driver structure is as before. -/
theorem start_when_running_rejected (w : World) (result : Option Nat)
    (h : w.driver.state ≠ ONIONTRACE_DRIVER_IDLE) :
    oniontracedriver_start w result =
      (false, { w with log := w.log ++
        [.message (w.driver.id ++ ": can\x27t start driver because it is not idle")] }) :=
  start_rejected_effect w result h

/-- Witness of C4: a second Start right after the first. -/
theorem start_when_running_rejected_witness :
    sampleConnecting.driver.state ≠ ONIONTRACE_DRIVER_IDLE ∧
    (oniontracedriver_start sampleConnecting (some 4001)).1 = false :=
  ⟨by decide,
    congrArg Prod.fst
      (start_when_running_rejected sampleConnecting (some 4001)
        (by decide))⟩

/-- C5: on every Idle driver Stop returns failure, frees nothing and changes nothing but the
log, to which it adds one message; in particular the Stop that follows a successful Stop is
rejected in this way. -/
theorem stop_when_idle_rejected (w : World) :
    (w.driver.state = ONIONTRACE_DRIVER_IDLE →
      oniontracedriver_stop w =
        (false, { w with log := w.log ++
          [.message (w.driver.id ++ ": can\x27t stop driver because it is already idle")] })) ∧
    (w.driver.state ≠ ONIONTRACE_DRIVER_IDLE →
      oniontracedriver_stop (oniontracedriver_stop w).2 =
        (false, { (oniontracedriver_stop w).2 with
          log := (oniontracedriver_stop w).2.log ++
            [.message ((oniontracedriver_stop w).2.driver.id ++
              ": can\x27t stop driver because it is already idle")] })) := by
  refine ⟨stop_rejected_effect w, fun h => ?_⟩
  apply stop_rejected_effect
  rw [(stop_effect w h).1]

/-- Witness of C5: Stop on a new driver, and a second Stop after the handshake. -/
theorem stop_when_idle_rejected_witness :
    (oniontracedriver_new sampleRecord).driver.state = ONIONTRACE_DRIVER_IDLE ∧
    (oniontracedriver_stop (oniontracedriver_new sampleRecord)).1 = false ∧
    sampleBootstrapping.driver.state ≠ ONIONTRACE_DRIVER_IDLE ∧
    (oniontracedriver_stop (oniontracedriver_stop sampleBootstrapping).2).1 =
      false :=
  ⟨by decide,
    congrArg Prod.fst
      ((stop_when_idle_rejected (oniontracedriver_new sampleRecord)).1 (by decide)),
    by decide,
    congrArg Prod.fst
      ((stop_when_idle_rejected sampleBootstrapping).2 (by decide))⟩

/-- C6 does not hold as stated: after a failed Recorder construction the driver is Idle and
the reactor has been asked to stop.  Start then succeeds, frees the old heartbeat timer 2 and
arms the heartbeat timer 4, and it calls `register` for it, but the event manager rejects
the registration: no timer is registered. -/
theorem start_after_reactor_stop_unregistered :
    run (oniontracedriver_new sampleRecord) failedBootstrap = some sampleFailed ∧
    sampleFailed.driver.state = ONIONTRACE_DRIVER_IDLE ∧
    sampleFailed.manager.stopCount = 1 ∧
    (oniontracedriver_start sampleFailed (some 4001)).1 = true ∧
    (oniontracedriver_start sampleFailed (some 4001)).2.driver.state =
      ONIONTRACE_DRIVER_CONNECTING ∧
    (oniontracedriver_start sampleFailed (some 4001)).2.driver.heartbeatTimer = some 4 ∧
    liveTimers (oniontracedriver_start sampleFailed (some 4001)).2.timers =
      [(4, TimerFunc.heartbeat)] ∧
    Event.register 4 .genericTimerReadable 4 ∈
      (oniontracedriver_start sampleFailed (some 4001)).2.log ∧
    genericRegistration 4 ∉ (oniontracedriver_start sampleFailed (some 4001)).2.manager.registered ∧
    (oniontracedriver_start sampleFailed (some 4001)).2.manager.registered = [] := by
  refine ⟨?_, ?_, ?_, ?_, ?_, ?_, ?_, ?_, ?_, ?_⟩ <;> decide

/-- C6, amended: on every Idle driver for which the control-client constructor succeeds,
Start returns success, stores the new control client (created for the configured control
port, completing with on_connected), sets the state to Connecting, and creates, arms (first
expiry 1 s, interval 1 s) and hands to `register` exactly one heartbeat timer; the event
manager takes the registration if and only if the reactor has not been asked to stop before
(otherwise its table only loses the entry of the heartbeat timer that Start freed); Recorder
and Player are not touched. -/
theorem start_from_idle_arms_heartbeat (w : World) (port : Nat)
    (h : w.driver.state = ONIONTRACE_DRIVER_IDLE) :
    (oniontracedriver_start w (some port)).1 = true ∧
    (oniontracedriver_start w (some port)).2.driver.torctl = some w.nextHandle ∧
    (oniontracedriver_start w (some port)).2.torctls = w.torctls ++
      [{ handle := w.nextHandle, controlPort := w.driver.config.torControlPort,
         clientPort := port, pending := some .onConnected }] ∧
    (oniontracedriver_start w (some port)).2.driver.state = ONIONTRACE_DRIVER_CONNECTING ∧
    (oniontracedriver_start w (some port)).2.driver.heartbeatTimer =
      some (w.nextHandle + 1) ∧
    (oniontracedriver_start w (some port)).2.log = w.log ++
      [.message (w.driver.id ++ ": creating control client to connect to Tor"),
       .torctlNew w.driver.config.torControlPort .onConnected (some w.nextHandle),
       .message (w.driver.id ++ ": created tor controller instance, connecting to port " ++
          toString w.driver.config.torControlPort)] ++
      (w.driver.heartbeatTimer.map Event.timerFree).toList ++
      heartbeatEvents (w.nextHandle + 1) ++
      (if w.driver.config.runTimeSeconds > 0 then
        shutdownEvents (w.nextHandle + 2) w.driver.config.runTimeSeconds.toNat else []) ∧
    ({ handle := w.nextHandle + 1, func := .heartbeat,
       armTime := some { it_interval := { tv_sec := 1, tv_nsec := 0 },
                         it_value := { tv_sec := 1, tv_nsec := 0 } } } : OnionTraceTimer) ∈
      (oniontracedriver_start w (some port)).2.timers ∧
    (oniontracedriver_start w (some port)).2.manager.registered =
      w.manager.registered.filter (fun r => some r.timer ≠ w.driver.heartbeatTimer) ++
        accepted w (genericRegistration (w.nextHandle + 1) ::
          (if w.driver.config.runTimeSeconds > 0 then [genericRegistration (w.nextHandle + 2)]
            else [])) ∧
    (w.manager.stopCount = 0 →
      genericRegistration (w.nextHandle + 1) ∈
        (oniontracedriver_start w (some port)).2.manager.registered) ∧
    (w.manager.stopCount ≠ 0 →
      (oniontracedriver_start w (some port)).2.manager.registered =
        w.manager.registered.filter (fun r => some r.timer ≠ w.driver.heartbeatTimer)) ∧
    (oniontracedriver_start w (some port)).2.driver.recorder = w.driver.recorder ∧
    (oniontracedriver_start w (some port)).2.driver.player = w.driver.player := by
  have e8 := (start_effect w port h).2.2.2.2.2.2.2
  have key : (oniontracedriver_start w (some port)).1 = true ∧
      (oniontracedriver_start w (some port)).2.driver.torctl = some w.nextHandle ∧
      (oniontracedriver_start w (some port)).2.torctls = w.torctls ++
        [{ handle := w.nextHandle, controlPort := w.driver.config.torControlPort,
           clientPort := port, pending := some .onConnected }] ∧
      (oniontracedriver_start w (some port)).2.driver.state = ONIONTRACE_DRIVER_CONNECTING ∧
      (oniontracedriver_start w (some port)).2.driver.heartbeatTimer =
        some (w.nextHandle + 1) ∧
      (oniontracedriver_start w (some port)).2.log = w.log ++
        [.message (w.driver.id ++ ": creating control client to connect to Tor"),
         .torctlNew w.driver.config.torControlPort .onConnected (some w.nextHandle),
         .message (w.driver.id ++ ": created tor controller instance, connecting to port " ++
            toString w.driver.config.torControlPort)] ++
        (w.driver.heartbeatTimer.map Event.timerFree).toList ++
        heartbeatEvents (w.nextHandle + 1) ++
        (if w.driver.config.runTimeSeconds > 0 then
          shutdownEvents (w.nextHandle + 2) w.driver.config.runTimeSeconds.toNat else []) ∧
      ({ handle := w.nextHandle + 1, func := .heartbeat,
         armTime := some { it_interval := { tv_sec := 1, tv_nsec := 0 },
                           it_value := { tv_sec := 1, tv_nsec := 0 } } } : OnionTraceTimer) ∈
        (oniontracedriver_start w (some port)).2.timers ∧
      (oniontracedriver_start w (some port)).2.driver.recorder = w.driver.recorder ∧
      (oniontracedriver_start w (some port)).2.driver.player = w.driver.player := by
    obtain ⟨⟨cfg, st, id, hb, sd, now, tc, rc, pl⟩, m, ts, cs, n, lg⟩ := w
    simp only at h
    subst h
    by_cases hs : m.stopCount = 0 <;> by_cases hr : cfg.runTimeSeconds > 0 <;> cases hb <;>
      simp [oniontracedriver_start, hr, hs, message, World.emit, oniontracetorctl_new,
        _oniontracedriver_registerHeartbeat, _oniontracedriver_registerShutdown,
        oniontracetimer_new, oniontracetimer_arm, oniontracetimer_armGranular,
        oniontracetimer_free, oniontracetimer_getFD, oniontraceeventmanager_register,
        heartbeatEvents, shutdownEvents]
  obtain ⟨k1, k2, k3, k4, k5, k6, k7, k8, k9⟩ := key
  refine ⟨k1, k2, k3, k4, k5, k6, k7, e8, ?_, ?_, k8, k9⟩
  · intro hs
    rw [e8, accepted_running hs]
    simp
  · intro hs
    rw [e8, accepted_stopped hs]
    simp

/-- Witness of C6: Start on a new driver; its heartbeat timer 2 is registered. -/
theorem start_from_idle_arms_heartbeat_witness :
    (oniontracedriver_new samplePlay).driver.state = ONIONTRACE_DRIVER_IDLE ∧
    (oniontracedriver_start (oniontracedriver_new samplePlay) (some 4000)).1 = true ∧
    (oniontracedriver_start (oniontracedriver_new samplePlay) (some 4000)).2.driver.torctl =
      some 1 ∧
    genericRegistration 2 ∈
      (oniontracedriver_start (oniontracedriver_new samplePlay) (some 4000)).2.manager.registered :=
  ⟨by decide,
    (start_from_idle_arms_heartbeat (oniontracedriver_new samplePlay) 4000 (by decide)).1,
    (start_from_idle_arms_heartbeat (oniontracedriver_new samplePlay) 4000 (by decide)).2.1,
    (start_from_idle_arms_heartbeat (oniontracedriver_new samplePlay) 4000
      (by decide)).2.2.2.2.2.2.2.2.1 (by decide)⟩

/-- C7: in every state reachable from a new driver, Recorder and Player are never both
non-NULL, the Recorder is non-NULL exactly in the state Recording and the Player exactly in
the state Playing. -/
theorem recorder_player_exclusive (cfg : OnionTraceConfig) (acts : List Action) (w : World)
    (hr : run (oniontracedriver_new cfg) acts = some w) :
    ¬(w.driver.recorder.isSome = true ∧ w.driver.player.isSome = true) ∧
    (w.driver.recorder.isSome = true ↔ w.driver.state = ONIONTRACE_DRIVER_RECORDING) ∧
    (w.driver.player.isSome = true ↔ w.driver.state = ONIONTRACE_DRIVER_PLAYING) ∧
    ((w.driver.recorder.isSome = true ∨ w.driver.player.isSome = true) ↔
      (w.driver.state = ONIONTRACE_DRIVER_RECORDING ∨
        w.driver.state = ONIONTRACE_DRIVER_PLAYING)) := by
  have hi := inv_run hr
  refine ⟨?_, hi.recorder_iff, hi.player_iff, ?_⟩
  · rintro ⟨h1, h2⟩
    have a := hi.recorder_iff.mp h1
    have b := hi.player_iff.mp h2
    rw [a] at b
    cases b
  · rw [hi.recorder_iff, hi.player_iff]

/-- Witness of C7: a driver that has bootstrapped in Play mode holds a Player and no
Recorder. -/
theorem recorder_player_exclusive_witness :
    run (oniontracedriver_new samplePlay) bootstrap =
      some samplePlaying ∧
    (samplePlaying.driver.player.isSome
        = true ↔
      samplePlaying.driver.state =
        ONIONTRACE_DRIVER_PLAYING) :=
  ⟨by decide,
    (recorder_player_exclusive samplePlay bootstrap
      samplePlaying
      (by decide)).2.2.1⟩

/-- Counterexample to C8: in Play mode with a launch due in ten seconds, (1) after the
shutdown timer (3) has fired and Stop has succeeded, the Play-timer (5) that was allocated
has never been freed and is still live and registered; (2) when the Play-timer wakes
spuriously, it is freed although the only `check()` on it returned false and no Stop has
happened. -/
theorem play_timer_outlives_stop :
    (after samplePlay (bootstrap ++ [.timerReadable 3 true { tv_sec := 5, tv_nsec := 0 }])
      ).driver.state = ONIONTRACE_DRIVER_PLAYING ∧
    (run (oniontracedriver_new samplePlay)
      (bootstrap ++ [.timerReadable 3 true { tv_sec := 5, tv_nsec := 0 }, .stop])).map
        (fun w => created w.log) =
      some [(2, .heartbeat), (3, .shutdown), (5, .playCallback)] ∧
    (run (oniontracedriver_new samplePlay)
      (bootstrap ++ [.timerReadable 3 true { tv_sec := 5, tv_nsec := 0 }, .stop])).map
        (fun w => frees w.log) = some [2, 3] ∧
    (run (oniontracedriver_new samplePlay)
      (bootstrap ++ [.timerReadable 3 true { tv_sec := 5, tv_nsec := 0 }, .stop])).map
        (fun w => liveTimers w.timers) = some [(5, .playCallback)] ∧
    (run (oniontracedriver_new samplePlay)
      (bootstrap ++ [.timerReadable 3 true { tv_sec := 5, tv_nsec := 0 }, .stop])).map
        (fun w => w.manager.registered) = some [playRegistration (5, .playCallback)] ∧
    (run (oniontracedriver_new samplePlay)
      (bootstrap ++ [.timerReadable 5 false { tv_sec := 1, tv_nsec := 0 }])).map
        (fun w => (w.driver.state, frees w.log)) = some (ONIONTRACE_DRIVER_PLAYING, [5]) ∧
    (run (oniontracedriver_new samplePlay)
      (bootstrap ++ [.timerReadable 5 false { tv_sec := 1, tv_nsec := 0 }])).map
        (fun w => (decide (Event.timerCheck 5 false ∈ w.log),
          decide (Event.timerCheck 5 true ∈ w.log))) = some (true, false) := by
  refine ⟨?_, ?_, ?_, ?_, ?_, ?_, ?_⟩ <;> decide

/-- The timers that one step from a state with sound bookkeeping releases. -/
theorem step_frees {w w1 : World} {a : Action} (ht : InvTimers w)
    (hs : step w a = some w1) : frees w1.log = frees w.log ++ expectedFrees w a := by
  cases a with
  | start result =>
    simp only [step, Option.some.injEq] at hs
    subst hs
    by_cases hst : w.driver.state = ONIONTRACE_DRIVER_IDLE
    · cases result with
      | none =>
        rw [(start_failed_effect w hst).2]
        simp [expectedFrees]
      | some port =>
        rw [(start_effect w port hst).2.2.2.2.1]
        simp [expectedFrees, hst]
    · rw [start_rejected_effect w result hst]
      cases result <;> simp [expectedFrees, hst]
  | stop =>
    simp only [step, Option.some.injEq] at hs
    subst hs
    by_cases hst : w.driver.state = ONIONTRACE_DRIVER_IDLE
    · rw [stop_rejected_effect w hst]
      simp [expectedFrees, hst]
    · rw [(stop_effect w hst).2.2.2.2.1]
      simp [expectedFrees, hst]
  | connected h =>
    simp only [step] at hs
    split at hs
    · simp only [Option.some.injEq] at hs
      subst hs
      obtain ⟨-, -, -, -, -, e6, -⟩ := onConnected_effect (w.setPending (some h) none)
      obtain ⟨-, -, -, -, s5⟩ := setPending_effect w (some h) none
      rw [e6, s5]
      simp [expectedFrees]
    · cases hs
  | authenticated h =>
    simp only [step] at hs
    split at hs
    · simp only [Option.some.injEq] at hs
      subst hs
      obtain ⟨-, -, -, -, -, e6, -⟩ := onAuthenticated_effect (w.setPending (some h) none)
      obtain ⟨-, -, -, -, s5⟩ := setPending_effect w (some h) none
      rw [e6, s5]
      simp [expectedFrees]
    · cases hs
  | bootstrapped h result =>
    obtain ⟨F, M, tt, hF⟩ := step_timerTransition ht hs
    rw [tt.frees_eq]
    rcases hF with hF | ⟨hF, -⟩ | ⟨_, hF, -⟩ | ⟨_, _, _, hF, -⟩
    · rw [hF]
      simp [expectedFrees]
    · cases hF
    · cases hF
    · cases hF
  | timerReadable t expired now =>
    obtain ⟨made, freed, hd, ⟨r, hr1, hr2, hcase⟩, -⟩ := timerReadable_summary hs
    obtain ⟨f, hf1, hf2⟩ := ht.reg_live r hr1
    rw [hr2] at hf1
    rw [hd.frees_eq]
    rcases hcase with ⟨hfr, hg⟩ | ⟨hfr, hg⟩
    · have hx : (t, TimerFunc.playCallback) ∉ liveTimers w.timers := by
        intro hx
        have := ht.func_unique _ hf1 _ hx rfl
        simp only at this
        rw [hf2.mpr this] at hg
        cases hg
      simp [expectedFrees, hx, hfr]
    · have hx : (t, TimerFunc.playCallback) ∈ liveTimers w.timers := by
        rw [← hf2.mp hg]
        exact hf1
      simp [expectedFrees, hx, hfr]

/-- C8, amended: in every execution from a new driver that ends with a successful Stop, no
timer has been freed twice, every freed timer had been allocated, every heartbeat timer
allocated has been freed exactly once, and, if no Recorder or Player construction failed,
every shutdown timer allocated has been freed exactly once; that Stop frees the heartbeat
and the shutdown timer the driver holds and no other timer; in every step of an execution
timers are freed only by a successful Stop, by a successful Start (the heartbeat timer the
driver still holds) and by the read handler of a Play-timer (that timer), and each of these
frees exactly those timers, a Play-timer whenever its descriptor is readable; every timer
allocated has been freed exactly once and is gone, or has not been freed and is still live;
no heartbeat timer is live after the Stop, and if no construction failed, only Play-timers
are. -/
theorem timers_freed_once_or_live (cfg : OnionTraceConfig) (acts : List Action)
    (w0 : World) (hr : run (oniontracedriver_new cfg) acts = some w0)
    (hst : w0.driver.state ≠ ONIONTRACE_DRIVER_IDLE) :
    (∀ t, (oniontracedriver_stop w0).2.log.count (Event.timerFree t) ≤ 1) ∧
    (∀ t, Event.timerFree t ∈ (oniontracedriver_stop w0).2.log →
      ∃ f, Event.timerNew t f ∈ (oniontracedriver_stop w0).2.log) ∧
    (∀ t, Event.timerNew t .heartbeat ∈ (oniontracedriver_stop w0).2.log →
      (oniontracedriver_stop w0).2.log.count (Event.timerFree t) = 1) ∧
    ((∀ a ∈ acts, a.failedConstruction = false) →
      ∀ t, Event.timerNew t .shutdown ∈ (oniontracedriver_stop w0).2.log →
        (oniontracedriver_stop w0).2.log.count (Event.timerFree t) = 1) ∧
    frees (oniontracedriver_stop w0).2.log =
      frees w0.log ++ w0.driver.heartbeatTimer.toList ++ w0.driver.shutdownTimer.toList ∧
    (∀ (pre : List Action) (w1 w2 : World) (a : Action),
      run (oniontracedriver_new cfg) pre = some w1 → step w1 a = some w2 →
        ∃ F, frees w2.log = frees w1.log ++ F ∧ freesAllowed w1 a F) ∧
    (∀ (pre : List Action) (w1 w2 : World) (a : Action),
      run (oniontracedriver_new cfg) pre = some w1 → step w1 a = some w2 →
        frees w2.log = frees w1.log ++ expectedFrees w1 a) ∧
    (∀ (pre : List Action) (w1 w2 : World) (t : Nat) (expired : Bool) (now : Timespec),
      run (oniontracedriver_new cfg) pre = some w1 →
      (t, TimerFunc.playCallback) ∈ liveTimers w1.timers →
      step w1 (.timerReadable t expired now) = some w2 →
        frees w2.log = frees w1.log ++ [t] ∧ ∀ f, (t, f) ∉ liveTimers w2.timers) ∧
    (∀ t f, Event.timerNew t f ∈ (oniontracedriver_stop w0).2.log →
      ((oniontracedriver_stop w0).2.log.count (Event.timerFree t) = 1 ∧
        ∀ g, (t, g) ∉ liveTimers (oniontracedriver_stop w0).2.timers) ∨
      ((oniontracedriver_stop w0).2.log.count (Event.timerFree t) = 0 ∧
        (t, f) ∈ liveTimers (oniontracedriver_stop w0).2.timers)) ∧
    (∀ p ∈ liveTimers (oniontracedriver_stop w0).2.timers, p.2 ≠ TimerFunc.heartbeat) ∧
    ((∀ a ∈ acts, a.failedConstruction = false) →
      ∀ p ∈ liveTimers (oniontracedriver_stop w0).2.timers, p.2 = TimerFunc.playCallback) := by
  have hs : step w0 .stop = some (oniontracedriver_stop w0).2 := rfl
  have ht0 := invTimers_run hr
  have ht := invTimers_step ht0 hs
  obtain ⟨e1, -, -, -, e5, -⟩ := stop_effect w0 hst
  have hle : ∀ t, (oniontracedriver_stop w0).2.log.count (Event.timerFree t) ≤ 1 := by
    intro t
    rw [← count_frees]
    exact List.nodup_iff_count_le_one.mp ht.freed_nodup t
  have hone : ∀ t, t ∈ frees (oniontracedriver_stop w0).2.log →
      (oniontracedriver_stop w0).2.log.count (Event.timerFree t) = 1 := by
    intro t h
    rw [← count_frees]
    exact List.count_eq_one_of_mem ht.freed_nodup h
  have hclean : (∀ a ∈ acts, a.failedConstruction = false) →
      InvClean (oniontracedriver_stop w0).2 := fun hf =>
    invClean_step (a := Action.stop) (inv_run hr) ht0 (invAll_run hf hr).clean rfl hs
  refine ⟨hle, ?_, ?_, ?_, e5, ?_, ?_, ?_, ?_, ?_, ?_⟩
  · intro t h
    have h1 : t ∈ frees (oniontracedriver_stop w0).2.log := by
      rw [← List.count_pos_iff, count_frees, List.count_pos_iff]
      exact h
    obtain ⟨f, hf⟩ := ht.freed_created t h1
    exact ⟨f, (mem_created_iff _ _ _).mp hf⟩
  · intro t h
    rcases ht.accounted _ ((mem_created_iff _ _ _).mpr h) with h1 | h1
    · exact hone t h1
    · have := ht.hb_only _ h1 rfl
      rw [e1] at this
      cases this
  · intro hf t h
    rcases ht.accounted _ ((mem_created_iff _ _ _).mpr h) with h1 | h1
    · exact hone t h1
    · have := (hclean hf).sd_only _ h1 rfl
      rw [e1] at this
      cases this
  · intro pre w1 w2 a hr1 hs1
    obtain ⟨F, M, tt, hF⟩ := step_timerTransition (invTimers_run hr1) hs1
    exact ⟨F, tt.frees_eq, hF⟩
  · intro pre w1 w2 a hr1 hs1
    exact step_frees (invTimers_run hr1) hs1
  · intro pre w1 w2 t expired now hr1 hx hs1
    have hfr := step_frees (invTimers_run hr1) hs1
    simp only [expectedFrees, hx, if_true] at hfr
    refine ⟨hfr, ?_⟩
    intro f hf
    have ht2 := invTimers_step (invTimers_run hr1) hs1
    exact ht2.freed_dead t (by rw [hfr]; simp) _ hf rfl
  · intro t f h
    rcases ht.accounted _ ((mem_created_iff _ _ _).mpr h) with h1 | h1
    · exact Or.inl ⟨hone t h1, fun g hg => ht.freed_dead t h1 _ hg rfl⟩
    · refine Or.inr ⟨?_, h1⟩
      rw [← count_frees, List.count_eq_zero]
      intro hfr
      exact ht.freed_dead t hfr _ h1 rfl
  · intro p hp hpf
    have := ht.hb_only p hp hpf
    rw [e1] at this
    cases this
  · intro hf p hp
    cases hpf : p.2 with
    | heartbeat =>
      have := ht.hb_only p hp hpf
      rw [e1] at this
      cases this
    | shutdown =>
      have := (hclean hf).sd_only p hp hpf
      rw [e1] at this
      cases this
    | playCallback => rfl

/-- Witness of C8: in Play mode the Play-timer 5 fires and the driver is stopped: the frees
are those of the timers 5, 2 and 3, each once, and no timer is left live. -/
theorem timers_freed_once_or_live_witness :
    run (oniontracedriver_new samplePlay) (bootstrap ++ [playFire]) = some samplePlayed ∧
    samplePlayed.driver.state ≠ ONIONTRACE_DRIVER_IDLE ∧
    frees (oniontracedriver_stop samplePlayed).2.log = [5, 2, 3] ∧
    liveTimers (oniontracedriver_stop samplePlayed).2.timers = [] ∧
    (oniontracedriver_stop samplePlayed).2.log.count (Event.timerFree 2) = 1 ∧
    frees samplePlayed.log = frees samplePlaying.log ++ expectedFrees samplePlaying playFire ∧
    expectedFrees samplePlaying playFire = [5] :=
  ⟨by decide, by decide, by decide, by decide,
    (timers_freed_once_or_live samplePlay (bootstrap ++ [playFire]) samplePlayed
      (by decide) (by decide)).2.2.1 2 (by decide),
    (timers_freed_once_or_live samplePlay (bootstrap ++ [playFire]) samplePlayed
      (by decide) (by decide)).2.2.2.2.2.2.1 bootstrap samplePlaying samplePlayed playFire
      (by decide) (by decide),
    by decide⟩

/-- C9: on a driver that is not Idle, Free makes exactly the calls of Stop, in the same
order (Recorder, Player, heartbeat timer, shutdown timer, control client, each non-NULL one
once), and only then releases the id string and the driver; the heaps and the registration
table end as the Free of the spec leaves them. -/
theorem free_performs_stop_teardown (w : World)
    (h : w.driver.state ≠ ONIONTRACE_DRIVER_IDLE) :
    (oniontracedriver_free w).log =
      (oniontracedriver_stop w).2.log ++ [.freeId w.driver.id, .freeDriver] ∧
    (oniontracedriver_free w).log =
      w.log ++ teardownOrder w.driver ++ [.freeId w.driver.id, .freeDriver] ∧
    (oniontracedriver_free w).log = (specFree w).log ∧
    (oniontracedriver_free w).timers = (specFree w).timers ∧
    (oniontracedriver_free w).torctls = (specFree w).torctls ∧
    (oniontracedriver_free w).manager.registered = (specFree w).manager.registered := by
  obtain ⟨f1, f2, f3, f4⟩ := free_log w
  obtain ⟨-, s1⟩ := stop_log w h
  obtain ⟨-, s2, -, -, -, -, -, s8⟩ := stop_effect w h
  obtain ⟨s3, s4⟩ := stop_heap w h
  refine ⟨by rw [f1, s1], f1, ?_, ?_, ?_, ?_⟩
  · simp [specFree, h, World.emit, f1, s1, s4]
  · simp only [specFree, h, World.emit, ne_eq, not_false_eq_true, if_true]
    rw [f2, s3]
  · simp only [specFree, h, World.emit, ne_eq, not_false_eq_true, if_true]
    rw [f4, s2]
  · simp only [specFree, h, World.emit, ne_eq, not_false_eq_true, if_true]
    rw [f3, s8]

/-- Witness of C9: Free on a playing driver. -/
theorem free_performs_stop_teardown_witness :
    samplePlaying.driver.state ≠
      ONIONTRACE_DRIVER_IDLE ∧
    (oniontracedriver_free
      samplePlaying).log =
      (specFree samplePlaying).log :=
  ⟨by decide,
    (free_performs_stop_teardown
      samplePlaying
      (by decide)).2.2.1⟩

/-- Counterexample to C10: a driver left Idle by a failed Recorder construction still holds
its control client (handle 1); a Start whose control-client constructor fails overwrites
that field with NULL, while the client itself stays live, so the driver is not as it was
before the call. -/
theorem failed_start_clears_client :
    sampleFailed.driver.state =
      ONIONTRACE_DRIVER_IDLE ∧
    sampleFailed.driver.torctl = some 1 ∧
    (oniontracedriver_start
      sampleFailed none).2.driver.torctl = none ∧
    (oniontracedriver_start
      sampleFailed none).2.torctls.map
        (fun c => c.handle) = [1] := by
  decide

/-- C10, amended: on every Idle driver for which the control-client constructor returns
NULL, Start returns failure, the state stays Idle, and nothing is created, armed or
registered: the world is as before except for three log entries and the control-client
field, which is NULL afterwards; a driver whose control-client field was NULL is left
exactly as it was. -/
theorem failed_start_leaves_idle (w : World)
    (h : w.driver.state = ONIONTRACE_DRIVER_IDLE) :
    (oniontracedriver_start w none).1 = false ∧
    (oniontracedriver_start w none).2 =
      { w with
        driver := { w.driver with torctl := none }
        log := w.log ++
          [.message (w.driver.id ++ ": creating control client to connect to Tor"),
           .torctlNew w.driver.config.torControlPort .onConnected none,
           .message (w.driver.id ++ ": error creating tor controller instance")] } ∧
    (oniontracedriver_start w none).2.driver.state = ONIONTRACE_DRIVER_IDLE ∧
    (w.driver.torctl = none → (oniontracedriver_start w none).2.driver = w.driver) := by
  obtain ⟨e1, e2⟩ := start_failed_effect w h
  refine ⟨e1, e2, ?_, ?_⟩
  · rw [e2]; exact h
  · intro hn
    rw [e2]
    simp only
    rw [← hn]

/-- Witness of C10: a failed Start on a new driver. -/
theorem failed_start_leaves_idle_witness :
    (oniontracedriver_new sampleRecord).driver.state = ONIONTRACE_DRIVER_IDLE ∧
    (oniontracedriver_start (oniontracedriver_new sampleRecord) none).1 = false ∧
    (oniontracedriver_start (oniontracedriver_new sampleRecord) none).2.driver =
      (oniontracedriver_new sampleRecord).driver :=
  ⟨by decide,
    (failed_start_leaves_idle (oniontracedriver_new sampleRecord) (by decide)).1,
    (failed_start_leaves_idle (oniontracedriver_new sampleRecord) (by decide)).2.2.2 rfl⟩

/-! ## The Play-timer, the shutdown timer and the heartbeat -/

theorem registerPlayTimer_log (w : World) :
    (_oniontracedriver_registerPlayTimer w).log = w.log ++
      registerPlayTimerEvents (w.driver.player.map fun p => p.handle)
        (oniontraceplayer_getNextCircuitLaunchTime w).1 w.nextHandle ∧
    (_oniontracedriver_registerPlayTimer w).driver = w.driver := by
  unfold _oniontracedriver_registerPlayTimer oniontraceplayer_getNextCircuitLaunchTime
  cases hp : w.driver.player with
  | none => simp [World.emit, registerPlayTimerEvents]
  | some p =>
    by_cases hs : w.manager.stopCount = 0 <;> cases hq : p.queue.head? <;>
      simp [World.emit, hq, hs, oniontracetimer_new, oniontracetimer_armGranular,
        oniontraceeventmanager_register, oniontracetimer_getFD, registerPlayTimerEvents,
        playTimerEvents]

/-- Timers that `_oniontracedriver_registerPlayTimer` finds in the heap stay in it. -/
theorem registerPlayTimer_keeps (w : World) (tm : OnionTraceTimer) (h : tm ∈ w.timers)
    (hlt : tm.handle < w.nextHandle) : tm ∈ (_oniontracedriver_registerPlayTimer w).timers := by
  unfold _oniontracedriver_registerPlayTimer oniontraceplayer_getNextCircuitLaunchTime
  cases hp : w.driver.player with
  | none => simpa [World.emit] using h
  | some p =>
    cases hq : p.queue.head? with
    | none => simpa [World.emit, hq] using h
    | some d =>
      simp only [World.emit, hq, oniontracetimer_new, oniontracetimer_armGranular,
        oniontraceeventmanager_register]
      split <;>
        exact List.mem_map.mpr ⟨tm, List.mem_append_left _ h, if_neg (Nat.ne_of_lt hlt)⟩

theorem onBootstrapped_record_log (w : World) (s : Subsystem)
    (hm : w.driver.config.mode = ONIONTRACE_MODE_RECORD) :
    (_oniontracedriver_onBootstrapped w (some s)).log = w.log ++
      [.message (w.driver.id ++ ": successfully bootstrapped client port " ++
          toString (oniontracetorctl_getControlClientPort w w.driver.torctl)),
       .recorderNew w.driver.torctl w.driver.config.traceFileName (some w.nextHandle)] := by
  simp [_oniontracedriver_onBootstrapped, hm, message, World.emit, oniontracerecorder_new]

theorem onBootstrapped_play_eq (w : World) (s : Subsystem)
    (hm : w.driver.config.mode = ONIONTRACE_MODE_PLAY) :
    _oniontracedriver_onBootstrapped w (some s) =
      _oniontracedriver_registerPlayTimer
        { w with
          driver := { w.driver with
            state := ONIONTRACE_DRIVER_PLAYING
            player := some { handle := w.nextHandle, queue := s.trace, issued := 0,
                             status := s.status } }
          nextHandle := w.nextHandle + 1
          log := w.log ++
            [.message (w.driver.id ++ ": successfully bootstrapped client port " ++
                toString (oniontracetorctl_getControlClientPort w w.driver.torctl)),
             .playerNew w.driver.torctl w.driver.config.traceFileName
               (some w.nextHandle)] } := by
  simp [_oniontracedriver_onBootstrapped, hm, message, World.emit, oniontraceplayer_new]

theorem onBootstrapped_failed_log (w : World) :
    (_oniontracedriver_onBootstrapped w none).log = w.log ++
      (if w.driver.config.mode = ONIONTRACE_MODE_RECORD then
        [.message (w.driver.id ++ ": successfully bootstrapped client port " ++
            toString (oniontracetorctl_getControlClientPort w w.driver.torctl)),
         .recorderNew w.driver.torctl w.driver.config.traceFileName none,
         .critical (w.driver.id ++ ": Error creating recorder instance, cannot proceed"),
         .stopMainLoop]
       else
        [.message (w.driver.id ++ ": successfully bootstrapped client port " ++
            toString (oniontracetorctl_getControlClientPort w w.driver.torctl)),
         .playerNew w.driver.torctl w.driver.config.traceFileName none,
         .critical (w.driver.id ++ ": Error creating player instance, cannot proceed"),
         .stopMainLoop]) := by
  by_cases hm : w.driver.config.mode = ONIONTRACE_MODE_RECORD <;>
  simp [_oniontracedriver_onBootstrapped, hm, message, critical, World.emit,
    oniontracerecorder_new, oniontraceplayer_new, oniontraceeventmanager_stopMainLoop]

theorem genericTimerReadable_spurious (w : World) (tm : OnionTraceTimer) (now : Timespec) :
    _oniontracedriver_genericTimerReadable w tm false now =
      { w with log := w.log ++ [.timerCheck tm.handle false, .warning genericWarning] } := by
  simp [_oniontracedriver_genericTimerReadable, oniontracetimer_check, warning, World.emit,
    genericWarning]

theorem playTimerReadable_spurious (w : World) (tm : OnionTraceTimer) (now : Timespec) :
    _oniontracedriver_playTimerReadable w tm false now =
      { w with
        timers := w.timers.filter fun x => x.handle ≠ tm.handle
        manager := { w.manager with
          registered := w.manager.registered.filter fun r => r.timer ≠ tm.handle }
        log := w.log ++
          [.timerCheck tm.handle false,
           .warning "Authority unable to execute play timer callback function.",
           .timerFree tm.handle] } := by
  simp [_oniontracedriver_playTimerReadable, oniontracetimer_check, warning, World.emit,
    oniontracetimer_free]

theorem stateToString_injective :
    Function.Injective _oniontracedriver_stateToString := by
  intro a b h
  cases a <;> cases b <;> first | rfl | (exact absurd h (by decide))

theorem heartbeat_eq (w : World) (now : Timespec) :
    _oniontracedriver_heartbeat w now =
      { w with
        driver := { w.driver with nowCached := now }
        log := w.log ++ [.message (heartbeatLine { w.driver with nowCached := now })] } := by
  simp [_oniontracedriver_heartbeat, message, World.emit]

theorem heartbeatLine_eq (d : OnionTraceDriver) (now : Timespec) :
    heartbeatLine { d with nowCached := now } =
      (match d.state, d.recorder, d.player with
       | ONIONTRACE_DRIVER_RECORDING, some r, _ =>
         heartbeatHead d ++ " " ++ oniontracerecorder_toString r
       | ONIONTRACE_DRIVER_PLAYING, _, some p =>
         heartbeatHead d ++ " " ++ oniontraceplayer_toString p
       | _, _, _ => heartbeatHead d) := by
  obtain ⟨cfg, st, id, hb, sd, nw, tc, rc, pl⟩ := d
  cases st <;> cases rc <;> cases pl <;>
    simp [heartbeatLine, heartbeatStatus, heartbeatHead]

theorem mem_liveTimers_of_mem {ts : List OnionTraceTimer} {tm : OnionTraceTimer}
    (h : tm ∈ ts) : (tm.handle, tm.func) ∈ liveTimers ts := by
  simp only [liveTimers, List.mem_map]
  exact ⟨tm, h, rfl⟩


theorem check_keeps (w : World) (tm : OnionTraceTimer) (expired : Bool) (now : Timespec)
    (tm0 : OnionTraceTimer) (h : tm0 ∈ w.timers) (hlt : tm0.handle < w.nextHandle) :
    tm0 ∈ (oniontracetimer_check w tm expired now).2.timers := by
  cases expired with
  | false => simpa [oniontracetimer_check, World.emit] using h
  | true =>
    cases hf : tm.func with
    | heartbeat =>
      simpa [oniontracetimer_check, World.emit, hf, _oniontracedriver_heartbeat, message]
        using h
    | shutdown =>
      simpa [oniontracetimer_check, World.emit, hf, _oniontracedriver_shutdown,
        oniontraceeventmanager_stopMainLoop] using h
    | playCallback =>
      have hw : (oniontracetimer_check w tm true now).2 =
          _oniontracedriver_registerPlayTimer
            (oniontraceplayer_launchNextCircuit (w.emit (.timerCheck tm.handle true))) := by
        simp [oniontracetimer_check, hf, _oniontracedriver_playCallback]
      rw [hw]
      apply registerPlayTimer_keeps
      · cases hp : w.driver.player <;>
          simpa [oniontraceplayer_launchNextCircuit, World.emit, hp] using h
      · cases hp : w.driver.player <;>
          simpa [oniontraceplayer_launchNextCircuit, World.emit, hp] using hlt

theorem genericTimerReadable_keeps (w : World) (tm : OnionTraceTimer) (expired : Bool)
    (now : Timespec) (tm0 : OnionTraceTimer) (h : tm0 ∈ w.timers)
    (hlt : tm0.handle < w.nextHandle) :
    tm0 ∈ (_oniontracedriver_genericTimerReadable w tm expired now).timers := by
  have hc := check_keeps w tm expired now tm0 h hlt
  unfold _oniontracedriver_genericTimerReadable
  simp only
  split
  · simpa [warning, World.emit] using hc
  · exact hc

theorem playTimerReadable_keeps (w : World) (tm : OnionTraceTimer) (expired : Bool)
    (now : Timespec) (tm0 : OnionTraceTimer) (h : tm0 ∈ w.timers)
    (hlt : tm0.handle < w.nextHandle) (hne : tm0.handle ≠ tm.handle) :
    tm0 ∈ (_oniontracedriver_playTimerReadable w tm expired now).timers := by
  have hc := check_keeps w tm expired now tm0 h hlt
  unfold _oniontracedriver_playTimerReadable
  simp only
  split
  · simp only [oniontracetimer_free, warning, World.emit, List.mem_filter,
      decide_eq_true_eq]
    exact ⟨hc, hne⟩
  · simp only [oniontracetimer_free, List.mem_filter, decide_eq_true_eq]
    exact ⟨hc, hne⟩

/-- A dispatch of a readable timer keeps every timer of the heap except, under the read
handler of a Play-timer, the dispatched one. -/
theorem timerReadable_keeps {w w1 : World} {t : Nat} {expired : Bool} {now : Timespec}
    (hs : step w (.timerReadable t expired now) = some w1) (tm0 : OnionTraceTimer)
    (h : tm0 ∈ w.timers) (hlt : tm0.handle < w.nextHandle) :
    tm0 ∈ w1.timers ∨
    (tm0.handle = t ∧ ∃ r ∈ w.manager.registered, r.timer = t ∧
      r.func = ReadableFunc.playTimerReadable) := by
  simp only [step] at hs
  split at hs
  · cases hs
  · rename_i tm hf
    have h2 : tm.handle = t := by simpa using List.find?_some hf
    split at hs
    · cases hs
    · rename_i r hrf
      have hr1 := List.mem_of_find?_eq_some hrf
      have hr2 : r.timer = t := by simpa using List.find?_some hrf
      split at hs
      · simp only [Option.some.injEq] at hs
        subst hs
        exact Or.inl (genericTimerReadable_keeps w tm expired now tm0 h hlt)
      · rename_i hfunc
        simp only [Option.some.injEq] at hs
        subst hs
        by_cases hne : tm0.handle = t
        · exact Or.inr ⟨hne, r, hr1, hr2, hfunc⟩
        · exact Or.inl
            (playTimerReadable_keeps w tm expired now tm0 h hlt (by rw [h2]; exact hne))

theorem start_shutdown_obj (w : World) (port : Nat)
    (h : w.driver.state = ONIONTRACE_DRIVER_IDLE)
    (hr : w.driver.config.runTimeSeconds > 0) :
    shutdownTimerObj (w.nextHandle + 2) w.driver.config ∈
      (oniontracedriver_start w (some port)).2.timers := by
  obtain ⟨⟨cfg, st, id, hb, sd, now, tc, rc, pl⟩, m, ts, cs, n, lg⟩ := w
  simp only at h hr
  subst h
  by_cases hs : m.stopCount = 0 <;> cases hb <;>
    simp [oniontracedriver_start, hr, hs, message, World.emit, oniontracetorctl_new,
      _oniontracedriver_registerHeartbeat, _oniontracedriver_registerShutdown,
      oniontracetimer_new, oniontracetimer_arm, oniontracetimer_armGranular,
      oniontracetimer_free, oniontracetimer_getFD, oniontraceeventmanager_register,
      shutdownTimerObj]

/-! ## The log and the requests to stop the reactor -/

theorem stoppedBefore_append_created (t : Nat) (log l : List Event)
    (h : ∃ f, Event.timerNew t f ∈ log) :
    stoppedBefore t (log ++ l) = stoppedBefore t log := by
  induction log with
  | nil => simp at h
  | cons e log ih =>
    obtain ⟨f, hf⟩ := h
    rcases List.mem_cons.mp hf with h1 | h1
    · subst h1
      simp [stoppedBefore]
    · have := ih ⟨f, h1⟩
      cases e <;> simp [stoppedBefore, this]

theorem stoppedBefore_append_stopped (t : Nat) (log l : List Event)
    (h1 : Event.stopMainLoop ∈ log) (h2 : ∀ f, Event.timerNew t f ∉ log) :
    stoppedBefore t (log ++ l) = true := by
  induction log with
  | nil => simp at h1
  | cons e log ih =>
    cases e with
    | stopMainLoop => simp [stoppedBefore]
    | timerNew t1 f1 =>
      have hne : t1 ≠ t := by
        intro h
        exact h2 f1 (by rw [h]; exact List.mem_cons_self _ _)
      have := ih (by simpa using h1) (fun f hf => h2 f (List.mem_cons_of_mem _ hf))
      simp [stoppedBefore, hne, this]
    | _ =>
      have := ih (by simpa using h1) (fun f hf => h2 f (List.mem_cons_of_mem _ hf))
      simp [stoppedBefore, this]

theorem stoppedBefore_append_running (t : Nat) (log l : List Event)
    (h1 : Event.stopMainLoop ∉ log) (h2 : ∀ f, Event.timerNew t f ∉ log) :
    stoppedBefore t (log ++ l) = stoppedBefore t l := by
  induction log with
  | nil => rfl
  | cons e log ih =>
    have := ih (fun h => h1 (List.mem_cons_of_mem _ h))
      (fun f hf => h2 f (List.mem_cons_of_mem _ hf))
    cases e with
    | stopMainLoop => exact absurd (List.mem_cons_self _ _) h1
    | timerNew t1 f1 =>
      have hne : t1 ≠ t := by
        intro h
        exact h2 f1 (by rw [h]; exact List.mem_cons_self _ _)
      simp [stoppedBefore, hne, this]
    | _ => simp [stoppedBefore, this]

theorem stoppedBefore_of_running (t : Nat) (log : List Event)
    (h : Event.stopMainLoop ∉ log) : stoppedBefore t log = false := by
  induction log with
  | nil => rfl
  | cons e log ih =>
    have := ih (fun h1 => h (List.mem_cons_of_mem _ h1))
    cases e with
    | stopMainLoop => exact absurd (List.mem_cons_self _ _) h
    | timerNew t1 f1 =>
      by_cases hne : t1 = t <;> simp [stoppedBefore, hne, this]
    | _ => simp [stoppedBefore, this]

theorem start_log (w : World) (port : Nat) (h : w.driver.state = ONIONTRACE_DRIVER_IDLE) :
    (oniontracedriver_start w (some port)).2.log = w.log ++
      ([.message (w.driver.id ++ ": creating control client to connect to Tor"),
       .torctlNew w.driver.config.torControlPort .onConnected (some w.nextHandle),
       .message (w.driver.id ++ ": created tor controller instance, connecting to port " ++
          toString w.driver.config.torControlPort)] ++
      (w.driver.heartbeatTimer.map Event.timerFree).toList ++
      heartbeatEvents (w.nextHandle + 1) ++
      (if w.driver.config.runTimeSeconds > 0 then
        shutdownEvents (w.nextHandle + 2) w.driver.config.runTimeSeconds.toNat else [])) := by
  obtain ⟨⟨cfg, st, id, hb, sd, now, tc, rc, pl⟩, m, ts, cs, n, lg⟩ := w
  simp only at h
  subst h
  by_cases hs : m.stopCount = 0 <;> by_cases hr : cfg.runTimeSeconds > 0 <;> cases hb <;>
    simp [oniontracedriver_start, hr, hs, message, World.emit, oniontracetorctl_new,
      _oniontracedriver_registerHeartbeat, _oniontracedriver_registerShutdown,
      oniontracetimer_new, oniontracetimer_arm, oniontracetimer_armGranular,
      oniontracetimer_free, oniontracetimer_getFD, oniontraceeventmanager_register,
      heartbeatEvents, shutdownEvents]

/-- What the dispatch of a readable timer appends to the log: the event manager counts the
stop requests among it. -/
theorem timerReadable_log {w w1 : World} {t : Nat} {expired : Bool} {now : Timespec}
    (hs : step w (.timerReadable t expired now) = some w1) :
    ∃ l, w1.log = w.log ++ l ∧
      w1.manager.stopCount = w.manager.stopCount + l.count Event.stopMainLoop := by
  simp only [step] at hs
  split at hs
  · cases hs
  · rename_i tm hf
    split at hs
    · cases hs
    · rename_i r hrf
      refine ⟨w1.log.drop w.log.length, ?_, ?_⟩ <;>
      · split at hs <;>
        · simp only [Option.some.injEq] at hs
          subst hs
          cases expired <;> cases hfunc : tm.func <;> by_cases hz : w.manager.stopCount = 0 <;>
            (cases hp : w.driver.player with
             | none =>
               simp [_oniontracedriver_genericTimerReadable,
                 _oniontracedriver_playTimerReadable,
                 oniontracetimer_check, hfunc, _oniontracedriver_heartbeat,
                 _oniontracedriver_shutdown, _oniontracedriver_playCallback,
                 oniontraceplayer_launchNextCircuit, hp, _oniontracedriver_registerPlayTimer,
                 oniontraceplayer_getNextCircuitLaunchTime, World.emit, message, warning,
                 oniontracetimer_free, oniontraceeventmanager_stopMainLoop, hz,
                 List.count_cons]
             | some p =>
               cases hq : p.queue.tail.head? <;>
               simp [_oniontracedriver_genericTimerReadable,
                 _oniontracedriver_playTimerReadable,
                 oniontracetimer_check, hfunc, _oniontracedriver_heartbeat,
                 _oniontracedriver_shutdown, _oniontracedriver_playCallback,
                 oniontraceplayer_launchNextCircuit, hp, _oniontracedriver_registerPlayTimer,
                 oniontraceplayer_getNextCircuitLaunchTime, World.emit, message, warning,
                 oniontracetimer_new, oniontracetimer_armGranular,
                 oniontraceeventmanager_register, oniontracetimer_getFD, oniontracetimer_free,
                 oniontraceeventmanager_stopMainLoop, hz, hq, List.count_cons,
                 -List.head?_tail])

/-- What a step appends to the log: the event manager counts the stop requests among it. -/
theorem step_log {w w1 : World} {a : Action} (hs : step w a = some w1) :
    ∃ l, w1.log = w.log ++ l ∧
      w1.manager.stopCount = w.manager.stopCount + l.count Event.stopMainLoop := by
  cases a with
  | start result =>
    simp only [step, Option.some.injEq] at hs
    subst hs
    by_cases hst : w.driver.state = ONIONTRACE_DRIVER_IDLE
    · cases result with
      | none =>
        rw [(start_failed_effect w hst).2]
        exact ⟨_, rfl, by simp [List.count_cons]⟩
      | some port =>
        refine ⟨_, start_log w port hst, ?_⟩
        rw [(start_effect w port hst).2.2.2.2.2.2.1]
        cases w.driver.heartbeatTimer <;> by_cases hr : w.driver.config.runTimeSeconds > 0 <;>
          simp [heartbeatEvents, shutdownEvents, hr, List.count_cons]
    · rw [start_rejected_effect w result hst]
      exact ⟨_, rfl, by simp [List.count_cons]⟩
  | stop =>
    simp only [step, Option.some.injEq] at hs
    subst hs
    by_cases hst : w.driver.state = ONIONTRACE_DRIVER_IDLE
    · rw [stop_rejected_effect w hst]
      exact ⟨_, rfl, by simp [List.count_cons]⟩
    · refine ⟨_, (stop_log w hst).2, ?_⟩
      rw [(stop_effect w hst).2.2.2.2.2.2.1]
      simp only [teardownOrder]
      cases w.driver.recorder <;> cases w.driver.player <;> cases w.driver.heartbeatTimer <;>
        cases w.driver.shutdownTimer <;> cases w.driver.torctl <;>
        simp [List.count_cons]
  | connected h =>
    simp only [step] at hs
    split at hs
    · simp only [Option.some.injEq] at hs
      subst hs
      refine ⟨(_oniontracedriver_onConnected (w.setPending (some h) none)).log.drop
        w.log.length, ?_, ?_⟩ <;>
      · cases ht : w.driver.torctl <;>
          simp [_oniontracedriver_onConnected, message, World.emit,
            oniontracetorctl_commandAuthenticate, World.setPending, ht, List.count_cons]
    · cases hs
  | authenticated h =>
    simp only [step] at hs
    split at hs
    · simp only [Option.some.injEq] at hs
      subst hs
      refine ⟨(_oniontracedriver_onAuthenticated (w.setPending (some h) none)).log.drop
        w.log.length, ?_, ?_⟩ <;>
      · cases ht : w.driver.torctl <;>
          simp [_oniontracedriver_onAuthenticated, message, World.emit,
            oniontracetorctl_commandGetBootstrapStatus, World.setPending, ht, List.count_cons]
    · cases hs
  | bootstrapped h result =>
    simp only [step] at hs
    split at hs
    · simp only [Option.some.injEq] at hs
      subst hs
      refine ⟨(_oniontracedriver_onBootstrapped (w.setPending (some h) none) result).log.drop
        w.log.length, ?_, ?_⟩ <;>
      · cases hm : w.driver.config.mode <;> by_cases hz : w.manager.stopCount = 0 <;>
          (cases result with
           | none =>
             simp [_oniontracedriver_onBootstrapped, hm, message, critical, World.emit,
               oniontracerecorder_new, oniontraceplayer_new,
               oniontraceeventmanager_stopMainLoop, World.setPending, hz, List.count_cons]
           | some s =>
             cases hq : s.trace.head? <;>
             simp [_oniontracedriver_onBootstrapped, hm, message, critical, World.emit,
               oniontracerecorder_new, oniontraceplayer_new,
               oniontraceeventmanager_stopMainLoop,
               _oniontracedriver_registerPlayTimer, oniontraceplayer_getNextCircuitLaunchTime,
               oniontracetimer_new, oniontracetimer_armGranular,
               oniontraceeventmanager_register, oniontracetimer_getFD, World.setPending, hz, hq,
               List.count_cons])
    · cases hs
  | timerReadable t expired now => exact timerReadable_log hs

theorem invLog_new (cfg : OnionTraceConfig) : InvLog (oniontracedriver_new cfg) := by
  simp [InvLog, oniontracedriver_new]

theorem invLog_step {w w1 : World} {a : Action} (hi : InvLog w) (hs : step w a = some w1) :
    InvLog w1 := by
  obtain ⟨l, h1, h2⟩ := step_log hs
  unfold InvLog at hi ⊢
  rw [h1, h2, List.mem_append, Nat.add_eq_zero, hi, List.count_eq_zero]
  tauto

theorem invLog_run {cfg : OnionTraceConfig} {acts : List Action} {w : World}
    (hr : run (oniontracedriver_new cfg) acts = some w) : InvLog w :=
  run_invariant InvLog (fun _ => True) (fun _ _ _ hp _ hs => invLog_step hp hs) acts _ _
    (invLog_new cfg) (fun _ _ => trivial) hr

theorem created_fresh {w : World} (ht : InvTimers w) :
    ∀ p ∈ created w.log, p.1 < w.nextHandle := by
  intro p hp
  rcases ht.accounted p hp with h | h
  · exact ht.freed_fresh _ h
  · exact ht.fresh _ h

theorem invShutdown_new (cfg : OnionTraceConfig) :
    InvShutdown cfg (oniontracedriver_new cfg) := by
  constructor <;> simp [oniontracedriver_new]

theorem invShutdown_step {cfg : OnionTraceConfig} {w w1 : World} {a : Action}
    (hi : Inv w) (ht : InvTimers w) (hl : InvLog w) (hsd : InvShutdown cfg w)
    (hs : step w a = some w1) : InvShutdown cfg w1 := by
  have hstable : ∀ t, w.driver.shutdownTimer = some t →
      stoppedBefore t w1.log = stoppedBefore t w.log := by
    obtain ⟨l, hl1, -⟩ := step_log hs
    intro t h
    rw [hl1]
    exact stoppedBefore_append_created t _ l
      ⟨_, (mem_created_iff _ _ _).mp (ht.live_created _ (ht.sd_live t h))⟩
  have core : w1.driver.config = cfg ∧
      (¬ cfg.runTimeSeconds > 0 → w1.driver.shutdownTimer = none) ∧
      (cfg.runTimeSeconds > 0 → w1.driver.state ≠ ONIONTRACE_DRIVER_IDLE →
        w1.driver.shutdownTimer.isSome = true) ∧
      (∀ t, w1.driver.shutdownTimer = some t → shutdownTimerObj t cfg ∈ w1.timers) ∧
      (∀ t, w1.driver.shutdownTimer = some t →
        (w.driver.shutdownTimer = some t ∧
          (genericRegistration t ∈ w1.manager.registered ↔
            genericRegistration t ∈ w.manager.registered)) ∨
        (genericRegistration t ∈ w1.manager.registered ↔
          stoppedBefore t w1.log = false)) := by
    obtain ⟨c1, c2, c3, c4, -, -⟩ := hsd
    clear hstable
    have same : ∀ w2 : World, w2.driver.config = w.driver.config →
        w2.driver.shutdownTimer = w.driver.shutdownTimer →
        (w2.driver.state ≠ ONIONTRACE_DRIVER_IDLE → w.driver.state ≠ ONIONTRACE_DRIVER_IDLE) →
        w2.timers = w.timers → w2.manager.registered = w.manager.registered →
        w2.driver.config = cfg ∧
        (¬ cfg.runTimeSeconds > 0 → w2.driver.shutdownTimer = none) ∧
        (cfg.runTimeSeconds > 0 → w2.driver.state ≠ ONIONTRACE_DRIVER_IDLE →
          w2.driver.shutdownTimer.isSome = true) ∧
        (∀ t, w2.driver.shutdownTimer = some t → shutdownTimerObj t cfg ∈ w2.timers) ∧
        (∀ t, w2.driver.shutdownTimer = some t →
          (w.driver.shutdownTimer = some t ∧
            (genericRegistration t ∈ w2.manager.registered ↔
              genericRegistration t ∈ w.manager.registered)) ∨
          (genericRegistration t ∈ w2.manager.registered ↔
            stoppedBefore t w2.log = false)) := by
      intro w2 a1 a2 a3 a4 a5
      rw [a1, a2, a4, a5]
      exact ⟨c1, c2, fun h1 h2 => c3 h1 (a3 h2), c4, fun t h => Or.inl ⟨h, Iff.rfl⟩⟩
    cases a with
    | start result =>
      simp only [step, Option.some.injEq] at hs
      subst hs
      by_cases hst : w.driver.state = ONIONTRACE_DRIVER_IDLE
      · cases result with
        | none =>
          rw [(start_failed_effect w hst).2]
          exact same _ rfl rfl (fun h => h) rfl rfl
        | some port =>
          obtain ⟨e1, -, -, -, -, -, -, e8⟩ := start_effect w port hst
          have elog := start_log w port hst
          by_cases hr : cfg.runTimeSeconds > 0
          · have hr1 : w.driver.config.runTimeSeconds > 0 := by rw [c1]; exact hr
            simp only [hr1, if_true] at e1 e8 elog
            refine ⟨by rw [e1]; exact c1, fun h => absurd hr h, fun _ _ => by rw [e1]; rfl,
              ?_, ?_⟩
            · intro t h
              rw [e1] at h
              simp only [Option.some.injEq] at h
              subst h
              have := start_shutdown_obj w port hst hr1
              rw [c1] at this
              exact this
            · intro t h
              rw [e1] at h
              simp only [Option.some.injEq] at h
              subst h
              right
              have hnew : ∀ f, Event.timerNew (w.nextHandle + 2) f ∉ w.log := by
                intro f hf
                have := created_fresh ht _ ((mem_created_iff _ _ _).mpr hf)
                simp only at this
                omega
              by_cases hz : w.manager.stopCount = 0
              · rw [e8, accepted_running hz, elog,
                  stoppedBefore_append_running _ _ _ (hl.mp hz) hnew]
                constructor
                · intro _
                  cases w.driver.heartbeatTimer <;>
                    simp [stoppedBefore, heartbeatEvents, shutdownEvents]
                · intro _
                  simp
              · have hstop : Event.stopMainLoop ∈ w.log := by
                  by_contra hcon
                  exact hz (hl.mpr hcon)
                rw [e8, accepted_stopped hz, elog,
                  stoppedBefore_append_stopped _ _ _ hstop hnew]
                constructor
                · intro hmem
                  rw [List.append_nil] at hmem
                  obtain ⟨f, hf, -⟩ := ht.reg_live _ (List.mem_of_mem_filter hmem)
                  have := ht.fresh _ hf
                  simp only [genericRegistration] at this
                  omega
                · intro hcon
                  cases hcon
          · have hr1 : ¬ w.driver.config.runTimeSeconds > 0 := by rw [c1]; exact hr
            simp only [hr1, if_false] at e1
            have hn := c2 hr
            refine ⟨by rw [e1]; exact c1, fun _ => by rw [e1]; exact hn,
              fun h => absurd h hr, ?_, ?_⟩
            · intro t h
              rw [e1] at h
              simp only at h
              rw [hn] at h
              cases h
            · intro t h
              rw [e1] at h
              simp only at h
              rw [hn] at h
              cases h
      · rw [start_rejected_effect w result hst]
        exact same _ rfl rfl (fun h => h) rfl rfl
    | stop =>
      simp only [step, Option.some.injEq] at hs
      subst hs
      by_cases hst : w.driver.state = ONIONTRACE_DRIVER_IDLE
      · rw [stop_rejected_effect w hst]
        exact same _ rfl rfl (fun h => h) rfl rfl
      · obtain ⟨e1, -⟩ := stop_effect w hst
        refine ⟨by rw [e1]; exact c1, fun _ => by rw [e1], ?_, ?_, ?_⟩
        · intro _ h
          rw [e1] at h
          exact absurd rfl h
        · intro t h
          rw [e1] at h
          cases h
        · intro t h
          rw [e1] at h
          cases h
    | connected h =>
      simp only [step] at hs
      split at hs
      · rename_i hc
        simp only [Option.some.injEq] at hs
        subst hs
        obtain ⟨e1, -, e3, e4, -⟩ := onConnected_effect (w.setPending (some h) none)
        obtain ⟨s1, s2, s3, -⟩ := setPending_effect w (some h) none
        obtain ⟨-, b, -⟩ := inv_completion hi hc
        exact same _ (by rw [e1, s1]) (by rw [e1, s1])
          (fun _ => b ▸ stateFor_ne_idle _) (by rw [e3, s2]) (by rw [e4, s3])
      · cases hs
    | authenticated h =>
      simp only [step] at hs
      split at hs
      · rename_i hc
        simp only [Option.some.injEq] at hs
        subst hs
        obtain ⟨e1, -, e3, e4, -⟩ := onAuthenticated_effect (w.setPending (some h) none)
        obtain ⟨s1, s2, s3, -⟩ := setPending_effect w (some h) none
        obtain ⟨-, b, -⟩ := inv_completion hi hc
        exact same _ (by rw [e1, s1]) (by rw [e1, s1])
          (fun _ => b ▸ stateFor_ne_idle _) (by rw [e3, s2]) (by rw [e4, s3])
      · cases hs
    | bootstrapped h result =>
      simp only [step] at hs
      split at hs
      · rename_i hc
        simp only [Option.some.injEq] at hs
        subst hs
        obtain ⟨s1, s2, s3, s4, s5⟩ := setPending_effect w (some h) none
        obtain ⟨-, b, -⟩ := inv_completion hi hc
        have hact : w.driver.state ≠ ONIONTRACE_DRIVER_IDLE := b ▸ stateFor_ne_idle _
        cases result with
        | none =>
          obtain ⟨e1, -, e3, e4, -⟩ := onBootstrapped_failed_effect (w.setPending (some h) none)
          refine same _ ?_ ?_ (fun _ => hact) (by rw [e3, s2]) (by rw [e4, s3])
          · rw [e1, s1]; split <;> rfl
          · rw [e1, s1]; split <;> rfl
        | some s =>
          cases hm : w.driver.config.mode with
          | ONIONTRACE_MODE_RECORD =>
            obtain ⟨e1, -, e3, e4, -⟩ :=
              onBootstrapped_record_effect (w.setPending (some h) none) s
                (by rw [s1]; exact hm)
            exact same _ (by rw [e1, s1]) (by rw [e1, s1]) (fun _ => hact) (by rw [e3, s2])
              (by rw [e4, s3])
          | ONIONTRACE_MODE_PLAY =>
            have hm1 : (w.setPending (some h) none).driver.config.mode = ONIONTRACE_MODE_PLAY := by
              rw [s1]; exact hm
            obtain ⟨e1, -, -, -, e4, -⟩ :=
              onBootstrapped_play_effect (w.setPending (some h) none) s hm1
            rw [s1] at e1
            refine ⟨by rw [e1]; exact c1, fun hr => by rw [e1]; exact c2 hr,
              fun hr _ => by rw [e1]; exact c3 hr hact, ?_, ?_⟩
            · intro t ht1
              rw [e1] at ht1
              simp only at ht1
              have o1 := c4 t ht1
              rw [onBootstrapped_play_eq _ s hm1]
              apply registerPlayTimer_keeps
              · simp only [s2]; exact o1
              · simp only [s4]
                have := ht.fresh _ (mem_liveTimers_of_mem o1)
                simp only [shutdownTimerObj] at this ⊢
                omega
            · intro t ht1
              rw [e1] at ht1
              simp only at ht1
              refine Or.inl ⟨ht1, ?_⟩
              rw [e4, s3]
              constructor
              · intro hmem
                rcases List.mem_append.mp hmem with hmem | hmem
                · exact hmem
                · obtain ⟨p, -, hp⟩ := List.mem_map.mp (mem_accepted hmem)
                  simp [playRegistration, genericRegistration] at hp
              · exact fun o2 => List.mem_append_left _ o2
      · cases hs
    | timerReadable t expired now =>
      obtain ⟨made, freed, hd, ⟨r, hr1, hr2, hcase⟩, -⟩ := timerReadable_summary hs
      refine ⟨by rw [hd.config_eq]; exact c1, fun hr => by rw [hd.shutdown_eq]; exact c2 hr,
        fun hr h => by rw [hd.shutdown_eq]; exact c3 hr (hd.state_eq ▸ h), ?_, ?_⟩
      · intro t0 ht0
        rw [hd.shutdown_eq] at ht0
        have o1 := c4 t0 ht0
        have hlive := ht.sd_live t0 ht0
        have notplay : ∀ r0 ∈ w.manager.registered, r0.timer = t0 →
            r0.func ≠ ReadableFunc.playTimerReadable := by
          intro r0 hr0 hrt hfun
          obtain ⟨f, hf1, hf2⟩ := ht.reg_live r0 hr0
          rw [hrt] at hf1
          have := ht.func_unique _ hlive _ hf1 rfl
          rw [hf2.mp hfun] at this
          cases this
        rcases timerReadable_keeps hs _ o1 (ht.fresh _ (mem_liveTimers_of_mem o1)) with k | k
        · exact k
        · obtain ⟨k1, r0, k2, k3, k4⟩ := k
          exact absurd k4 (notplay r0 k2 (by rw [k3]; exact k1.symm))
      · intro t0 ht0
        rw [hd.shutdown_eq] at ht0
        have hlive := ht.sd_live t0 ht0
        have notplay : ∀ r0 ∈ w.manager.registered, r0.timer = t0 →
            r0.func ≠ ReadableFunc.playTimerReadable := by
          intro r0 hr0 hrt hfun
          obtain ⟨f, hf1, hf2⟩ := ht.reg_live r0 hr0
          rw [hrt] at hf1
          have := ht.func_unique _ hlive _ hf1 rfl
          rw [hf2.mp hfun] at this
          cases this
        refine Or.inl ⟨ht0, ?_⟩
        rw [hd.registered_eq]
        simp only [List.mem_filter, List.mem_append, decide_eq_true_eq]
        constructor
        · rintro ⟨hmem | hmem, -⟩
          · exact hmem
          · obtain ⟨p, -, hp⟩ := List.mem_map.mp (mem_accepted hmem)
            simp [playRegistration, genericRegistration] at hp
        · intro o2
          refine ⟨Or.inl o2, ?_⟩
          rcases hcase with ⟨hf, _⟩ | ⟨hf, hfunc⟩
          · rw [hf]; exact List.not_mem_nil _
          · rw [hf]
            simp only [List.mem_singleton, genericRegistration]
            intro heq
            exact notplay r hr1 (by rw [hr2]; exact heq.symm) hfunc
  obtain ⟨k1, k2, k3, k4, k5⟩ := core
  refine ⟨k1, k2, k3, k4, ?_, ?_⟩
  · intro t h
    rcases k5 t h with ⟨h0, hiff⟩ | hiff
    · rw [hiff, hstable t h0]
      exact hsd.sd_reg t h0
    · exact hiff
  · intro hr p hp hpf
    obtain ⟨F, M, tt, -⟩ := step_timerTransition ht hs
    rcases (tt.created_iff p).mp hp with h1 | h1
    · exact hsd.none_created hr p h1 hpf
    · have := tt.sd_made p h1 hpf
      rw [k2 hr] at this
      cases this

theorem invShutdown_run {cfg : OnionTraceConfig} {acts : List Action} {w : World}
    (hr : run (oniontracedriver_new cfg) acts = some w) : InvShutdown cfg w :=
  (run_invariant (fun w => Inv w ∧ InvTimers w ∧ InvLog w ∧ InvShutdown cfg w) (fun _ => True)
    (fun _ _ _ hp _ hs =>
      ⟨inv_step hp.1 hs, invTimers_step hp.2.1 hs, invLog_step hp.2.2.1 hs,
        invShutdown_step hp.1 hp.2.1 hp.2.2.1 hp.2.2.2 hs⟩)
    acts _ _ ⟨inv_new cfg, invTimers_new cfg, invLog_new cfg, invShutdown_new cfg⟩
    (fun _ _ => trivial) hr).2.2.2

theorem check_created (w : World) (tm : OnionTraceTimer) (expired : Bool) (now : Timespec)
    (h : tm.func ≠ TimerFunc.playCallback) :
    created (oniontracetimer_check w tm expired now).2.log = created w.log := by
  cases expired with
  | false => simp [oniontracetimer_check, World.emit]
  | true =>
    cases hf : tm.func with
    | heartbeat =>
      simp [oniontracetimer_check, World.emit, hf, _oniontracedriver_heartbeat, message]
    | shutdown =>
      simp [oniontracetimer_check, World.emit, hf, _oniontracedriver_shutdown,
        oniontraceeventmanager_stopMainLoop]
    | playCallback => exact absurd hf h

/-- A dispatch of a timer that is no Play-timer allocates nothing. -/
theorem timerReadable_created {w w1 : World} {t : Nat} {expired : Bool} {now : Timespec}
    (hs : step w (.timerReadable t expired now) = some w1)
    (h : (t, TimerFunc.playCallback) ∉ liveTimers w.timers) :
    created w1.log = created w.log := by
  simp only [step] at hs
  split at hs
  · cases hs
  · rename_i tm hf
    have h2 : tm.handle = t := by simpa using List.find?_some hf
    have hfunc : tm.func ≠ TimerFunc.playCallback := by
      intro hx
      apply h
      have := mem_liveTimers_of_mem (List.mem_of_find?_eq_some hf)
      rw [h2, hx] at this
      exact this
    have hc := check_created w tm expired now hfunc
    split at hs
    · cases hs
    · split at hs
      · simp only [Option.some.injEq] at hs
        subst hs
        unfold _oniontracedriver_genericTimerReadable
        simp only
        split
        · simpa [warning, World.emit] using hc
        · exact hc
      · simp only [Option.some.injEq] at hs
        subst hs
        unfold _oniontracedriver_playTimerReadable
        simp only
        split
        · simpa [warning, World.emit, oniontracetimer_free] using hc
        · simpa [oniontracetimer_free] using hc

theorem timerReadable_subset {w w1 : World} {t : Nat} {expired : Bool} {now : Timespec}
    (hs : step w (.timerReadable t expired now) = some w1)
    (h : (t, TimerFunc.playCallback) ∉ liveTimers w.timers) :
    ∀ p ∈ liveTimers w1.timers, p ∈ liveTimers w.timers := by
  obtain ⟨made, freed, hd, -, -⟩ := timerReadable_summary hs
  have hc := timerReadable_created hs h
  have hm : made = [] := by
    have := hd.created_eq
    rw [hc] at this
    exact List.self_eq_append_right.mp this
  intro p hp
  rw [hd.timers_eq, hm] at hp
  simp only [List.append_nil, List.mem_filter] at hp
  exact hp.1

theorem noPlayTimer_step {w w1 : World} {a : Action} (hn : NoPlayTimer w)
    (ha : a.successfulConstruction = false) (hs : step w a = some w1) : NoPlayTimer w1 := by
  have sub : (∀ p ∈ liveTimers w1.timers, p ∈ liveTimers w.timers) → NoPlayTimer w1 :=
    fun h p hp => hn p (h p hp)
  have same : w1.timers = w.timers → NoPlayTimer w1 := fun h => sub (fun p hp => h ▸ hp)
  cases a with
  | start result =>
    simp only [step, Option.some.injEq] at hs
    subst hs
    by_cases hst : w.driver.state = ONIONTRACE_DRIVER_IDLE
    · cases result with
      | none =>
        exact same (by rw [(start_failed_effect w hst).2])
      | some port =>
        obtain ⟨-, -, e3, -⟩ := start_effect w port hst
        intro p hp
        rw [e3] at hp
        simp only [List.mem_append, List.mem_filter, List.mem_cons] at hp
        rcases hp with ⟨hp, -⟩ | rfl | hp
        · exact hn p hp
        · simp
        · split at hp
          · simp only [List.mem_singleton] at hp
            subst hp
            simp
          · cases hp
    · exact same (by rw [start_rejected_effect w result hst])
  | stop =>
    simp only [step, Option.some.injEq] at hs
    subst hs
    by_cases hst : w.driver.state = ONIONTRACE_DRIVER_IDLE
    · exact same (by rw [stop_rejected_effect w hst])
    · obtain ⟨-, -, e3, -⟩ := stop_effect w hst
      apply sub
      intro p hp
      rw [e3] at hp
      simp only [List.mem_filter] at hp
      exact hp.1.1
  | connected h =>
    simp only [step] at hs
    split at hs
    · simp only [Option.some.injEq] at hs
      subst hs
      obtain ⟨-, -, e3, -⟩ := onConnected_effect (w.setPending (some h) none)
      obtain ⟨-, s2, -⟩ := setPending_effect w (some h) none
      exact same (by rw [e3, s2])
    · cases hs
  | authenticated h =>
    simp only [step] at hs
    split at hs
    · simp only [Option.some.injEq] at hs
      subst hs
      obtain ⟨-, -, e3, -⟩ := onAuthenticated_effect (w.setPending (some h) none)
      obtain ⟨-, s2, -⟩ := setPending_effect w (some h) none
      exact same (by rw [e3, s2])
    · cases hs
  | bootstrapped h result =>
    cases result with
    | some s => simp [Action.successfulConstruction] at ha
    | none =>
      simp only [step] at hs
      split at hs
      · simp only [Option.some.injEq] at hs
        subst hs
        obtain ⟨-, -, e3, -⟩ := onBootstrapped_failed_effect (w.setPending (some h) none)
        obtain ⟨-, s2, -⟩ := setPending_effect w (some h) none
        exact same (by rw [e3, s2])
      · cases hs
  | timerReadable t expired now =>
    apply sub
    apply timerReadable_subset hs
    intro hx
    exact hn _ hx rfl

theorem invPlay_of_noPlayTimer {w : World} (h : NoPlayTimer w) : InvPlay w :=
  ⟨fun p hp _ _ hpf _ => absurd hpf (h p hp), fun _ => h⟩

theorem invPlay_new (cfg : OnionTraceConfig) : InvPlay (oniontracedriver_new cfg) := by
  constructor <;> simp [oniontracedriver_new]

theorem invPlay_step {w w1 : World} {a : Action} (hi : Inv w) (ht : InvTimers w)
    (hp : InvPlay w) (ha : a.isStop = false) (hs : step w a = some w1) : InvPlay w1 := by
  by_cases hplaying : w.driver.state = ONIONTRACE_DRIVER_PLAYING
  · -- the driver is Playing: only a timer dispatch or a rejected call can happen
    cases a with
    | start result =>
      simp only [step, Option.some.injEq] at hs
      subst hs
      rw [start_rejected_effect w result (by rw [hplaying]; simp)]
      exact ⟨hp.unique, hp.none_unless_playing⟩
    | stop => simp [Action.isStop] at ha
    | connected h =>
      simp only [step] at hs
      split at hs
      · rename_i hc
        obtain ⟨-, b, -⟩ := inv_completion hi hc
        rw [hplaying] at b
        simp [stateFor] at b
      · cases hs
    | authenticated h =>
      simp only [step] at hs
      split at hs
      · rename_i hc
        obtain ⟨-, b, -⟩ := inv_completion hi hc
        rw [hplaying] at b
        simp [stateFor] at b
      · cases hs
    | bootstrapped h result =>
      simp only [step] at hs
      split at hs
      · rename_i hc
        obtain ⟨-, b, -⟩ := inv_completion hi hc
        rw [hplaying] at b
        simp [stateFor] at b
      · cases hs
    | timerReadable t expired now =>
      obtain ⟨made, freed, hd, ⟨r, hr1, hr2, hcase⟩, -⟩ := timerReadable_summary hs
      by_cases hx : (t, TimerFunc.playCallback) ∈ liveTimers w.timers
      · have hfreed : freed = [t] := by
          rcases hcase with ⟨_, hg⟩ | ⟨hf, _⟩
          · obtain ⟨f, hf1, hf2⟩ := ht.reg_live r hr1
            rw [hr2] at hf1
            have := ht.func_unique _ hf1 _ hx rfl
            simp only at this
            rw [hf2.mpr this] at hg
            cases hg
          · exact hf
        have hnew : ∀ p ∈ liveTimers w1.timers, p.2 = TimerFunc.playCallback →
            p ∈ made := by
          intro p hp1 hpf
          rw [hd.timers_eq, hfreed] at hp1
          simp only [List.mem_filter, List.mem_append, List.mem_singleton,
            decide_eq_true_eq] at hp1
          rcases hp1 with ⟨h1 | h1, h2⟩
          · exact absurd (hp.unique p h1 _ hx hpf rfl) h2
          · exact h1
        constructor
        · intro p hp1 q hq1 hpf hqf
          have a1 := hnew p hp1 hpf
          have a2 := hnew q hq1 hqf
          rcases hd.made_shape with hm | hm
          · rw [hm] at a1; cases a1
          · rw [hm] at a1 a2
            simp only [List.mem_singleton] at a1 a2
            rw [a1, a2]
        · intro hne
          rw [hd.state_eq] at hne
          exact absurd hplaying hne
      · have sub := timerReadable_subset hs hx
        constructor
        · intro p hp1 q hq1 hpf hqf
          exact hp.unique p (sub p hp1) q (sub q hq1) hpf hqf
        · intro hne
          rw [hd.state_eq] at hne
          exact absurd hplaying hne
  · have hn : NoPlayTimer w := hp.none_unless_playing hplaying
    cases a with
    | bootstrapped h result =>
      cases result with
      | none => exact invPlay_of_noPlayTimer (noPlayTimer_step hn (by rfl) hs)
      | some s =>
        simp only [step] at hs
        split at hs
        · simp only [Option.some.injEq] at hs
          subst hs
          obtain ⟨s1, s2, s3, s4, s5⟩ := setPending_effect w (some h) none
          cases hm : w.driver.config.mode with
          | ONIONTRACE_MODE_RECORD =>
            obtain ⟨-, -, e3, -⟩ :=
              onBootstrapped_record_effect (w.setPending (some h) none) s
                (by rw [s1]; exact hm)
            apply invPlay_of_noPlayTimer
            intro p hp1
            rw [e3, s2] at hp1
            exact hn p hp1
          | ONIONTRACE_MODE_PLAY =>
            obtain ⟨e1, -, e3, -⟩ :=
              onBootstrapped_play_effect (w.setPending (some h) none) s
                (by rw [s1]; exact hm)
            rw [s2] at e3
            have hnew : ∀ p ∈ liveTimers
                (_oniontracedriver_onBootstrapped (w.setPending (some h) none) (some s)).timers,
                p.2 = TimerFunc.playCallback →
                p = ((w.setPending (some h) none).nextHandle + 1, TimerFunc.playCallback) := by
              intro p hp1 hpf
              rw [e3] at hp1
              rcases List.mem_append.mp hp1 with h1 | h1
              · exact absurd hpf (hn p h1)
              · exact bootstrapMade_spec _ s p h1
            constructor
            · intro p hp1 q hq1 hpf hqf
              rw [hnew p hp1 hpf, hnew q hq1 hqf]
            · intro hne
              rw [e1] at hne
              exact absurd rfl hne
        · cases hs
    | start result => exact invPlay_of_noPlayTimer (noPlayTimer_step hn (by rfl) hs)
    | stop => exact invPlay_of_noPlayTimer (noPlayTimer_step hn (by rfl) hs)
    | connected h => exact invPlay_of_noPlayTimer (noPlayTimer_step hn (by rfl) hs)
    | authenticated h => exact invPlay_of_noPlayTimer (noPlayTimer_step hn (by rfl) hs)
    | timerReadable t expired now =>
      exact invPlay_of_noPlayTimer (noPlayTimer_step hn (by rfl) hs)

theorem invPlay_run {cfg : OnionTraceConfig} {acts : List Action} {w : World}
    (hf : ∀ a ∈ acts, a.isStop = false)
    (hr : run (oniontracedriver_new cfg) acts = some w) : InvPlay w :=
  (run_invariant (fun w => Inv w ∧ InvTimers w ∧ InvPlay w) (fun a => a.isStop = false)
    (fun _ _ _ hp ha hs =>
      ⟨inv_step hp.1 hs, invTimers_step hp.2.1 hs, invPlay_step hp.1 hp.2.1 hp.2.2 ha hs⟩)
    acts _ _ ⟨inv_new cfg, invTimers_new cfg, invPlay_new cfg⟩ hf hr).2.2

theorem noPlayTimer_run {w w1 : World} {acts : List Action} (hn : NoPlayTimer w)
    (hf : ∀ a ∈ acts, a.successfulConstruction = false) (hr : run w acts = some w1) :
    NoPlayTimer w1 :=
  run_invariant NoPlayTimer (fun a => a.successfulConstruction = false)
    (fun _ _ _ hp ha hs => noPlayTimer_step hp ha hs) acts _ _ hn hf hr

/-- A spurious wake of a registered timer: under the generic handler only the log grows,
under the handler of a Play-timer the timer is released. -/
theorem timerReadable_spurious {w w1 : World} {t : Nat} {now : Timespec}
    (hs : step w (.timerReadable t false now) = some w1) :
    ∃ r ∈ w.manager.registered, r.timer = t ∧
      ((r.func = ReadableFunc.genericTimerReadable ∧
          w1 = { w with log := w.log ++ [.timerCheck t false, .warning genericWarning] }) ∨
        (r.func = ReadableFunc.playTimerReadable ∧
          w1 = { w with
            timers := w.timers.filter fun x => x.handle ≠ t
            manager := { w.manager with
              registered := w.manager.registered.filter fun r => r.timer ≠ t }
            log := w.log ++
              [.timerCheck t false,
               .warning "Authority unable to execute play timer callback function.",
               .timerFree t] })) := by
  simp only [step] at hs
  split at hs
  · cases hs
  · rename_i tm hf
    have h2 : tm.handle = t := by simpa using List.find?_some hf
    split at hs
    · cases hs
    · rename_i r hrf
      have hr1 := List.mem_of_find?_eq_some hrf
      have hr2 : r.timer = t := by simpa using List.find?_some hrf
      refine ⟨r, hr1, hr2, ?_⟩
      split at hs
      · rename_i hfunc
        simp only [Option.some.injEq] at hs
        subst hs
        refine Or.inl ⟨hfunc, ?_⟩
        rw [genericTimerReadable_spurious, h2]
      · rename_i hfunc
        simp only [Option.some.injEq] at hs
        subst hs
        refine Or.inr ⟨hfunc, ?_⟩
        rw [playTimerReadable_spurious, h2]

/-- In a reachable world the handler registered for a live timer is that of a Play-timer
exactly when the timer is one. -/
theorem registered_play_iff {w : World} (ht : InvTimers w) {r : Registration}
    (hr : r ∈ w.manager.registered) {f : TimerFunc}
    (hf : (r.timer, f) ∈ liveTimers w.timers) :
    r.func = ReadableFunc.playTimerReadable ↔ f = TimerFunc.playCallback := by
  obtain ⟨g, hg1, hg2⟩ := ht.reg_live r hr
  have : g = f := ht.func_unique _ hg1 _ hf rfl
  rw [← this]
  exact hg2

/-! ## The claims on timers, bootstrap and heartbeat -/

/-- C11 does not hold as stated: in Play mode with a run time of five seconds the Player
construction fails, which asks the reactor to stop and leaves the driver Idle; after the
next Start the driver is Connecting and holds the shutdown timer 6, armed for the five
seconds, and it has called `register` for it, but the event manager has rejected the
registration. -/
theorem restart_after_failure_shutdown_unregistered :
    run (oniontracedriver_new samplePlay) (failedBootstrap ++ [.start (some 4001)]) =
      some sampleRestarted ∧
    samplePlay.runTimeSeconds > 0 ∧
    sampleRestarted.driver.state = ONIONTRACE_DRIVER_CONNECTING ∧
    sampleRestarted.driver.shutdownTimer = some 6 ∧
    shutdownTimerObj 6 samplePlay ∈ sampleRestarted.timers ∧
    Event.register 6 .genericTimerReadable 6 ∈ sampleRestarted.log ∧
    genericRegistration 6 ∉ sampleRestarted.manager.registered ∧
    sampleRestarted.manager.registered.map (fun r => r.timer) = [3] := by
  refine ⟨?_, ?_, ?_, ?_, ?_, ?_, ?_, ?_⟩ <;> decide

/-- C11, amended: in every state reachable from a driver created for `cfg` (so after every
successful Start) in which the driver is not Idle, the shutdown timer is non-NULL if and only
if the configured run time is greater than zero; a shutdown timer the driver holds is in the
heap, armed one-shot at the configured number of seconds, and it is registered with the
event manager if and only if the reactor had not been asked to stop before the timer was
allocated (so always while the log has no stop request); and with a run time that is not
positive no shutdown timer is ever held, allocated or live. -/
theorem shutdown_timer_held_iff_run_time (cfg : OnionTraceConfig) (acts : List Action)
    (w : World) (hr : run (oniontracedriver_new cfg) acts = some w) :
    (w.driver.state ≠ ONIONTRACE_DRIVER_IDLE →
      (w.driver.shutdownTimer.isSome = true ↔ cfg.runTimeSeconds > 0)) ∧
    (∀ t, w.driver.shutdownTimer = some t →
      shutdownTimerObj t cfg ∈ w.timers ∧
      (genericRegistration t ∈ w.manager.registered ↔ stoppedBefore t w.log = false) ∧
      (Event.stopMainLoop ∉ w.log → genericRegistration t ∈ w.manager.registered)) ∧
    (¬ cfg.runTimeSeconds > 0 →
      w.driver.shutdownTimer = none ∧
      (∀ t, Event.timerNew t .shutdown ∉ w.log) ∧
      (∀ p ∈ liveTimers w.timers, p.2 ≠ TimerFunc.shutdown)) := by
  have hs := invShutdown_run hr
  have ht := invTimers_run hr
  refine ⟨?_, ?_, ?_⟩
  · intro hact
    constructor
    · intro h1
      by_contra hn
      rw [hs.sd_none hn] at h1
      cases h1
    · exact fun h => hs.sd_some h hact
  · intro t h
    refine ⟨hs.sd_obj t h, hs.sd_reg t h, ?_⟩
    intro hno
    rw [hs.sd_reg t h]
    exact stoppedBefore_of_running t w.log hno
  · intro hn
    refine ⟨hs.sd_none hn, ?_, ?_⟩
    · intro t hmem
      exact hs.none_created hn _ ((mem_created_iff _ _ _).mpr hmem) rfl
    · intro p hp
      exact hs.none_created hn p (ht.live_created p hp)

/-- Witness of C11: after Start with a run time of five seconds the driver holds the
shutdown timer 3, armed and registered; it is still registered after it has fired. -/
theorem shutdown_timer_held_iff_run_time_witness :
    run (oniontracedriver_new samplePlay) [.start (some 4000)] = some samplePlayStarted ∧
    samplePlayStarted.driver.shutdownTimer = some 3 ∧
    shutdownTimerObj 3 samplePlay ∈ samplePlayStarted.timers ∧
    genericRegistration 3 ∈ samplePlayStarted.manager.registered ∧
    sampleShutdownFired.driver.shutdownTimer = some 3 ∧
    stoppedBefore 3 sampleShutdownFired.log = false ∧
    genericRegistration 3 ∈ sampleShutdownFired.manager.registered :=
  ⟨by decide, by decide,
    ((shutdown_timer_held_iff_run_time samplePlay [.start (some 4000)] samplePlayStarted
      (by decide)).2.1 3 (by decide)).1,
    ((shutdown_timer_held_iff_run_time samplePlay [.start (some 4000)] samplePlayStarted
      (by decide)).2.1 3 (by decide)).2.2 (by decide),
    by decide, by decide,
    ((shutdown_timer_held_iff_run_time samplePlay
      (handshake ++ [.bootstrapped 1 (some sampleTrace2), shutdownFire]) sampleShutdownFired
      (by decide)).2.1 3 (by decide)).2.1.mpr (by decide)⟩

/-- C12: when the subsystem construction succeeds, on_bootstrapped in Record mode sets the
state to Recording and the Recorder to the new one, and leaves the Player, the timers and the
registrations alone; in Play mode it sets the state to Playing and the Player to the new one,
leaves the Recorder alone and then runs register_play_timer exactly once (its one query of
the Player's next launch time is the only one in the calls made). In neither mode is the
reactor asked to stop. -/
theorem bootstrap_activates_subsystem (w : World) (s : Subsystem) :
    (w.driver.config.mode = ONIONTRACE_MODE_RECORD →
      (_oniontracedriver_onBootstrapped w (some s)).driver =
        { w.driver with
          state := ONIONTRACE_DRIVER_RECORDING
          recorder := some { handle := w.nextHandle, status := s.status } } ∧
      (_oniontracedriver_onBootstrapped w (some s)).timers = w.timers ∧
      (_oniontracedriver_onBootstrapped w (some s)).manager = w.manager ∧
      (_oniontracedriver_onBootstrapped w (some s)).log = w.log ++
        [.message (w.driver.id ++ ": successfully bootstrapped client port " ++
            toString (oniontracetorctl_getControlClientPort w w.driver.torctl)),
         .recorderNew w.driver.torctl w.driver.config.traceFileName (some w.nextHandle)]) ∧
    (w.driver.config.mode = ONIONTRACE_MODE_PLAY →
      (_oniontracedriver_onBootstrapped w (some s)).driver =
        { w.driver with
          state := ONIONTRACE_DRIVER_PLAYING
          player := some { handle := w.nextHandle, queue := s.trace, issued := 0,
                           status := s.status } } ∧
      (_oniontracedriver_onBootstrapped w (some s)).manager.stopCount = w.manager.stopCount ∧
      (_oniontracedriver_onBootstrapped w (some s)).log = w.log ++
        [.message (w.driver.id ++ ": successfully bootstrapped client port " ++
            toString (oniontracetorctl_getControlClientPort w w.driver.torctl)),
         .playerNew w.driver.torctl w.driver.config.traceFileName (some w.nextHandle)] ++
        registerPlayTimerEvents (some w.nextHandle) s.trace.head? (w.nextHandle + 1)) := by
  constructor
  · intro hm
    obtain ⟨e1, -, e3, e4, -⟩ := onBootstrapped_record_effect w s hm
    exact ⟨e1, e3, e4, onBootstrapped_record_log w s hm⟩
  · intro hm
    obtain ⟨e1, -, -, e4, -⟩ := onBootstrapped_play_effect w s hm
    refine ⟨e1, e4, ?_⟩
    rw [onBootstrapped_play_eq w s hm, (registerPlayTimer_log _).1]
    simp [oniontraceplayer_getNextCircuitLaunchTime]

/-- Witness of C12: on_bootstrapped in Play mode with the sample trace. -/
theorem bootstrap_activates_subsystem_witness :
    samplePlayBootstrapping.driver.config.mode = ONIONTRACE_MODE_PLAY ∧
    (_oniontracedriver_onBootstrapped samplePlayBootstrapping (some sampleTrace)).driver =
      { samplePlayBootstrapping.driver with
        state := ONIONTRACE_DRIVER_PLAYING
        player := some { handle := samplePlayBootstrapping.nextHandle,
                         queue := sampleTrace.trace, issued := 0,
                         status := sampleTrace.status } } :=
  ⟨by decide,
    ((bootstrap_activates_subsystem samplePlayBootstrapping sampleTrace).2 (by decide)).1⟩

/-- C13: when on_bootstrapped runs in an execution and the Recorder or Player cannot be
constructed, the state afterwards is Idle, the reactor has been asked to stop exactly once,
Recorder and Player are both NULL, and no timer has been allocated or registered. -/
theorem failed_construction_stops_reactor (cfg : OnionTraceConfig) (acts : List Action)
    (w w1 : World) (h : Nat) (hr : run (oniontracedriver_new cfg) acts = some w)
    (hs : step w (.bootstrapped h none) = some w1) :
    w1.driver.state = ONIONTRACE_DRIVER_IDLE ∧
    w1.manager.stopCount = w.manager.stopCount + 1 ∧
    w1.log.count Event.stopMainLoop = w.log.count Event.stopMainLoop + 1 ∧
    w1.driver.recorder = none ∧
    w1.driver.player = none ∧
    w1.timers = w.timers ∧
    w1.manager.registered = w.manager.registered ∧
    created w1.log = created w.log := by
  have hi := inv_run hr
  simp only [step] at hs
  split at hs
  · rename_i hc
    simp only [Option.some.injEq] at hs
    subst hs
    obtain ⟨s1, s2, s3, s4, s5⟩ := setPending_effect w (some h) none
    obtain ⟨-, b, -⟩ := inv_completion hi hc
    have hrec : w.driver.recorder = none := by
      cases hx : w.driver.recorder with
      | none => rfl
      | some r =>
        have := hi.recorder_iff.mp (by simp [hx])
        rw [b] at this
        simp [stateFor] at this
    have hpl : w.driver.player = none := by
      cases hx : w.driver.player with
      | none => rfl
      | some r =>
        have := hi.player_iff.mp (by simp [hx])
        rw [b] at this
        simp [stateFor] at this
    obtain ⟨e1, -, e3, e4, -, -, e7⟩ := onBootstrapped_failed_effect (w.setPending (some h) none)
    have el := onBootstrapped_failed_log (w.setPending (some h) none)
    rw [s1] at e1
    refine ⟨?_, ?_, ?_, ?_, ?_, by rw [e3, s2], by rw [e4, s3], by rw [e7, s5]⟩
    · rw [e1]; split <;> rfl
    · rw [e4, s3]
    · rw [el, s5, List.count_append]
      split <;> simp
    · rw [e1]; split
      · rfl
      · exact hrec
    · rw [e1]; split
      · exact hpl
      · rfl
  · cases hs

/-- Witness of C13: the Recorder construction fails after the handshake. -/
theorem failed_construction_stops_reactor_witness :
    run (oniontracedriver_new sampleRecord) handshake = some sampleBootstrapping ∧
    step sampleBootstrapping (.bootstrapped 1 none) = some sampleFailed ∧
    sampleFailed.driver.state = ONIONTRACE_DRIVER_IDLE ∧
    sampleFailed.manager.stopCount = sampleBootstrapping.manager.stopCount + 1 :=
  ⟨by decide, by decide,
    (failed_construction_stops_reactor sampleRecord handshake sampleBootstrapping sampleFailed 1
      (by decide) (by decide)).1,
    (failed_construction_stops_reactor sampleRecord handshake sampleBootstrapping sampleFailed 1
      (by decide) (by decide)).2.1⟩

theorem run_append {w w2 : World} (pre post : List Action)
    (h : run w (pre ++ post) = some w2) :
    ∃ w1, run w pre = some w1 ∧ run w1 post = some w2 := by
  induction pre generalizing w with
  | nil => exact ⟨w, rfl, h⟩
  | cons a as ih =>
    simp only [List.cons_append, run] at h ⊢
    cases hs : step w a with
    | none => simp [hs] at h
    | some w3 =>
      simp only [hs, Option.some_bind] at h ⊢
      exact ih h

/-- A step that is no successful construction arms a Play-timer only in the read handler of
a Play-timer, which frees that one: at most one Play-timer stays live. -/
theorem uniquePlay_step {w w1 : World} {a : Action} (ht : InvTimers w) (hu : UniquePlay w)
    (ha : a.successfulConstruction = false) (hs : step w a = some w1) : UniquePlay w1 := by
  have sub : (∀ p ∈ liveTimers w1.timers, p.2 = TimerFunc.playCallback →
      p ∈ liveTimers w.timers) → UniquePlay w1 :=
    fun h p hp q hq hpf hqf => hu p (h p hp hpf) q (h q hq hqf) hpf hqf
  have same : w1.timers = w.timers → UniquePlay w1 := fun h => sub (fun p hp _ => h ▸ hp)
  cases a with
  | start result =>
    simp only [step, Option.some.injEq] at hs
    subst hs
    by_cases hst : w.driver.state = ONIONTRACE_DRIVER_IDLE
    · cases result with
      | none =>
        exact same (by rw [(start_failed_effect w hst).2])
      | some port =>
        obtain ⟨-, -, e3, -⟩ := start_effect w port hst
        apply sub
        intro p hp hpf
        rw [e3] at hp
        simp only [List.mem_append, List.mem_filter, List.mem_cons] at hp
        rcases hp with ⟨hp, -⟩ | rfl | hp
        · exact hp
        · cases hpf
        · split at hp
          · simp only [List.mem_singleton] at hp
            subst hp
            cases hpf
          · cases hp
    · exact same (by rw [start_rejected_effect w result hst])
  | stop =>
    simp only [step, Option.some.injEq] at hs
    subst hs
    by_cases hst : w.driver.state = ONIONTRACE_DRIVER_IDLE
    · exact same (by rw [stop_rejected_effect w hst])
    · obtain ⟨-, -, e3, -⟩ := stop_effect w hst
      apply sub
      intro p hp _
      rw [e3] at hp
      simp only [List.mem_filter] at hp
      exact hp.1.1
  | connected h =>
    simp only [step] at hs
    split at hs
    · simp only [Option.some.injEq] at hs
      subst hs
      obtain ⟨-, -, e3, -⟩ := onConnected_effect (w.setPending (some h) none)
      obtain ⟨-, s2, -⟩ := setPending_effect w (some h) none
      exact same (by rw [e3, s2])
    · cases hs
  | authenticated h =>
    simp only [step] at hs
    split at hs
    · simp only [Option.some.injEq] at hs
      subst hs
      obtain ⟨-, -, e3, -⟩ := onAuthenticated_effect (w.setPending (some h) none)
      obtain ⟨-, s2, -⟩ := setPending_effect w (some h) none
      exact same (by rw [e3, s2])
    · cases hs
  | bootstrapped h result =>
    cases result with
    | some s => simp [Action.successfulConstruction] at ha
    | none =>
      simp only [step] at hs
      split at hs
      · simp only [Option.some.injEq] at hs
        subst hs
        obtain ⟨-, -, e3, -⟩ := onBootstrapped_failed_effect (w.setPending (some h) none)
        obtain ⟨-, s2, -⟩ := setPending_effect w (some h) none
        exact same (by rw [e3, s2])
      · cases hs
  | timerReadable t expired now =>
    obtain ⟨made, freed, hd, ⟨r, hr1, hr2, hcase⟩, -⟩ := timerReadable_summary hs
    by_cases hx : (t, TimerFunc.playCallback) ∈ liveTimers w.timers
    · have hfreed : freed = [t] := by
        rcases hcase with ⟨_, hg⟩ | ⟨hf, _⟩
        · obtain ⟨f, hf1, hf2⟩ := ht.reg_live r hr1
          rw [hr2] at hf1
          have := ht.func_unique _ hf1 _ hx rfl
          simp only at this
          rw [hf2.mpr this] at hg
          cases hg
        · exact hf
      have hnew : ∀ p ∈ liveTimers w1.timers, p.2 = TimerFunc.playCallback →
          p ∈ made := by
        intro p hp1 hpf
        rw [hd.timers_eq, hfreed] at hp1
        simp only [List.mem_filter, List.mem_append, List.mem_singleton,
          decide_eq_true_eq] at hp1
        rcases hp1 with ⟨h1 | h1, h2⟩
        · exact absurd (hu p h1 _ hx hpf rfl) h2
        · exact h1
      intro p hp1 q hq1 hpf hqf
      have a1 := hnew p hp1 hpf
      have a2 := hnew q hq1 hqf
      rcases hd.made_shape with hm | hm
      · rw [hm] at a1; cases a1
      · rw [hm] at a1 a2
        simp only [List.mem_singleton] at a1 a2
        rw [a1, a2]
    · exact sub (fun p hp _ => timerReadable_subset hs hx p hp)

theorem uniquePlay_run {w w1 : World} {acts : List Action} (ht : InvTimers w)
    (hu : UniquePlay w) (hf : ∀ a ∈ acts, a.successfulConstruction = false)
    (hr : run w acts = some w1) : UniquePlay w1 :=
  (run_invariant (fun w => InvTimers w ∧ UniquePlay w)
    (fun a => a.successfulConstruction = false)
    (fun _ _ _ hp ha hs => ⟨invTimers_step hp.1 hs, uniquePlay_step hp.1 hp.2 ha hs⟩)
    acts _ _ ⟨ht, hu⟩ hf hr).2

/-- Counterexample to C14: a playing driver is stopped while its Play-timer (5) is armed, is
started again and bootstraps again; then two Play-timers (5 and 10) are live and registered
with the event manager. -/
theorem restart_arms_second_play_timer :
    (run (oniontracedriver_new samplePlay) (bootstrap ++ restart)).map
      (fun w => w.driver.state) = some ONIONTRACE_DRIVER_PLAYING ∧
    (run (oniontracedriver_new samplePlay) (bootstrap ++ restart)).map
      (fun w => liveTimers w.timers) =
      some [(5, .playCallback), (7, .heartbeat), (8, .shutdown), (10, .playCallback)] ∧
    (run (oniontracedriver_new samplePlay) (bootstrap ++ restart)).map
      (fun w => w.manager.registered) =
      some [playRegistration (5, .playCallback), genericRegistration 7,
        genericRegistration 8, playRegistration (10, .playCallback)] := by
  refine ⟨?_, ?_, ?_⟩ <;> decide

/-- C14, amended: in every state reachable from a new driver by an execution that consists
of a part in which Stop is not called followed by a part in which no Recorder or Player
construction succeeds (so in every execution up to the first successful on_bootstrapped
that follows a Stop, and in every execution in which the driver is started and stopped once),
at most one Play-timer is live (any two live Play-timers are the same timer) and at most one
timer is registered with the read handler of Play-timers; and if Stop is not called at all,
no Play-timer is live unless the driver is Playing. -/
theorem one_play_timer_per_session (cfg : OnionTraceConfig) (pre post : List Action)
    (w : World) (hpre : ∀ a ∈ pre, a.isStop = false)
    (hpost : ∀ a ∈ post, a.successfulConstruction = false)
    (hr : run (oniontracedriver_new cfg) (pre ++ post) = some w) :
    (∀ p ∈ liveTimers w.timers, ∀ q ∈ liveTimers w.timers,
      p.2 = TimerFunc.playCallback → q.2 = TimerFunc.playCallback → p.1 = q.1) ∧
    (∀ r ∈ w.manager.registered, ∀ r1 ∈ w.manager.registered,
      r.func = ReadableFunc.playTimerReadable → r1.func = ReadableFunc.playTimerReadable →
        r.timer = r1.timer) ∧
    ((∀ a ∈ post, a.isStop = false) → w.driver.state ≠ ONIONTRACE_DRIVER_PLAYING →
      ∀ p ∈ liveTimers w.timers, p.2 ≠ TimerFunc.playCallback) := by
  obtain ⟨w1, hr1, hr2⟩ := run_append pre post hr
  have hu : UniquePlay w :=
    uniquePlay_run (invTimers_run hr1) (invPlay_run hpre hr1).unique hpost hr2
  have ht := invTimers_run hr
  refine ⟨hu, ?_, ?_⟩
  · intro r hr0 r1 hr1 hfr hfr1
    obtain ⟨f, a1, a2⟩ := ht.reg_live r hr0
    obtain ⟨g, b1, b2⟩ := ht.reg_live r1 hr1
    exact hu _ a1 _ b1 (a2.mp hfr) (b2.mp hfr1)
  · intro hns
    have hall : ∀ a ∈ pre ++ post, a.isStop = false := by
      intro a ha
      rcases List.mem_append.mp ha with h | h
      · exact hpre a h
      · exact hns a h
    exact (invPlay_run hall hr).none_unless_playing

/-- Witness of C14: the first session in Play mode and the Stop after it: the one Play-timer
5 stays the only one. -/
theorem one_play_timer_per_session_witness :
    (∀ a ∈ bootstrap, a.isStop = false) ∧
    (∀ a ∈ [Action.stop], a.successfulConstruction = false) ∧
    run (oniontracedriver_new samplePlay) (bootstrap ++ [.stop]) = some sampleStopped ∧
    liveTimers sampleStopped.timers = [(5, .playCallback)] ∧
    (∀ p ∈ liveTimers sampleStopped.timers, ∀ q ∈ liveTimers sampleStopped.timers,
      p.2 = TimerFunc.playCallback → q.2 = TimerFunc.playCallback → p.1 = q.1) :=
  ⟨by decide, by decide, by decide, by decide,
    (one_play_timer_per_session samplePlay bootstrap [.stop] sampleStopped (by decide)
      (by decide) (by decide)).1⟩

/-- Counterexample to C17: the shutdown timer (3) is one-shot, and after a spurious wake of
it nothing has been freed and it is still live and registered. -/
theorem spurious_shutdown_wake_keeps_timer :
    samplePlayStarted.driver.shutdownTimer = some 3 ∧
    shutdownTimerObj 3 samplePlay ∈ samplePlayStarted.timers ∧
    (step samplePlayStarted (.timerReadable 3 false { tv_sec := 1, tv_nsec := 0 })).map
      (fun w => frees w.log) = some [] ∧
    (step samplePlayStarted (.timerReadable 3 false { tv_sec := 1, tv_nsec := 0 })).map
      (fun w => liveTimers w.timers) = some [(2, .heartbeat), (3, .shutdown)] ∧
    (step samplePlayStarted (.timerReadable 3 false { tv_sec := 1, tv_nsec := 0 })).map
      (fun w => w.manager.registered) =
      some [genericRegistration 2, genericRegistration 3] := by
  refine ⟨?_, ?_, ?_, ?_, ?_⟩ <;> decide

/-- C17, amended: on a spurious wake of a timer in a reachable state, the driver frees the
timer if it is a Play-timer (it is then neither live nor registered afterwards), and leaves
the heap, the registrations and the frees as they were if it is not, in particular if it is
the heartbeat timer or the shutdown timer of the driver. -/
theorem spurious_wake_frees_play_timer_only (cfg : OnionTraceConfig) (acts : List Action)
    (w w1 : World) (t : Nat) (now : Timespec)
    (hr : run (oniontracedriver_new cfg) acts = some w)
    (hs : step w (.timerReadable t false now) = some w1) :
    ((t, TimerFunc.playCallback) ∈ liveTimers w.timers →
      frees w1.log = frees w.log ++ [t] ∧
      (∀ p ∈ liveTimers w1.timers, p.1 ≠ t) ∧
      (∀ r ∈ w1.manager.registered, r.timer ≠ t)) ∧
    ((t, TimerFunc.playCallback) ∉ liveTimers w.timers →
      w1.timers = w.timers ∧ w1.manager = w.manager ∧ frees w1.log = frees w.log) ∧
    ((w.driver.heartbeatTimer = some t ∨ w.driver.shutdownTimer = some t) →
      w1.timers = w.timers ∧ w1.manager = w.manager ∧ frees w1.log = frees w.log) := by
  have ht := invTimers_run hr
  obtain ⟨r, hr1, hr2, hcase⟩ := timerReadable_spurious hs
  have hiff : ∀ f, (t, f) ∈ liveTimers w.timers →
      (r.func = ReadableFunc.playTimerReadable ↔ f = TimerFunc.playCallback) := by
    intro f hf
    exact registered_play_iff ht hr1 (by rw [hr2]; exact hf)
  have notplay : (t, TimerFunc.playCallback) ∉ liveTimers w.timers →
      w1.timers = w.timers ∧ w1.manager = w.manager ∧ frees w1.log = frees w.log := by
    intro hn
    rcases hcase with ⟨_, hw⟩ | ⟨hfun, _⟩
    · rw [hw]
      simp
    · obtain ⟨f, hf1, hf2⟩ := ht.reg_live r hr1
      rw [hr2] at hf1
      rw [hf2.mp hfun] at hf1
      exact absurd hf1 hn
  refine ⟨?_, notplay, ?_⟩
  · intro hp
    rcases hcase with ⟨hfun, _⟩ | ⟨_, hw⟩
    · rw [(hiff _ hp).mpr rfl] at hfun
      cases hfun
    · rw [hw]
      refine ⟨by simp, ?_, ?_⟩
      · intro p hp1
        simp only [liveTimers, List.mem_map, List.mem_filter, decide_eq_true_eq] at hp1
        obtain ⟨x, ⟨-, hx⟩, rfl⟩ := hp1
        exact hx
      · intro r0 hr0
        simp only [List.mem_filter, decide_eq_true_eq] at hr0
        exact hr0.2
  · intro h
    apply notplay
    intro hp
    rcases h with h | h
    · have := ht.func_unique _ (ht.hb_live t h) _ hp rfl
      cases this
    · have := ht.func_unique _ (ht.sd_live t h) _ hp rfl
      cases this

/-- Witness of C17: a spurious wake of the Play-timer 5 of the playing sample frees it. -/
theorem spurious_wake_frees_play_timer_only_witness :
    run (oniontracedriver_new samplePlay) bootstrap = some samplePlaying ∧
    step samplePlaying (.timerReadable 5 false { tv_sec := 1, tv_nsec := 0 }) =
      some sampleSpurious ∧
    (5, TimerFunc.playCallback) ∈ liveTimers samplePlaying.timers ∧
    frees sampleSpurious.log = frees samplePlaying.log ++ [5] :=
  ⟨by decide, by decide, by decide,
    ((spurious_wake_frees_play_timer_only samplePlay bootstrap samplePlaying sampleSpurious
      5 { tv_sec := 1, tv_nsec := 0 } (by decide) (by decide)).1 (by decide)).1⟩

/-- C18: in every state reachable from a new driver, the heartbeat callback stores the clock
value in the cached now, changes no other field of the driver, and logs exactly one message:
the id, ": heartbeat: state=" and the upper-case name of the state, followed by one space and
the Recorder's status text when the state is Recording, by one space and the Player's status
text when the state is Playing, and by nothing in the other states; the six state names are
pairwise distinct. -/
theorem heartbeat_line (cfg : OnionTraceConfig) (acts : List Action) (w : World)
    (now : Timespec) (hr : run (oniontracedriver_new cfg) acts = some w) :
    _oniontracedriver_heartbeat w now =
      { w with
        driver := { w.driver with nowCached := now }
        log := w.log ++ [.message (heartbeatLine { w.driver with nowCached := now })] } ∧
    (w.driver.state = ONIONTRACE_DRIVER_RECORDING →
      ∃ r, w.driver.recorder = some r ∧
        heartbeatLine { w.driver with nowCached := now } =
          w.driver.id ++ ": heartbeat: state=" ++ "RECORDING" ++ " " ++
            oniontracerecorder_toString r) ∧
    (w.driver.state = ONIONTRACE_DRIVER_PLAYING →
      ∃ p, w.driver.player = some p ∧
        heartbeatLine { w.driver with nowCached := now } =
          w.driver.id ++ ": heartbeat: state=" ++ "PLAYING" ++ " " ++
            oniontraceplayer_toString p) ∧
    (w.driver.state ≠ ONIONTRACE_DRIVER_RECORDING →
      w.driver.state ≠ ONIONTRACE_DRIVER_PLAYING →
      heartbeatLine { w.driver with nowCached := now } =
        w.driver.id ++ ": heartbeat: state=" ++
          _oniontracedriver_stateToString w.driver.state) ∧
    (List.map _oniontracedriver_stateToString
      [ONIONTRACE_DRIVER_IDLE, ONIONTRACE_DRIVER_CONNECTING, ONIONTRACE_DRIVER_AUTHENTICATING,
       ONIONTRACE_DRIVER_BOOTSTRAPPING, ONIONTRACE_DRIVER_RECORDING,
       ONIONTRACE_DRIVER_PLAYING] =
      ["IDLE", "CONNECTING", "AUTHENTICATING", "BOOTSTRAPPING", "RECORDING", "PLAYING"]) ∧
    Function.Injective _oniontracedriver_stateToString := by
  have hi := inv_run hr
  refine ⟨heartbeat_eq w now, ?_, ?_, ?_, rfl, stateToString_injective⟩
  · intro hs
    have h1 := hi.recorder_iff.mpr hs
    obtain ⟨r, hrec⟩ := Option.isSome_iff_exists.mp h1
    refine ⟨r, hrec, ?_⟩
    rw [heartbeatLine_eq, hs, hrec]
    simp [heartbeatHead, hs, _oniontracedriver_stateToString]
  · intro hs
    have h1 := hi.player_iff.mpr hs
    obtain ⟨p, hpl⟩ := Option.isSome_iff_exists.mp h1
    refine ⟨p, hpl, ?_⟩
    rw [heartbeatLine_eq, hs, hpl]
    simp [heartbeatHead, hs, _oniontracedriver_stateToString]
  · intro h1 h2
    rw [heartbeatLine_eq]
    split
    · rename_i hx _
      exact absurd hx h1
    · rename_i hx _
      exact absurd hx h2
    · rfl

/-- Witness of C18: the heartbeat of the playing sample stores the clock value and logs one
message. -/
theorem heartbeat_line_witness :
    run (oniontracedriver_new samplePlay) bootstrap = some samplePlaying ∧
    _oniontracedriver_heartbeat samplePlaying { tv_sec := 1, tv_nsec := 0 } =
      { samplePlaying with
        driver := { samplePlaying.driver with nowCached := { tv_sec := 1, tv_nsec := 0 } }
        log := samplePlaying.log ++
          [.message (heartbeatLine
            { samplePlaying.driver with nowCached := { tv_sec := 1, tv_nsec := 0 } })] } :=
  ⟨by decide,
    (heartbeat_line samplePlay bootstrap samplePlaying { tv_sec := 1, tv_nsec := 0 }
      (by decide)).1⟩

/-- C19, the code at the failing input: after a Stop of the playing sample the state is Idle
and the Player is NULL while the Play-timer 5 is still live and registered; when it fires,
the play callback calls `oniontraceplayer_launchNextCircuit` with the NULL Player. -/
theorem play_timer_fires_on_stopped_driver :
    run (oniontracedriver_new samplePlay) (bootstrap ++ [.stop]) = some sampleStopped ∧
    sampleStopped.driver.state = ONIONTRACE_DRIVER_IDLE ∧
    sampleStopped.driver.player = none ∧
    liveTimers sampleStopped.timers = [(5, .playCallback)] ∧
    sampleStopped.manager.registered = [playRegistration (5, .playCallback)] ∧
    (step sampleStopped (.timerReadable 5 true { tv_sec := 10, tv_nsec := 0 })).map
      (fun w => w.log.drop sampleStopped.log.length) =
      some [.timerCheck 5 true, .launchNextCircuit none,
        .getNextCircuitLaunchTime none none, .timerFree 5] := by
  refine ⟨?_, ?_, ?_, ?_, ?_, ?_⟩ <;> decide

/-- Counterexample to C20: after the spurious wake has freed the only Play-timer, a later
step does arm one: the driver is stopped, started again, and its on_bootstrapped arms the
Play-timer 10. -/
theorem restart_after_spurious_wake_rearms :
    (run (oniontracedriver_new samplePlay) (bootstrap ++ [spuriousWake])).map
      (fun w => liveTimers w.timers) = some [(2, .heartbeat), (3, .shutdown)] ∧
    (run (oniontracedriver_new samplePlay) (bootstrap ++ [spuriousWake] ++ restart)).map
      (fun w => liveTimers w.timers) =
      some [(7, .heartbeat), (8, .shutdown), (10, .playCallback)] ∧
    (run (oniontracedriver_new samplePlay) (bootstrap ++ [spuriousWake] ++ restart)).map
      (fun w => w.manager.registered) =
      some [genericRegistration 7, genericRegistration 8,
        playRegistration (10, .playCallback)] := by
  refine ⟨?_, ?_, ?_⟩ <;> decide

/-- C20, amended: when the descriptor of a Play-timer is readable but `check()` did not
invoke the callback, the handler logs the check and a warning and frees that timer; it
launches no circuit, asks the Player nothing, registers no new Play-timer and leaves the
driver (and so the Player's queue) as it was. In a reachable state, if that timer was the
only live Play-timer, no Play-timer is live afterwards, and none is live after any later
steps among which there is no on_bootstrapped with a successful construction. -/
theorem spurious_play_wake_stalls_replay (cfg : OnionTraceConfig) (acts : List Action)
    (w w1 : World) (t : Nat) (now : Timespec)
    (hr : run (oniontracedriver_new cfg) acts = some w)
    (hs : step w (.timerReadable t false now) = some w1)
    (hp : (t, TimerFunc.playCallback) ∈ liveTimers w.timers)
    (honly : ∀ p ∈ liveTimers w.timers, p.2 = TimerFunc.playCallback → p.1 = t) :
    w1 = { w with
      timers := w.timers.filter fun x => x.handle ≠ t
      manager := { w.manager with
        registered := w.manager.registered.filter fun r => r.timer ≠ t }
      log := w.log ++
        [.timerCheck t false,
         .warning "Authority unable to execute play timer callback function.",
         .timerFree t] } ∧
    w1.driver = w.driver ∧
    NoPlayTimer w1 ∧
    (∀ (later : List Action) (w2 : World),
      (∀ a ∈ later, a.successfulConstruction = false) → run w1 later = some w2 →
        NoPlayTimer w2) := by
  have ht := invTimers_run hr
  obtain ⟨r, hr1, hr2, hcase⟩ := timerReadable_spurious hs
  have hfun : r.func = ReadableFunc.playTimerReadable :=
    (registered_play_iff ht hr1 (by rw [hr2]; exact hp)).mpr rfl
  have hw : w1 = { w with
      timers := w.timers.filter fun x => x.handle ≠ t
      manager := { w.manager with
        registered := w.manager.registered.filter fun r => r.timer ≠ t }
      log := w.log ++
        [.timerCheck t false,
         .warning "Authority unable to execute play timer callback function.",
         .timerFree t] } := by
    rcases hcase with ⟨hg, _⟩ | ⟨_, hw⟩
    · rw [hfun] at hg
      cases hg
    · exact hw
  have hn : NoPlayTimer w1 := by
    intro p hp1 hpf
    rw [hw] at hp1
    simp only [liveTimers, List.mem_map, List.mem_filter, decide_eq_true_eq] at hp1
    obtain ⟨x, ⟨hx1, hx2⟩, rfl⟩ := hp1
    exact hx2 (honly _ (mem_liveTimers_of_mem hx1) hpf)
  exact ⟨hw, by rw [hw], hn, fun later w2 hf hr2 => noPlayTimer_run hn hf hr2⟩

/-- Witness of C20: the spurious wake of the Play-timer 5 of the playing sample, followed by
a heartbeat. -/
theorem spurious_play_wake_stalls_replay_witness :
    run (oniontracedriver_new samplePlay) bootstrap = some samplePlaying ∧
    step samplePlaying (.timerReadable 5 false { tv_sec := 1, tv_nsec := 0 }) =
      some sampleSpurious ∧
    (5, TimerFunc.playCallback) ∈ liveTimers samplePlaying.timers ∧
    (∀ p ∈ liveTimers samplePlaying.timers, p.2 = TimerFunc.playCallback → p.1 = 5) ∧
    sampleSpurious.driver = samplePlaying.driver ∧
    NoPlayTimer sampleSpurious :=
  ⟨by decide, by decide, by decide, by decide,
    (spurious_play_wake_stalls_replay samplePlay bootstrap samplePlaying sampleSpurious 5
      { tv_sec := 1, tv_nsec := 0 } (by decide) (by decide) (by decide) (by decide)).2.1,
    (spurious_play_wake_stalls_replay samplePlay bootstrap samplePlaying sampleSpurious 5
      { tv_sec := 1, tv_nsec := 0 } (by decide) (by decide) (by decide) (by decide)).2.2.1⟩

end OnionTrace
